import Mathlib

/-!
# jobtome URL shortener: the shorten service and its storage contract

A shallow embedding of `internal/shorten/service.go`, `internal/error.go`,
`internal/storage/sqllite.go` and `internal/storage/shorten/shorten.go`.

Conventions of the embedding:
* a Go `string` is a Lean `String` (a sequence of code points, whose bytes are
  its UTF-8 encoding); byte strings that are not valid UTF-8 are not represented;
* `int64` values are `Int` (the service only compares and copies them);
* a Go `error` is `Option GoError`, `none` being `nil`;
* a Go function returning `(v, err)` returns the pair, so a value that
  accompanies a non-nil error is kept as the code produces it;
* `context.Context` arguments are dropped (cancellation is not modelled);
* code that reads or writes the database or the clock is a function
  `σ → result × σ` on an explicit state `σ`.
-/

namespace Jobtome

/-! ## crypto/md5 (RFC 1321) on lists of bytes -/

namespace md5

/-- Addition of 32-bit words. -/
def add32 (a b : Nat) : Nat := (a + b) % 4294967296

/-- Bitwise complement of a 32-bit word. -/
def not32 (a : Nat) : Nat := Nat.xor a 4294967295

/-- Rotation to the left of a 32-bit word. -/
def rotl32 (x s : Nat) : Nat :=
  Nat.lor ((x <<< s) % 4294967296) (x >>> (32 - s))

/-- The per-round shift amounts. -/
def shifts : List Nat :=
  [7, 12, 17, 22, 7, 12, 17, 22, 7, 12, 17, 22, 7, 12, 17, 22,
   5, 9, 14, 20, 5, 9, 14, 20, 5, 9, 14, 20, 5, 9, 14, 20,
   4, 11, 16, 23, 4, 11, 16, 23, 4, 11, 16, 23, 4, 11, 16, 23,
   6, 10, 15, 21, 6, 10, 15, 21, 6, 10, 15, 21, 6, 10, 15, 21]

/-- The sine table: entry `i` is the integer part of `2^32 * |sin (i + 1)|`. -/
def sines : List Nat :=
  [0xd76aa478, 0xe8c7b756, 0x242070db, 0xc1bdceee, 0xf57c0faf, 0x4787c62a, 0xa8304613, 0xfd469501,
   0x698098d8, 0x8b44f7af, 0xffff5bb1, 0x895cd7be, 0x6b901122, 0xfd987193, 0xa679438e, 0x49b40821,
   0xf61e2562, 0xc040b340, 0x265e5a51, 0xe9b6c7aa, 0xd62f105d, 0x02441453, 0xd8a1e681, 0xe7d3fbc8,
   0x21e1cde6, 0xc33707d6, 0xf4d50d87, 0x455a14ed, 0xa9e3e905, 0xfcefa3f8, 0x676f02d9, 0x8d2a4c8a,
   0xfffa3942, 0x8771f681, 0x6d9d6122, 0xfde5380c, 0xa4beea44, 0x4bdecfa9, 0xf6bb4b60, 0xbebfbc70,
   0x289b7ec6, 0xeaa127fa, 0xd4ef3085, 0x04881d05, 0xd9d4d039, 0xe6db99e5, 0x1fa27cf8, 0xc4ac5665,
   0xf4292244, 0x432aff97, 0xab9423a7, 0xfc93a039, 0x655b59c3, 0x8f0ccc92, 0xffeff47d, 0x85845dd1,
   0x6fa87e4f, 0xfe2ce6e0, 0xa3014314, 0x4e0811a1, 0xf7537e82, 0xbd3af235, 0x2ad7d2bb, 0xeb86d391]

/-- The four chaining words. -/
structure Digest where
  a : Nat
  b : Nat
  c : Nat
  d : Nat
deriving DecidableEq, Repr

/-- The initial chaining value. -/
def init : Digest := ⟨0x67452301, 0xefcdab89, 0x98badcfe, 0x10325476⟩

/-- The little-endian bytes of a 32-bit word. -/
def le32 (w : Nat) : List Nat :=
  [w % 256, (w >>> 8) % 256, (w >>> 16) % 256, (w >>> 24) % 256]

/-- The 32-bit word at index `g` of a 64-byte block, read little-endian. -/
def word (block : List Nat) (g : Nat) : Nat :=
  block.getD (4 * g) 0 + 256 * block.getD (4 * g + 1) 0
    + 65536 * block.getD (4 * g + 2) 0 + 16777216 * block.getD (4 * g + 3) 0

/-- One of the 64 operations of the compression function. -/
def step (block : List Nat) (st : Digest) (i : Nat) : Digest :=
  let f :=
    if i < 16 then Nat.lor (Nat.land st.b st.c) (Nat.land (not32 st.b) st.d)
    else if i < 32 then Nat.lor (Nat.land st.d st.b) (Nat.land (not32 st.d) st.c)
    else if i < 48 then Nat.xor (Nat.xor st.b st.c) st.d
    else Nat.xor st.c (Nat.lor st.b (not32 st.d))
  let g :=
    if i < 16 then i
    else if i < 32 then (5 * i + 1) % 16
    else if i < 48 then (3 * i + 5) % 16
    else (7 * i) % 16
  let t := add32 (add32 (add32 f st.a) (sines.getD i 0)) (word block g)
  ⟨st.d, add32 st.b (rotl32 t (shifts.getD i 0)), st.b, st.c⟩

/-- The compression function: 64 operations, then the feed-forward addition. -/
def compress (h : Digest) (block : List Nat) : Digest :=
  let r := (List.range 64).foldl (step block) h
  ⟨add32 h.a r.a, add32 h.b r.b, add32 h.c r.c, add32 h.d r.d⟩

/-- The little-endian bytes of a 64-bit length. -/
def le64 (n : Nat) : List Nat :=
  (List.range 8).map (fun i => (n >>> (8 * i)) % 256)

/-- The padded message: a `0x80` byte, zeros up to 56 modulo 64, and the bit
length modulo `2^64`. -/
def pad (msg : List Nat) : List Nat :=
  msg ++ [128] ++ List.replicate ((119 - msg.length % 64) % 64) 0
    ++ le64 ((8 * msg.length) % 18446744073709551616)

/-- The MD5 digest of a byte string, as Go's `md5.Sum` returns it: 16 bytes. -/
def Sum (msg : List Nat) : List Nat :=
  let p := pad msg
  let h := (List.range (p.length / 64)).foldl
    (fun h k => compress h ((p.drop (64 * k)).take 64)) init
  le32 h.a ++ le32 h.b ++ le32 h.c ++ le32 h.d

end md5

/-- The bytes of a Go string: `[]byte(s)`. -/
def bytes (s : String) : List Nat :=
  (s.data.flatMap String.utf8EncodeChar).map UInt8.toNat

/-- The digits `fmt` indexes for the verbs `%x` and `%X` (`ldigits`). -/
def ldigits : List Char := "0123456789abcdefx".data

/-- Go's `fmt.Sprintf("%x", b)` on a byte array: two lower-case hexadecimal
digits per byte. -/
def sprintfHex (b : List Nat) : List Char :=
  b.flatMap (fun c => [ldigits.getD (c >>> 4) '0', ldigits.getD (Nat.land c 15) '0'])

/-- The two lower-case hexadecimal digits of a byte, by positional notation:
the base-16 digits of the number, with a leading zero when there is one digit. -/
def hexByte (c : Nat) : List Char :=
  if (Nat.toDigits 16 c).length < 2 then '0' :: Nat.toDigits 16 c else Nat.toDigits 16 c

/-- The lower-case hexadecimal rendering of a byte string. -/
def hexDigest (b : List Nat) : String :=
  String.mk (b.flatMap hexByte)

/-- The constant `hashLen` of service.go. -/
def hashLen : Nat := 7

/-- The method `Service.computeHash` of service.go:
`fmt.Sprintf("%x", md5.Sum([]byte(long)))[:hashLen]`. The rendering is ASCII,
so the byte slice is a slice of characters. -/
def computeHash (long : String) : String :=
  String.mk ((sprintfHex (md5.Sum (bytes long))).take hashLen)

/-! ## Errors: package `errors`, `fmt.Errorf` and `internal/error.go` -/

/-- An operand of a format string other than the wrapped error: a string, an
integer, a `*strconv.NumError` (the program only prints it), and a pointer of
which the program prints the type with `%T`. -/
inductive FmtArg where
  | str (s : String)
  | int (i : Int)
  | numError (Func Num Err : String)
  | pointer (type : String)
deriving DecidableEq, Repr

/-- The dynamic values a Go `error` takes in this program.
* `errorString s` is the value of `errors.New(s)`. The program only creates
  package-level sentinels with pairwise distinct texts, so the pointer is
  identified with its text.
* `wrapError format args err` is the value of `fmt.Errorf` on a format with
  one `%w`, whose operand is `err`, and the other operands `args` in their
  order; in all formats but one the `%w` comes last. Its message is kept as the
  format and its operands, since the rendering is done by `fmt`. Pointer
  identity is identified with equality of the contents.
* `wrapErrorV format shown err` is the value of `fmt.Errorf(format, shown, err)`
  with an error `shown` rendered by `%v` before the error wrapped by `%w`.
* `ValidationError Cause Details` is the struct of service.go; `Details` is a
  map with string values, kept as its list of entries.
* `sqlite3Error Code ExtendedCode err` is the struct `sqlite3.Error` of the
  driver. -/
inductive GoError where
  | errorString (s : String)
  | wrapError (format : String) (args : List FmtArg) (err : GoError)
  | wrapErrorV (format : String) (shown : GoError) (err : GoError)
  | ValidationError (Cause : GoError) (Details : List (String × String))
  | sqlite3Error (Code ExtendedCode : Nat) (err : String)
deriving DecidableEq, Repr

/-- The variable `ErrBadInput` of internal/error.go. -/
def ErrBadInput : GoError := .errorString "bad input"

/-- The variable `ErrNotUnique` of internal/error.go. -/
def ErrNotUnique : GoError := .errorString "not unique"

/-- The variable `ErrNotFound` of internal/error.go. -/
def ErrNotFound : GoError := .errorString "not found"

/-- Whether the dynamic type of an error is comparable with `==`:
`ValidationError` holds a map and is not. -/
def GoError.comparable : GoError → Bool
  | .ValidationError _ _ => false
  | _ => true

/-- The loop of `errors.Is` on a non-nil error: the error equals the target,
or its `Is` method accepts the target (only `ValidationError` has one, which
is `errors.Is(ve.Cause, target)`), or the error it unwraps to matches (the
values of `fmt.Errorf` unwrap to the operand of `%w`). -/
def GoError.is (err target : GoError) : Bool :=
  (target.comparable && err == target) ||
  match err with
  | .wrapError _ _ inner => inner.is target
  | .wrapErrorV _ _ inner => inner.is target
  | .ValidationError cause _ => cause.is target
  | _ => false

/-- Go's `errors.Is(err, target)` for a non-nil target. -/
def errorsIs (err : Option GoError) (target : GoError) : Bool :=
  match err with
  | none => false
  | some e => e.is target

/-! ### The text of an error

The renderings that `fmt` and `encoding/json` delegate to are left open: the
text of an error is given for every choice of them. -/

/-- The renderings the embedding leaves open: `strconv.Quote` for `%q` of a
string, the quoted character literal for `%q` of an integer, the rendering of
a verb on an operand it does not fit, and `json.Marshal` of the cause text and
the details of a `ValidationError`. -/
structure Rendering where
  quote : String → String
  quoteRune : Int → String
  badVerb : Char → FmtArg → String
  marshal : String → List (String × String) → String

/-- The method `Error` of a `*strconv.NumError`. -/
def numErrorText (q : Rendering) (Func Num Err : String) : String :=
  "strconv." ++ Func ++ ": parsing " ++ q.quote Num ++ ": " ++ Err

/-- The rendering of one operand by one verb: `%v`, `%w` and `%s` print a
string (the text of an error) as it is, `%d` and `%v` print an integer in
decimal, `%q` quotes, `%T` prints the type. -/
def FmtArg.render (q : Rendering) (verb : Char) (a : FmtArg) : String :=
  match a with
  | .str t =>
    if verb = 'v' ∨ verb = 'w' ∨ verb = 's' then t
    else if verb = 'q' then q.quote t
    else q.badVerb verb a
  | .int i =>
    if verb = 'd' ∨ verb = 'v' then toString i
    else if verb = 'q' then q.quoteRune i
    else q.badVerb verb a
  | .numError f num err =>
    if verb = 'v' ∨ verb = 's' then numErrorText q f num err
    else if verb = 'q' then q.quote (numErrorText q f num err)
    else q.badVerb verb a
  | .pointer type =>
    if verb = 'T' then type
    else q.badVerb verb a

/-- Go's `fmt.Sprintf` on the formats of this program: a `%` and the
character after it consume the next operand, every other character is
copied. Formats with flags, with `%%` or with more verbs than operands do not
occur. -/
def Sprintf (q : Rendering) : List Char → List FmtArg → List Char
  | [], _ => []
  | [c], _ => [c]
  | c :: verb :: rest, [] => c :: Sprintf q (verb :: rest) []
  | c :: verb :: rest, a :: args =>
    if c = '%' then (a.render q verb).data ++ Sprintf q rest args
    else c :: Sprintf q (verb :: rest) (a :: args)

/-- The number of verbs of a format that come before its `%w`. -/
def verbsBeforeW : List Char → Nat
  | [] => 0
  | [_] => 0
  | c :: verb :: rest =>
    if c = '%' then
      if verb = 'w' then 0 else verbsBeforeW rest + 1
    else verbsBeforeW (verb :: rest)

/-- The method `Error` of an error value: the text of a sentinel, the message
`fmt.Errorf` built when the error was made, with the text of the wrapped error
as the operand of `%w`, the JSON document of `ValidationError.Error`, and the
message of the driver. -/
def GoError.Error (q : Rendering) : GoError → String
  | .errorString t => t
  | .wrapError format args err =>
    String.mk (Sprintf q format.data
      (args.take (verbsBeforeW format.data) ++ [.str (err.Error q)]
        ++ args.drop (verbsBeforeW format.data)))
  | .wrapErrorV format shown err =>
    String.mk (Sprintf q format.data [.str (shown.Error q), .str (err.Error q)])
  | .ValidationError cause details => q.marshal (cause.Error q) details
  | .sqlite3Error _ _ msg => msg

/-- Go's `strings.Contains(s, substr)`, as `require.Contains` uses it. -/
def Contains (s substr : String) : Prop := List.IsInfix substr.data s.data

instance (s substr : String) : Decidable (Contains s substr) := by
  unfold Contains
  infer_instance

/-- A choice of the open renderings, for evaluating the text of an error:
quotes around the operand, the decimal digits of an integer, and the cause
followed by the details as they are listed. -/
def Rendering.sample : Rendering where
  quote t := "\"" ++ t ++ "\""
  quoteRune i := "\x27" ++ toString i ++ "\x27"
  badVerb verb _ := "%!" ++ String.singleton verb
  marshal cause details := cause ++ " " ++ toString details

/-! ## Package `strings` and `unicode` -/

/-- Go's `unicode.IsSpace`: the Latin-1 fast path, then the `White_Space`
range table. -/
def IsSpace (r : Char) : Bool :=
  let c := r.toNat
  if c ≤ 255 then
    c == 9 || c == 10 || c == 11 || c == 12 || c == 13 || c == 32 || c == 133 || c == 160
  else
    c == 5760 || (8192 ≤ c && c ≤ 8202) || c == 8232 || c == 8233 || c == 8239
      || c == 8287 || c == 12288

/-- Go's `strings.TrimSpace`: the string without its leading and trailing
white space. -/
def TrimSpace (s : String) : String :=
  String.mk (List.rdropWhile IsSpace (List.dropWhile IsSpace s.data))

/-- A string that is empty or consists only of white space. -/
def Blank (s : String) : Prop := ∀ c ∈ s.data, IsSpace c = true

instance (s : String) : Decidable (Blank s) := by
  unfold Blank
  infer_instance

/-! ## Package `time` -/

/-- A `time.Time`: seconds since the Unix epoch and nanoseconds within the
second. -/
structure Time where
  sec : Int
  nsec : Nat
deriving DecidableEq, Repr

/-- The zero value `time.Time{}`: January 1, year 1, 00:00:00 UTC. -/
def Time.zero : Time := ⟨-62135596800, 0⟩

/-- The method `Time.Unix`. -/
def Time.Unix (t : Time) : Int := t.sec

/-- The function `time.Unix(sec, 0)`. -/
def timeUnix (sec : Int) : Time := ⟨sec, 0⟩

/-- A Go slice value: `none` is the nil slice. -/
abbrev Slice (α : Type) := Option (List α)

/-- The elements of a slice, as `range` visits them. -/
def Slice.elems {α : Type} : Slice α → List α
  | none => []
  | some l => l

/-! ## Package `database/sql` and the driver, as the program uses them -/

namespace storage

/-- A statement parameter or a column value. -/
inductive Value where
  | null
  | integer (i : Int)
  | text (s : String)
deriving DecidableEq, Repr

/-- The string of a text value, and the zero value otherwise. -/
def Value.str : Value → String
  | .text s => s
  | _ => ""

/-- The integer of an integer value, and the zero value otherwise. -/
def Value.int : Value → Int
  | .integer i => i
  | _ => 0

/-- The variable `sql.ErrNoRows`. -/
def sqlErrNoRows : GoError := .errorString "sql: no rows in result set"

/-- The type of a destination pointer passed to `Scan`. -/
inductive Dest where
  | int64
  | string
deriving DecidableEq, Repr

/-- Whether a column value is assigned to a destination as it is. The tables
of this program hold integers in integer columns and text in text columns, so
the conversions of `database/sql` between the two are left out: a value of the
other kind is a scan error. -/
def Dest.accepts : Dest → Value → Bool
  | .int64, .integer _ => true
  | .string, .text _ => true
  | _, _ => false

/-- The text of the error `Scan` returns when an assignment fails. -/
def scanError : GoError := .errorString "sql: Scan error"

/-- `Scan` on the columns of the current row: the values assigned to the
destinations and a nil error, or no value and the error. A destination
without a value keeps its zero value. -/
def scanColumns (dests : List Dest) (cols : List Value) : List Value × Option GoError :=
  if dests.length = cols.length ∧ (List.zipWith Dest.accepts dests cols).all id then
    (cols, none)
  else
    ([], some scanError)

/-- An `*sql.Row`: the deferred error of the query, and otherwise its first
row, if there is one. -/
structure SingleResult where
  err : Option GoError
  row : Option (List Value)

/-- The method `Row.Scan`: the deferred error, `sql.ErrNoRows` without a row,
and otherwise the scan of the row. -/
def SingleResult.Scan (r : SingleResult) (dests : List Dest) : List Value × Option GoError :=
  match r.err with
  | some err => ([], some err)
  | none =>
    match r.row with
    | none => ([], some sqlErrNoRows)
    | some cols => scanColumns dests cols

/-- An `*sql.Rows`: the rows that `Next` steps through; the nil value that
comes with an error has none. -/
structure MultiResult where
  rows : List (List Value)

/-- An `sql.Result`: what `RowsAffected()` and `LastInsertId()` return. -/
structure sqlResult where
  RowsAffected : Int × Option GoError
  LastInsertId : Int × Option GoError

/-- The statement methods that `*sql.DB` and `*sql.Tx` share, on states `σ`. -/
structure Conn (σ : Type) where
  ExecContext : String → List Value → σ → Except GoError sqlResult × σ
  QueryContext : String → List Value → σ → (MultiResult × Option GoError) × σ
  QueryRowContext : String → List Value → σ → SingleResult × σ

/-- An `*sql.Tx`. -/
structure Tx (σ : Type) extends Conn σ where
  Commit : σ → Option GoError × σ
  Rollback : σ → Option GoError × σ

/-- An `*sql.DB`. -/
structure DB (σ : Type) extends Conn σ where
  BeginTx : σ → Except GoError (Tx σ) × σ

/-! ## Package `internal/storage`: sqllite.go -/

/-- The struct `execResult` of sqllite.go, the only `ExecResult`. -/
structure execResult where
  result : Int
  id : Int
  err : Option GoError
deriving DecidableEq, Repr

/-- The method `execResult.Err`. -/
def execResult.Err (r : execResult) : Option GoError := r.err

/-- The method `execResult.Affected`. -/
def execResult.Affected (r : execResult) : Int := r.result

/-- The method `execResult.ID`. -/
def execResult.ID (r : execResult) : Int := r.id

/-- The interface `Runner` of sqllite.go. -/
structure Runner (σ : Type) where
  Exec : String → List Value → σ → execResult × σ
  Query : String → List Value → σ → (MultiResult × Option GoError) × σ
  QuerySingle : String → List Value → σ → SingleResult × σ

/-- The method `qRunner.Exec` of sqllite.go. -/
def qRunner.Exec {σ : Type} (db : DB σ) (query : String) (params : List Value) (w : σ) :
    execResult × σ :=
  let r := db.ExecContext query params w
  match r.1 with
  | .error err => ({ result := 0, id := 0, err := some err }, r.2)
  | .ok res =>
    match res.RowsAffected.2 with
    | some err => ({ result := 0, id := 0, err := some err }, r.2)
    | none =>
      ({ result := res.RowsAffected.1, id := res.LastInsertId.1, err := res.LastInsertId.2 }, r.2)

/-- The struct `qRunner` of sqllite.go with its three methods. -/
def qRunner {σ : Type} (db : DB σ) : Runner σ where
  Exec := qRunner.Exec db
  Query := db.QueryContext
  QuerySingle := db.QueryRowContext

/-- The method `txRunner.Exec` of sqllite.go. -/
def txRunner.Exec {σ : Type} (tx : Tx σ) (query : String) (params : List Value) (w : σ) :
    execResult × σ :=
  let r := tx.ExecContext query params w
  match r.1 with
  | .error err => ({ result := 0, id := 0, err := some err }, r.2)
  | .ok res => ({ result := res.RowsAffected.1, id := 0, err := res.RowsAffected.2 }, r.2)

/-- The struct `txRunner` of sqllite.go with its three methods. -/
def txRunner {σ : Type} (tx : Tx σ) : Runner σ where
  Exec := txRunner.Exec tx
  Query := tx.QueryContext
  QuerySingle := tx.QueryRowContext

/-- The struct `SQLLite` of sqllite.go. -/
structure SQLLite (σ : Type) where
  db : DB σ

/-- The method `SQLLite.WithTx` of sqllite.go; `L` is the state of the
variables the callback captures. -/
def SQLLite.WithTx {σ L : Type} (p : SQLLite σ)
    (action : Runner σ → L × σ → Option GoError × (L × σ)) (st : L × σ) :
    Option GoError × (L × σ) :=
  let b := p.db.BeginTx st.2
  match b.1 with
  | .error err => (some err, (st.1, b.2))
  | .ok tx =>
    let a := action (txRunner tx) (st.1, b.2)
    match a.1 with
    | some err => (some err, (a.2.1, (tx.Rollback a.2.2).2))
    | none => ((tx.Commit a.2.2).1, (a.2.1, (tx.Commit a.2.2).2))

/-- The method `SQLLite.WithoutTx` of sqllite.go. -/
def SQLLite.WithoutTx {σ L : Type} (p : SQLLite σ)
    (action : Runner σ → L × σ → Option GoError × (L × σ)) (st : L × σ) :
    Option GoError × (L × σ) :=
  action (qRunner p.db) st

/-- The result of `errors.As(err, &terr)` for a `terr` of type
`sqlite3.Error`: the first error of that type in the chain. -/
def asSqlite3 : GoError → Option (Nat × Nat × String)
  | .sqlite3Error code ext msg => some (code, ext, msg)
  | .wrapError _ _ inner => asSqlite3 inner
  | .wrapErrorV _ _ inner => asSqlite3 inner
  | _ => none

/-- The driver constant `sqlite3.ErrConstraint`. -/
def sqlite3ErrConstraint : Nat := 19

/-- The driver constant `sqlite3.ErrTooBig`. -/
def sqlite3ErrTooBig : Nat := 18

/-- The driver constant `sqlite3.ErrMismatch`. -/
def sqlite3ErrMismatch : Nat := 20

/-- The driver constant `sqlite3.ErrConstraintUnique`: `ErrConstraint | 8<<8`. -/
def sqlite3ErrConstraintUnique : Nat := 2067

/-- The function `ConvertError` of sqllite.go. -/
def ConvertError (err : Option GoError) : Option GoError :=
  if errorsIs err sqlErrNoRows then
    some ErrNotFound
  else
    match err with
    | none => none
    | some e =>
      match asSqlite3 e with
      | none => some e
      | some (code, ext, _) =>
        if code = sqlite3ErrConstraint ∨ code = sqlite3ErrTooBig ∨ code = sqlite3ErrMismatch then
          if ext = sqlite3ErrConstraintUnique then
            some (.wrapErrorV "%v: %w" e ErrNotUnique)
          else
            some (.wrapErrorV "%v: %w" e ErrBadInput)
        else
          some e

end storage

/-! ## Package `internal/storage/shorten`: shorten.go -/

namespace storage.shorten

/-- The struct `Entity` of storage/shorten/shorten.go. -/
structure Entity where
  ID : Int
  URL : String
  Hash : String
  CreatedAt : Time
deriving DecidableEq, Repr

/-- The zero value `Entity{}`. -/
def Entity.zero : Entity := ⟨0, "", "", Time.zero⟩

/-- The struct `Pager` of storage/shorten/shorten.go. -/
structure Pager where
  Limit : Int
  Offset : Int
deriving DecidableEq, Repr

variable {σ : Type}

/-- The statement of `Repo.Persist`. -/
def persistQuery : String :=
  "\n\t\tINSERT INTO shorten(id, url, hash, created_at) \n\t\tVALUES (NULL, $1, $2, $3)"

/-- The statement of `Repo.Retrieve`. -/
def retrieveQuery : String :=
  "\n\t\tSELECT url, hash, created_at\n\t\tFROM shorten\n\t\tWHERE id = $1"

/-- The statement of `Repo.List`. -/
def listQuery : String :=
  "\n\t\tSELECT id, url, hash, created_at\n\t\tFROM shorten\n\t\tORDER BY id\n\t\tLIMIT $1 \n\t\tOFFSET $2"

/-- The statement of `Repo.Delete`. -/
def deleteQuery : String := "DELETE FROM shorten WHERE id = $1"

/-- The statement of `Repo.ByHash`. -/
def byHashQuery : String :=
  "\n\t\tSELECT id, url, created_at\n\t\tFROM shorten\n\t\tWHERE hash = $1"

/-- The method `Repo.Persist` of shorten.go; `timeNow` is the clock that
`time.Now` reads, before the statement runs. -/
def Repo.Persist (timeNow : σ → Time × σ) (run : Runner σ) (entry : Entity) (w : σ) :
    (Int × Option GoError) × σ :=
  let now := timeNow w
  let res := run.Exec persistQuery
    [.text entry.URL, .text entry.Hash, .integer now.1.Unix] now.2
  match ConvertError res.1.Err with
  | some err => ((0, some (.wrapError "exec: %w" [] err)), res.2)
  | none => ((res.1.ID, none), res.2)

/-- The method `Repo.Retrieve` of shorten.go. -/
def Repo.Retrieve (run : Runner σ) (id : Int) (w : σ) : (Entity × Option GoError) × σ :=
  let res := run.QuerySingle retrieveQuery [.integer id] w
  let scanned := res.1.Scan [.string, .string, .int64]
  match ConvertError scanned.2 with
  | some err => ((Entity.zero, some (.wrapError "retrieve single: %w" [] err)), res.2)
  | none =>
    (({ ID := id, URL := (scanned.1.getD 0 .null).str, Hash := (scanned.1.getD 1 .null).str,
        CreatedAt := timeUnix (scanned.1.getD 2 .null).int }, none), res.2)

/-- The loop of `Repo.List` over the rows not yet read, `entities` being the
slice built so far. -/
def Repo.scanRows : List (List Value) → Slice Entity → Slice Entity × Option GoError
  | [], entities => (entities, none)
  | row :: rest, entities =>
    match ConvertError (scanColumns [.int64, .string, .string, .int64] row).2 with
    | some err => (none, some (.wrapError "scan retrieved: %w" [] err))
    | none =>
      Repo.scanRows rest (some (entities.elems ++
        [{ ID := ((scanColumns [.int64, .string, .string, .int64] row).1.getD 0 .null).int,
           URL := ((scanColumns [.int64, .string, .string, .int64] row).1.getD 1 .null).str,
           Hash := ((scanColumns [.int64, .string, .string, .int64] row).1.getD 2 .null).str,
           CreatedAt := timeUnix
             ((scanColumns [.int64, .string, .string, .int64] row).1.getD 3 .null).int }]))

/-- The method `Repo.List` of shorten.go. -/
def Repo.List (run : Runner σ) (pager : Pager) (w : σ) :
    (Slice Entity × Option GoError) × σ :=
  let res := run.Query listQuery [.integer pager.Limit, .integer pager.Offset] w
  match ConvertError res.1.2 with
  | some err => ((none, some (.wrapError "retrieve multiple: %w" [] err)), res.2)
  | none => (Repo.scanRows res.1.1.rows none, res.2)

/-- The method `Repo.Delete` of shorten.go. -/
def Repo.Delete (run : Runner σ) (id : Int) (w : σ) : Option GoError × σ :=
  let res := run.Exec deleteQuery [.integer id] w
  match ConvertError res.1.Err with
  | some err => (some (.wrapError "exec delete: %w" [] err), res.2)
  | none => if res.1.Affected = 1 then (none, res.2) else (some ErrNotFound, res.2)

/-- The method `Repo.ByHash` of shorten.go. -/
def Repo.ByHash (run : Runner σ) (hash : String) (w : σ) : (Entity × Option GoError) × σ :=
  let res := run.QuerySingle byHashQuery [.text hash] w
  let scanned := res.1.Scan [.int64, .string, .int64]
  match ConvertError scanned.2 with
  | some err => ((Entity.zero, some (.wrapError "retrieve single: %w" [] err)), res.2)
  | none =>
    (({ ID := (scanned.1.getD 0 .null).int, URL := (scanned.1.getD 1 .null).str, Hash := hash,
        CreatedAt := timeUnix (scanned.1.getD 2 .null).int }, none), res.2)

end storage.shorten

/-! ## The database engine on the table of migrations/1.url_shortened.go

The table is
`shorten(id INTEGER PRIMARY KEY, url TEXT NOT NULL CHECK(LENGTH(url) > 0),
hash TEXT NOT NULL CHECK(LENGTH(hash) > 0) UNIQUE, created_at INTEGER NOT NULL)`.
The engine and the driver are outside the repository; what follows is their
behaviour on the five statements of shorten.go, for one connection used
sequentially. -/

namespace sqlite

open storage storage.shorten

/-- A row of the table `shorten`. -/
structure Row where
  id : Int
  url : String
  hash : String
  created_at : Int
deriving DecidableEq, Repr

/-- The state the program runs on: the rows of the table in insertion order,
the rows to restore if the open transaction is rolled back, and the clock, of
which `tick` readings have been taken. -/
structure World where
  rows : List Row
  saved : Option (List Row)
  clock : Nat → Time
  tick : Nat

/-- The function `time.Now`: the next reading of the clock. -/
def timeNow (w : World) : Time × World :=
  (w.clock w.tick, { w with tick := w.tick + 1 })

/-- SQL `LENGTH` of a text value: the characters before the first NUL. -/
def sqlLength (s : String) : Nat :=
  (s.data.takeWhile (fun c => c != Char.ofNat 0)).length

/-- The row id given to a row inserted with a NULL id: one more than the
largest id in use, and 1 in an empty table. -/
def nextId : List Row → Int
  | [] => 1
  | r :: rs => rs.foldl (fun m x => max m x.id) r.id + 1

/-- The largest row id. -/
def maxRowId : Int := 9223372036854775807

/-- The error of a failed CHECK constraint. -/
def checkFailed : GoError := .sqlite3Error 19 275 "CHECK constraint failed: shorten"

/-- The error of a failed UNIQUE constraint on `hash`. -/
def uniqueFailed : GoError := .sqlite3Error 19 2067 "UNIQUE constraint failed: shorten.hash"

/-- The error when no row id is left. Past the largest row id the engine
tries random ids before it gives up; the model gives up at once. -/
def tableFull : GoError := .sqlite3Error 13 13 "database or disk is full"

/-- The error for a statement or parameters other than those of shorten.go. -/
def misuse : GoError := .sqlite3Error 1 1 "SQL logic error"

/-- A statement that changes rows. The constraints are checked in the order
of the engine: CHECK before UNIQUE. -/
def exec (query : String) (params : List Value) (w : World) : Except GoError sqlResult × World :=
  if query = persistQuery then
    match params with
    | [.text url, .text hash, .integer createdAt] =>
      if sqlLength url = 0 ∨ sqlLength hash = 0 then (.error checkFailed, w)
      else if w.rows.any (fun r => r.hash == hash) then (.error uniqueFailed, w)
      else if maxRowId < nextId w.rows then (.error tableFull, w)
      else
        (.ok { RowsAffected := (1, none), LastInsertId := (nextId w.rows, none) },
          { w with rows := w.rows ++ [⟨nextId w.rows, url, hash, createdAt⟩] })
    | _ => (.error misuse, w)
  else if query = deleteQuery then
    match params with
    | [.integer id] =>
      (.ok { RowsAffected := (((w.rows.filter (fun r => r.id == id)).length : Int), none),
             LastInsertId := (0, none) },
        { w with rows := w.rows.filter (fun r => !(r.id == id)) })
    | _ => (.error misuse, w)
  else (.error misuse, w)

/-- A query for at most one row. -/
def queryRow (query : String) (params : List Value) (w : World) : SingleResult × World :=
  if query = retrieveQuery then
    match params with
    | [.integer id] =>
      (⟨none, (w.rows.find? (fun r => r.id == id)).map
          (fun r => [.text r.url, .text r.hash, .integer r.created_at])⟩, w)
    | _ => ({ err := some misuse, row := none }, w)
  else if query = byHashQuery then
    match params with
    | [.text hash] =>
      (⟨none, (w.rows.find? (fun r => r.hash == hash)).map
          (fun r => [.integer r.id, .text r.url, .integer r.created_at])⟩, w)
    | _ => ({ err := some misuse, row := none }, w)
  else ({ err := some misuse, row := none }, w)

/-- The rows a `LIMIT limit OFFSET offset` keeps: a negative limit keeps all,
a negative offset skips none. -/
def limitOffset (limit offset : Int) (rows : List Row) : List Row :=
  if limit < 0 then rows.drop offset.toNat else (rows.drop offset.toNat).take limit.toNat

/-- A query for many rows. -/
def query (query : String) (params : List Value) (w : World) :
    (MultiResult × Option GoError) × World :=
  if query = listQuery then
    match params with
    | [.integer limit, .integer offset] =>
      ((⟨(limitOffset limit offset (w.rows.insertionSort (fun a b => a.id ≤ b.id))).map
          (fun r => [.integer r.id, .text r.url, .text r.hash, .integer r.created_at])⟩, none), w)
    | _ => ((⟨[]⟩, some misuse), w)
  else ((⟨[]⟩, some misuse), w)

/-- The statement methods of the connection. -/
def conn : Conn World where
  ExecContext := exec
  QueryContext := query
  QueryRowContext := queryRow

/-- An open transaction: commit keeps the rows, rollback restores those
saved when the transaction began. -/
def tx : Tx World where
  toConn := conn
  Commit w := (none, { w with saved := none })
  Rollback w := (none, { w with rows := w.saved.getD w.rows, saved := none })

/-- The database handle. -/
def db : DB World where
  toConn := conn
  BeginTx w := (.ok tx, { w with saved := some w.rows })

/-- The entity `Repo.List` builds from a row. -/
def Row.entity (r : Row) : storage.shorten.Entity :=
  { ID := r.id, URL := r.url, Hash := r.hash, CreatedAt := timeUnix r.created_at }

/-- A runner that sees the table as a concurrent writer leaves it between
the lookup and the insert of `Create`: no row answers a query, and every
statement fails on the UNIQUE constraint of `hash`. -/
def racedRunner : Runner Unit where
  Exec _ _ w := ({ result := 0, id := 0, err := some uniqueFailed }, w)
  Query _ _ w := ((⟨[]⟩, none), w)
  QuerySingle _ _ w := (⟨none, none⟩, w)

/-- A state with an empty table, no open transaction and a clock that
advances by one second at each reading. -/
def World.start : World := ⟨[], none, fun n => ⟨1700000000 + n, 0⟩, 0⟩

/-- A state with an empty table whose clock passes from one second to the
next between the first reading and the second. -/
def World.atSecondBoundary : World :=
  ⟨[], none, fun n => if n = 0 then ⟨1700000000, 999999000⟩ else ⟨1700000001, 1000 * n⟩, 0⟩

/-- The state `World.start` with the given rows in the table. -/
def World.withRows (rows : List Row) : World := { World.start with rows := rows }

end sqlite

/-! ## Package `internal/shorten`: the service -/

namespace shorten

/-- The struct `Entity` of service.go. -/
structure Entity where
  ID : Int
  URL : String
  Hash : String
deriving DecidableEq, Repr

/-- The zero value `Entity{}`. -/
def Entity.zero : Entity := ⟨0, "", ""⟩

/-- The interface `Transactioner` of service.go, over runners `ρ` and states
`σ`. The callback is a closure: the variables it captures from the calling
method are its local state `L`, which a transactioner can reach only through
the callback. -/
structure Transactioner (ρ σ : Type) where
  WithTx : {L : Type} → (ρ → L × σ → Option GoError × (L × σ)) → L × σ →
    Option GoError × (L × σ)
  WithoutTx : {L : Type} → (ρ → L × σ → Option GoError × (L × σ)) → L × σ →
    Option GoError × (L × σ)

/-- The interface `Storage` of service.go, over runners `ρ` and states `σ`. -/
structure Storage (ρ σ : Type) where
  Persist : ρ → storage.shorten.Entity → σ → (Int × Option GoError) × σ
  Retrieve : ρ → Int → σ → (storage.shorten.Entity × Option GoError) × σ
  List : ρ → storage.shorten.Pager → σ →
    (Slice storage.shorten.Entity × Option GoError) × σ
  Delete : ρ → Int → σ → Option GoError × σ
  ByHash : ρ → String → σ → (storage.shorten.Entity × Option GoError) × σ

/-- The struct `Service` of service.go, together with the clock that
`time.Now` reads. -/
structure Service (ρ σ : Type) where
  tr : Transactioner ρ σ
  storage : Storage ρ σ
  timeNow : σ → Time × σ

/-- The function `isNotBlank` of service.go. -/
def isNotBlank (v name : String) : Option GoError :=
  if TrimSpace v = "" then
    some (.ValidationError ErrBadInput [(name, "blank or empty")])
  else
    none

/-- The function `serviceEntity` of service.go. -/
def serviceEntity (u : storage.shorten.Entity) : Entity :=
  { ID := u.ID, URL := u.URL, Hash := u.Hash }

variable {ρ σ : Type}

/-- The method `Service.Create` of service.go. The closure captures `id`. -/
def Service.Create (s : Service ρ σ) (short : Entity) (w : σ) :
    (Int × Option GoError) × σ :=
  match isNotBlank short.URL "url" with
  | some err => ((0, some err), w)
  | none =>
    if TrimSpace short.Hash ≠ "" then
      ((0, some (.ValidationError ErrBadInput [("hash", "not empty")])), w)
    else
      let short : Entity := { short with Hash := computeHash short.URL }
      let res := s.tr.WithoutTx (fun runner (st : Int × σ) =>
        let found := s.storage.ByHash runner short.Hash st.2
        match found.1.2 with
        | some err =>
          if !errorsIs (some err) ErrNotFound then
            (some (.wrapError "lookup by hash %q: %w" [.str short.Hash] err), (st.1, found.2))
          else
            let now := s.timeNow found.2
            let newShort : storage.shorten.Entity :=
              { ID := 0, URL := short.URL, Hash := short.Hash, CreatedAt := now.1 }
            let saved := s.storage.Persist runner newShort now.2
            (saved.1.2, (saved.1.1, saved.2))
        | none => (none, ((found.1.1).ID, found.2))) (0, w)
      match res.1 with
      | some err => ((0, some (.wrapError "persist short: %w" [] err)), res.2.2)
      | none => ((res.2.1, none), res.2.2)

/-- The method `Service.Get` of service.go. The closure captures `short`. -/
def Service.Get (s : Service ρ σ) (id : Int) (w : σ) : (Entity × Option GoError) × σ :=
  let res := s.tr.WithoutTx (fun runner (st : storage.shorten.Entity × σ) =>
    let got := s.storage.Retrieve runner id st.2
    (got.1.2, (got.1.1, got.2))) (storage.shorten.Entity.zero, w)
  match res.1 with
  | some err =>
    ((Entity.zero, some (.wrapError "retrieve shorten by id %q: %w" [.int id] err)), res.2.2)
  | none => ((serviceEntity res.2.1, none), res.2.2)

/-- The method `Service.List` of service.go. The closure captures `entities`. -/
def Service.List (s : Service ρ σ) (pager : storage.shorten.Pager) (w : σ) :
    (Slice Entity × Option GoError) × σ :=
  if pager.Limit < 1 then
    ((none, some (.ValidationError ErrBadInput [("limit", "is lesser then 1")])), w)
  else if pager.Offset < 0 then
    ((none, some (.ValidationError ErrBadInput [("offset", "is negative")])), w)
  else
    let res := s.tr.WithoutTx (fun runner (st : Slice Entity × σ) =>
      let got := s.storage.List runner pager st.2
      match got.1.2 with
      | some err => (some err, (st.1, got.2))
      | none => (none, (some ((got.1.1).elems.map serviceEntity), got.2))) (none, w)
    match res.1 with
    | some err => ((none, some (.wrapError "list shortens: %w" [] err)), res.2.2)
    | none => ((res.2.1, none), res.2.2)

/-- The method `Service.Delete` of service.go. The closure captures nothing. -/
def Service.Delete (s : Service ρ σ) (id : Int) (w : σ) : Option GoError × σ :=
  let res := s.tr.WithoutTx (fun runner (st : Unit × σ) =>
    let done := s.storage.Delete runner id st.2
    (done.1, ((), done.2))) ((), w)
  match res.1 with
  | some err => (some (.wrapError "delete shorten %d: %w" [.int id] err), res.2.2)
  | none => (none, res.2.2)

/-- The method `Service.Resolve` of service.go. The closure captures `url`. -/
def Service.Resolve (s : Service ρ σ) (hash : String) (w : σ) :
    (String × Option GoError) × σ :=
  match isNotBlank hash "hash" with
  | some err => (("", some err), w)
  | none =>
    let res := s.tr.WithoutTx (fun runner (st : String × σ) =>
      let found := s.storage.ByHash runner hash st.2
      match found.1.2 with
      | some err => (some err, (st.1, found.2))
      | none => (none, ((found.1.1).URL, found.2))) ("", w)
    match res.1 with
    | some err =>
      (("", some (.wrapError "retrieve shorten by hash %q: %w" [.str hash] err)), res.2.2)
    | none => ((res.2.1, none), res.2.2)

/-- The struct `testTransactioner` of service_test.go: both methods call the
callback with a nil runner. -/
def testTransactioner : Transactioner (Option ρ) σ where
  WithTx call st := call none st
  WithoutTx call st := call none st

/-- The type `*storage.SQLLite` as a `Transactioner`. -/
def sqlLiteTransactioner (p : storage.SQLLite σ) : Transactioner (storage.Runner σ) σ where
  WithTx action st := p.WithTx action st
  WithoutTx action st := p.WithoutTx action st

/-- The type `shortenrepo.Repo` as a `Storage`, reading the clock `timeNow`. -/
def repoStorage (timeNow : σ → Time × σ) : Storage (storage.Runner σ) σ where
  Persist := storage.shorten.Repo.Persist timeNow
  Retrieve := storage.shorten.Repo.Retrieve
  List := storage.shorten.Repo.List
  Delete := storage.shorten.Repo.Delete
  ByHash := storage.shorten.Repo.ByHash

/-- The service of cmd/initialize.go, `NewService(sqlLite, shortenrepo.Repo{})`,
on the database engine of the model. -/
def modelService : Service (storage.Runner sqlite.World) sqlite.World where
  tr := sqlLiteTransactioner ⟨sqlite.db⟩
  storage := repoStorage sqlite.timeNow
  timeNow := sqlite.timeNow

/-- A storage without state that answers as the mocks of service_test.go do:
`ByHash` and `Retrieve` return `found`, `Persist` returns `saved`, `List`
returns `listed` and `Delete` returns `deleted`. -/
def stubStorage (found : storage.shorten.Entity × Option GoError)
    (saved : Int × Option GoError)
    (listed : Slice storage.shorten.Entity × Option GoError)
    (deleted : Option GoError) : Storage (Option Unit) Unit where
  Persist _ _ w := (saved, w)
  Retrieve _ _ w := (found, w)
  List _ _ w := (listed, w)
  Delete _ _ w := (deleted, w)
  ByHash _ _ w := (found, w)

/-- The service of the unit tests: `NewService(testTransactioner{}, mock)`,
with a clock that stands still. -/
def stubService (found : storage.shorten.Entity × Option GoError)
    (saved : Int × Option GoError)
    (listed : Slice storage.shorten.Entity × Option GoError)
    (deleted : Option GoError) : Service (Option Unit) Unit where
  tr := testTransactioner
  storage := stubStorage found saved listed deleted
  timeNow w := (timeUnix 1700000000, w)

/-- The service on the repository with the runner `racedRunner`. -/
def racedService : Service (storage.Runner Unit) Unit where
  tr := { WithTx := fun action st => action sqlite.racedRunner st,
          WithoutTx := fun action st => action sqlite.racedRunner st }
  storage := repoStorage (fun w => (timeUnix 1700000000, w))
  timeNow w := (timeUnix 1700000000, w)

/-- A transactioner whose `WithoutTx` runs the callback once, on the runner
`r`, and returns what the callback returns. -/
def Transactioner.RunsDirectly (tr : Transactioner ρ σ) (r : ρ) : Prop :=
  ∀ (L : Type) (f : ρ → L × σ → Option GoError × (L × σ)) (st : L × σ),
    tr.WithoutTx f st = f r st

/-! ### Recording the calls a service makes to its storage -/

/-- A call to a method of `Storage`, with its arguments. -/
inductive Call where
  | Persist (e : storage.shorten.Entity)
  | Retrieve (id : Int)
  | List (pager : storage.shorten.Pager)
  | Delete (id : Int)
  | ByHash (hash : String)
deriving DecidableEq, Repr

/-- The hash a call hands to the storage, for the calls that carry one. -/
def Call.hash : Call → Option String
  | .Persist e => some e.Hash
  | .ByHash h => some h
  | _ => none

/-- The calls made so far, oldest first. -/
abbrev Log := List Call

/-- The storage `st` with every call appended to a log kept next to the state. -/
def Storage.traced (st : Storage ρ σ) : Storage ρ (σ × Log) where
  Persist r e w := ((st.Persist r e w.1).1, ((st.Persist r e w.1).2, w.2 ++ [.Persist e]))
  Retrieve r id w := ((st.Retrieve r id w.1).1, ((st.Retrieve r id w.1).2, w.2 ++ [.Retrieve id]))
  List r p w := ((st.List r p w.1).1, ((st.List r p w.1).2, w.2 ++ [.List p]))
  Delete r id w := ((st.Delete r id w.1).1, ((st.Delete r id w.1).2, w.2 ++ [.Delete id]))
  ByHash r h w := ((st.ByHash r h w.1).1, ((st.ByHash r h w.1).2, w.2 ++ [.ByHash h]))

/-- The transactioner `tr` on states that carry a log: the log travels with
the captured variables of the callback. -/
def Transactioner.traced (tr : Transactioner ρ σ) : Transactioner ρ (σ × Log) where
  WithTx {L} f st :=
    let res := tr.WithTx (L := L × Log)
      (fun r x => ((f r (x.1.1, (x.2, x.1.2))).1,
        (((f r (x.1.1, (x.2, x.1.2))).2.1, (f r (x.1.1, (x.2, x.1.2))).2.2.2),
          (f r (x.1.1, (x.2, x.1.2))).2.2.1)))
      ((st.1, st.2.2), st.2.1)
    (res.1, (res.2.1.1, (res.2.2, res.2.1.2)))
  WithoutTx {L} f st :=
    let res := tr.WithoutTx (L := L × Log)
      (fun r x => ((f r (x.1.1, (x.2, x.1.2))).1,
        (((f r (x.1.1, (x.2, x.1.2))).2.1, (f r (x.1.1, (x.2, x.1.2))).2.2.2),
          (f r (x.1.1, (x.2, x.1.2))).2.2.1)))
      ((st.1, st.2.2), st.2.1)
    (res.1, (res.2.1.1, (res.2.2, res.2.1.2)))

/-- The service `s` with its storage calls recorded. -/
def Service.traced (s : Service ρ σ) : Service ρ (σ × Log) where
  tr := s.tr.traced
  storage := s.storage.traced
  timeNow w := ((s.timeNow w.1).1, ((s.timeNow w.1).2, w.2))

end shorten

/-! ## Recording what `WithTx` does with the transaction -/

namespace storage

/-- What happens to a transaction: it is begun, the callback runs in it, it
is committed, it is rolled back. -/
inductive TxEvent where
  | Begin
  | Action
  | Commit
  | Rollback
deriving DecidableEq, Repr

/-- The statement methods `c`, on a state that carries a record of events
they do not touch. -/
def Conn.traced {σ : Type} (c : Conn σ) : Conn (σ × List TxEvent) where
  ExecContext query params w :=
    ((c.ExecContext query params w.1).1, ((c.ExecContext query params w.1).2, w.2))
  QueryContext query params w :=
    ((c.QueryContext query params w.1).1, ((c.QueryContext query params w.1).2, w.2))
  QueryRowContext query params w :=
    ((c.QueryRowContext query params w.1).1, ((c.QueryRowContext query params w.1).2, w.2))

/-- The transaction `tx` with every `Commit` and `Rollback` recorded. -/
def Tx.traced {σ : Type} (tx : Tx σ) : Tx (σ × List TxEvent) where
  toConn := tx.toConn.traced
  Commit w := ((tx.Commit w.1).1, ((tx.Commit w.1).2, w.2 ++ [.Commit]))
  Rollback w := ((tx.Rollback w.1).1, ((tx.Rollback w.1).2, w.2 ++ [.Rollback]))

/-- The handle `db` with every `BeginTx` recorded, handing out recorded
transactions. -/
def DB.traced {σ : Type} (db : DB σ) : DB (σ × List TxEvent) where
  toConn := db.toConn.traced
  BeginTx w :=
    match (db.BeginTx w.1).1 with
    | .error err => (.error err, ((db.BeginTx w.1).2, w.2 ++ [.Begin]))
    | .ok tx => (.ok tx.traced, ((db.BeginTx w.1).2, w.2 ++ [.Begin]))

/-- A runner on recorded states as a runner on the states themselves. -/
def Runner.untraced {σ : Type} (r : Runner (σ × List TxEvent)) : Runner σ where
  Exec query params w := ((r.Exec query params (w, [])).1, (r.Exec query params (w, [])).2.1)
  Query query params w := ((r.Query query params (w, [])).1, (r.Query query params (w, [])).2.1)
  QuerySingle query params w :=
    ((r.QuerySingle query params (w, [])).1, (r.QuerySingle query params (w, [])).2.1)

/-- The callback `action` with every run of it recorded. -/
def recorded {σ L : Type} (action : Runner σ → L × σ → Option GoError × (L × σ))
    (r : Runner (σ × List TxEvent)) (st : L × (σ × List TxEvent)) :
    Option GoError × (L × (σ × List TxEvent)) :=
  let a := action r.untraced (st.1, st.2.1)
  (a.1, (a.2.1, (a.2.2, st.2.2 ++ [.Action])))

end storage

namespace storage.shorten

/-- The unit of work of storage/shorten/shorten_test.go,
`func(runner storage.Runner) error { id, err = repo.Persist(ctx, runner, entry); return err }`;
the captured variable `id` is the local state. -/
def persistUnit {σ : Type} (timeNow : σ → Time × σ) (entry : Entity) (run : Runner σ)
    (st : Int × σ) : Option GoError × (Int × σ) :=
  let p := Repo.Persist timeNow run entry st.2
  (p.1.2, (p.1.1, p.2))

end storage.shorten

/-! ### Recording the units of work of a service -/

namespace shorten

variable {ρ σ : Type}

/-- What a service asks of its collaborators: a unit of work inside a
transaction, a unit of work outside one, a call to the storage. -/
inductive UnitEvent where
  | WithTx
  | WithoutTx
  | Storage (c : Call)
deriving DecidableEq, Repr

/-- The events recorded so far, oldest first. -/
abbrev Events := List UnitEvent

/-- The storage `st` with every call recorded next to the state. -/
def Storage.observed (st : Storage ρ σ) : Storage ρ (σ × Events) where
  Persist r e w :=
    ((st.Persist r e w.1).1, ((st.Persist r e w.1).2, w.2 ++ [.Storage (.Persist e)]))
  Retrieve r id w :=
    ((st.Retrieve r id w.1).1, ((st.Retrieve r id w.1).2, w.2 ++ [.Storage (.Retrieve id)]))
  List r p w := ((st.List r p w.1).1, ((st.List r p w.1).2, w.2 ++ [.Storage (.List p)]))
  Delete r id w :=
    ((st.Delete r id w.1).1, ((st.Delete r id w.1).2, w.2 ++ [.Storage (.Delete id)]))
  ByHash r h w :=
    ((st.ByHash r h w.1).1, ((st.ByHash r h w.1).2, w.2 ++ [.Storage (.ByHash h)]))

/-- The transactioner `tr` with every invocation of `WithTx` and `WithoutTx`
recorded when it is made; the record then travels with the captured variables
of the callback. -/
def Transactioner.observed (tr : Transactioner ρ σ) :
    Transactioner ρ (σ × Events) where
  WithTx {L} f st :=
    let res := tr.WithTx (L := L × Events)
      (fun r x => ((f r (x.1.1, (x.2, x.1.2))).1,
        (((f r (x.1.1, (x.2, x.1.2))).2.1, (f r (x.1.1, (x.2, x.1.2))).2.2.2),
          (f r (x.1.1, (x.2, x.1.2))).2.2.1)))
      ((st.1, st.2.2 ++ [.WithTx]), st.2.1)
    (res.1, (res.2.1.1, (res.2.2, res.2.1.2)))
  WithoutTx {L} f st :=
    let res := tr.WithoutTx (L := L × Events)
      (fun r x => ((f r (x.1.1, (x.2, x.1.2))).1,
        (((f r (x.1.1, (x.2, x.1.2))).2.1, (f r (x.1.1, (x.2, x.1.2))).2.2.2),
          (f r (x.1.1, (x.2, x.1.2))).2.2.1)))
      ((st.1, st.2.2 ++ [.WithoutTx]), st.2.1)
    (res.1, (res.2.1.1, (res.2.2, res.2.1.2)))

/-- The service `s` with its units of work and storage calls recorded. -/
def Service.observed (s : Service ρ σ) : Service ρ (σ × Events) where
  tr := s.tr.observed
  storage := s.storage.observed
  timeNow w := ((s.timeNow w.1).1, ((s.timeNow w.1).2, w.2))

end shorten

/-! ### Sequences of operations -/

namespace shorten

variable {ρ σ : Type}

/-- A call of one of the five operations of the service, with its argument. -/
inductive Op where
  | Create (short : Entity)
  | Get (id : Int)
  | List (pager : storage.shorten.Pager)
  | Delete (id : Int)
  | Resolve (hash : String)
deriving DecidableEq, Repr

/-- The error an operation returns, and the state it leaves. -/
def runOp (s : Service ρ σ) (op : Op) (w : σ) : Option GoError × σ :=
  match op with
  | .Create short => ((s.Create short w).1.2, (s.Create short w).2)
  | .Get id => ((s.Get id w).1.2, (s.Get id w).2)
  | .List pager => ((s.List pager w).1.2, (s.List pager w).2)
  | .Delete id => s.Delete id w
  | .Resolve hash => ((s.Resolve hash w).1.2, (s.Resolve hash w).2)

/-- Operations run one after another: the error each returns, in order, and
the state the last one leaves. -/
def runOps (s : Service ρ σ) : List Op → σ → List (Option GoError) × σ
  | [], w => ([], w)
  | op :: ops, w =>
    ((runOp s op w).1 :: (runOps s ops (runOp s op w).2).1, (runOps s ops (runOp s op w).2).2)

/-- The invariant of the table under the service: pairwise distinct ids,
pairwise distinct hashes, and in every row a url that is not blank and the
hash computed from that url. -/
def StoreInvariant (rows : List sqlite.Row) : Prop :=
  (rows.map (fun r => r.id)).Nodup
    ∧ (rows.map (fun r => r.hash)).Nodup
    ∧ ∀ r ∈ rows, ¬ Blank r.url ∧ r.hash = computeHash r.url

end shorten

/-! ## Package `strconv` -/

namespace strconv

/-- The value of a string of decimal digits, as the loop of `ParseUint` in
base 10 builds it; none for the empty string and for a string with a
character other than `0` to `9`. -/
def decimalValue (digits : List Char) : Option Nat :=
  if digits ≠ [] ∧ digits.all Char.isDigit = true then
    some (digits.foldl (fun n c => 10 * n + (c.toNat - 48)) 0)
  else
    none

/-- The text of the variable `strconv.ErrSyntax`. -/
def ErrSyntax : String := "invalid syntax"

/-- The text of the variable `strconv.ErrRange`. -/
def ErrRange : String := "value out of range"

/-- Go's `strconv.ParseInt(s, 10, 64)`: an optional sign `+` or `-`, then
decimal digits. The result is the value and, on failure, the `Err` of the
`*NumError` returned: a syntax error with value 0, or a range error with the
nearest `int64`. -/
def ParseInt (s : String) : Int × Option String :=
  match s.data with
  | [] => (0, some ErrSyntax)
  | c :: rest =>
    match decimalValue (if c = '+' ∨ c = '-' then rest else c :: rest) with
    | none => (0, some ErrSyntax)
    | some un =>
      if c ≠ '-' ∧ 2 ^ 63 ≤ un then (2 ^ 63 - 1, some ErrRange)
      else if c = '-' ∧ 2 ^ 63 < un then (-2 ^ 63, some ErrRange)
      else (if c = '-' then -(un : Int) else (un : Int), none)

/-- Go's `strconv.FormatInt(i, 10)`: the decimal digits, after a `-` for a
negative number. -/
def FormatInt (i : Int) : String :=
  match i with
  | .ofNat n => String.mk (Nat.toDigits 10 n)
  | .negSucc n => String.mk ('-' :: Nat.toDigits 10 (n + 1))

/-- A base-10 numeral of `n`: an optional sign `+` or `-`, then one or more
decimal digits, leading zeros allowed, whose value with the sign is `n`. -/
def Numeral (val : String) (n : Int) : Prop :=
  ∃ digits : List Char, digits ≠ [] ∧ (∀ c ∈ digits, c.isDigit = true)
    ∧ (((val.data = digits ∨ val.data = '+' :: digits)
          ∧ n = (Nat.ofDigits 10 ((digits.map (fun c => c.toNat - 48)).reverse) : Nat))
        ∨ (val.data = '-' :: digits
          ∧ n = -((Nat.ofDigits 10 ((digits.map (fun c => c.toNat - 48)).reverse) : Nat) : Int)))

end strconv

/-! ## Package `net/http`, as the handlers use it -/

namespace http

/-- The status codes the program names. -/
def StatusCreated : Nat := 201

/-- The constant `http.StatusTemporaryRedirect`. -/
def StatusTemporaryRedirect : Nat := 307

/-- The constant `http.StatusBadRequest`. -/
def StatusBadRequest : Nat := 400

/-- The constant `http.StatusNotFound`. -/
def StatusNotFound : Nat := 404

/-- The constant `http.StatusConflict`. -/
def StatusConflict : Nat := 409

/-- The constant `http.StatusUnsupportedMediaType`. -/
def StatusUnsupportedMediaType : Nat := 415

/-- The constant `http.StatusInternalServerError`. -/
def StatusInternalServerError : Nat := 500

/-- The name of a header as the map of headers keeps it. `http.Header` puts
names in a canonical form, so that they compare without regard to the case
of ASCII letters; the model keeps them in lower case. -/
def headerKey (name : String) : String := String.mk (name.data.map Char.toLower)

/-- The first value kept under a name, and the empty string without one:
`Header.Get`, `url.Values.Get` and `chi.URLParam`. -/
def lookup (kvs : List (String × String)) (name : String) : String :=
  ((kvs.find? (fun kv => kv.1 = name)).map (fun kv => kv.2)).getD ""

/-- What an `http.ResponseWriter` has been given: the status code of the
first `WriteHeader` (0 while no header is sent), the headers, and the body
written. -/
structure Response where
  Code : Nat
  Header : List (String × String)
  Body : String
deriving DecidableEq, Repr

/-- A response to which nothing is written yet. -/
def Response.new : Response := ⟨0, [], ""⟩

/-- The call `w.Header().Get(name)`. -/
def Response.Get (w : Response) (name : String) : String := lookup w.Header (headerKey name)

/-- The call `w.Header().Set(name, value)`: the value replaces those kept
under the name. Once the status line is sent, a change of the headers does not
reach the client. -/
def Response.Set (w : Response) (name value : String) : Response :=
  if w.Code = 0 then
    { w with Header := w.Header.filter (fun kv => kv.1 ≠ headerKey name)
        ++ [(headerKey name, value)] }
  else w

/-- The method `WriteHeader`: the first call sends the status code, a later
call is ignored. -/
def Response.WriteHeader (w : Response) (statusCode : Nat) : Response :=
  if w.Code = 0 then { w with Code := statusCode } else w

/-- The method `Write`: status 200 is sent first if none is sent yet, then the
data is appended to the body. Writing does not fail in the model. -/
def Response.Write (w : Response) (data : String) : Response :=
  { w with Code := if w.Code = 0 then 200 else w.Code, Body := w.Body ++ data }

/-- What the handlers read of an `*http.Request`: the method, the path of the
URL, the parsed query, the parameters of the route that chi keeps in the
context, the headers and the body. -/
structure Request where
  Method : String
  Path : String
  Query : List (String × String)
  Params : List (String × String)
  Header : List (String × String)
  Body : String
deriving DecidableEq, Repr

/-- The call `r.Header.Get(name)`. -/
def Request.Get (r : Request) (name : String) : String :=
  lookup (r.Header.map (fun kv => (headerKey kv.1, kv.2))) (headerKey name)

/-- The two lower-case hexadecimal digits of a byte from 128 up. -/
def escapeDigits (b : Nat) : List Char :=
  [ldigits.getD (b / 16) (Char.ofNat 48), ldigits.getD (b % 16) (Char.ofNat 48)]

/-- The function `hexEscapeNonASCII` of net/http: every byte from 128 up is
replaced by `%` and its two hexadecimal digits. -/
def hexEscapeNonASCII (s : String) : String :=
  String.mk (s.data.flatMap (fun c =>
    if c.toNat < 128 then [c]
    else (String.utf8EncodeChar c).flatMap (fun b => '%' :: escapeDigits b.toNat)))

/-- The function `htmlEscape` of net/http. -/
def htmlEscape (s : String) : String :=
  String.mk (s.data.flatMap (fun c =>
    if c = '&' then "&amp;".data
    else if c = '<' then "&lt;".data
    else if c = '>' then "&gt;".data
    else if c = '"' then "&#34;".data
    else if c = Char.ofNat 39 then "&#39;".data
    else [c]))

/-- What `getScheme` of net/url finds at the start of a URL. -/
inductive Scheme where
  | found
  | absent
  | missing
deriving DecidableEq, Repr

/-- The loop of `getScheme` of net/url from position `i`: letters go on, a
digit, `+`, `-` or `.` goes on unless it comes first, a colon ends the scheme
(and is an error when it comes first), any other character means there is no
scheme. -/
def getSchemeFrom : Nat → List Char → Scheme
  | _, [] => .absent
  | i, c :: rest =>
    if c.isAlpha then getSchemeFrom (i + 1) rest
    else if c.isDigit ∨ c = '+' ∨ c = '-' ∨ c = '.' then
      if i = 0 then .absent else getSchemeFrom (i + 1) rest
    else if c = ':' then
      if i = 0 then .missing else .found
    else .absent

/-- The function `getScheme` of net/url, on the URL up to its fragment. -/
def getScheme (url : String) : Scheme :=
  getSchemeFrom 0 (url.data.takeWhile (fun c => c ≠ '#'))

end http

/-! ## Package `internal/webhttp` -/

namespace webhttp

open http

/-- The struct `CreateShortenReq` of mapping.go. -/
structure CreateShortenReq where
  URL : String
deriving DecidableEq, Repr

/-- The struct `GetShortenResp` of mapping.go. -/
structure GetShortenResp where
  ID : Int
  URL : String
  Hash : String
deriving DecidableEq, Repr

/-- The functions of the standard library that the package calls and the
embedding leaves open: `json.NewDecoder(r).Decode` into a `CreateShortenReq`,
`json.NewEncoder(w).Encode` of a string, of a `GetShortenResp` and of a
`ListShortenResp` (the bytes written), `mime.ParseMediaType` (the media type,
the map of parameters as its list of entries, and the error),
`strings.EqualFold`, and what `http.Redirect` makes, for a request to
`oldpath`, of a URL in which `getScheme` finds no scheme. -/
structure Lib where
  decodeCreateShortenReq : String → CreateShortenReq × Option GoError
  encodeString : String → String
  encodeGetShortenResp : GetShortenResp → String
  encodeListShortenResp : List GetShortenResp → String
  ParseMediaType : String → (String × List (String × String)) × Option GoError
  EqualFold : String → String → Bool
  redirectRelative : String → String → String

/-- A choice of the open library functions, for evaluating examples. The
decoder reads a body of the form `{"url":"..."}`; the encoders write a string
between quotes, an entity as its three fields and a list between brackets;
`ParseMediaType` knows the content types of the examples and no other;
`EqualFold` folds ASCII letters; a URL without a scheme is taken as a clean
path relative to the root directory. -/
def Lib.sample : Lib where
  decodeCreateShortenReq body :=
    if body.data.take 8 = "\x7b\"url\":\"".data ∧ (body.data.drop 8).reverse.take 2 = "\x7d\"".data
    then (⟨String.mk ((body.data.drop 8).reverse.drop 2).reverse⟩, none)
    else (⟨""⟩, some (.errorString "unexpected end of JSON input"))
  encodeString s := "\"" ++ s ++ "\"\n"
  encodeGetShortenResp e :=
    "\x7b\"id\":" ++ strconv.FormatInt e.ID ++ ",\"url\":\"" ++ e.URL ++ "\",\"hash\":\""
      ++ e.Hash ++ "\"\x7d\n"
  encodeListShortenResp l :=
    "[" ++ ",".intercalate (l.map (fun e =>
      "\x7b\"id\":" ++ strconv.FormatInt e.ID ++ ",\"url\":\"" ++ e.URL ++ "\",\"hash\":\""
        ++ e.Hash ++ "\"\x7d")) ++ "]\n"
  ParseMediaType v :=
    if v = "application/json; charset=utf-8" then
      (("application/json", [("charset", "utf-8")]), none)
    else if v = "application/json" then (("application/json", []), none)
    else if v = "Application/JSON; Charset=UTF-8" then
      (("application/json", [("charset", "UTF-8")]), none)
    else if v = "application/json; charset=utf-16" then
      (("application/json", [("charset", "utf-16")]), none)
    else if v = "application/json; version=1" then
      (("application/json", [("version", "1")]), none)
    else if v = "application/json; version=\"\"" then
      (("application/json", [("version", "")]), none)
    else if v = "text/plain" then (("text/plain", []), none)
    else (("", []), some (.errorString "mime: no media type"))
  EqualFold s t := s.data.map Char.toLower = t.data.map Char.toLower
  redirectRelative _ url := "/" ++ url

/-- Go's `http.Redirect(w, r, url, code)`. A URL with a scheme, or one that
`url.Parse` rejects for a colon in front, is sent as it is; the header
`Location` gets the URL with its bytes outside ASCII escaped. A `GET` or
`HEAD` request without a content type of the response so far gets one, and a
`GET` request gets a short HTML body; the program redirects with status 307
only. -/
def Redirect (lib : Lib) (w : Response) (r : Request) (url : String) (code : Nat) : Response :=
  let url := if getScheme url = .absent then lib.redirectRelative r.Path url else url
  let hadCT := w.Header.any (fun kv => kv.1 = headerKey "Content-Type")
  let w := w.Set "Location" (hexEscapeNonASCII url)
  let w :=
    if !hadCT ∧ (r.Method = "GET" ∨ r.Method = "HEAD") then
      w.Set "Content-Type" "text/html; charset=utf-8"
    else w
  let w := w.WriteHeader code
  if !hadCT ∧ r.Method = "GET" then
    w.Write ("<a href=\"" ++ htmlEscape url ++ "\">Temporary Redirect</a>.\n\n")
  else w

/-- The variable `ErrMissingRequired` of router.go. -/
def ErrMissingRequired : GoError := .errorString "missing required"

/-- The variable `ErrBadFormat` of router.go. -/
def ErrBadFormat : GoError := .errorString "bad format"

/-- The struct `ErrorResponse` of router.go. -/
structure ErrorResponse where
  StatusCode : Nat
  Cause : Option GoError

/-- The function `Decode` of router.go on a `*CreateShortenReq`. -/
def Decode (lib : Lib) (body : String) : CreateShortenReq × Option GoError :=
  match (lib.decodeCreateShortenReq body).2 with
  | some err =>
    ((lib.decodeCreateShortenReq body).1,
      some (.wrapError "decode into %T: %w" [.pointer "*webhttp.CreateShortenReq"] err))
  | none => ((lib.decodeCreateShortenReq body).1, none)

/-- The function `Encode` of router.go, for the bytes `json` that the encoder
writes: writing to the response does not fail, so the error is nil. -/
def Encode (w : Response) (json : String) : Response × Option GoError :=
  (w.Write json, none)

/-- The method `ErrorResponse.Write` of router.go. The logger only prints,
which the model leaves out. -/
def ErrorResponse.Write (q : Rendering) (lib : Lib) (er : ErrorResponse) (w : Response) :
    Response :=
  match er.Cause with
  | none => w.WriteHeader er.StatusCode
  | some cause => (Encode (w.WriteHeader er.StatusCode) (lib.encodeString (cause.Error q))).1

/-- The function `WriteError` of router.go; `debug` is `logger.IsDebug()`. -/
def WriteError (q : Rendering) (lib : Lib) (debug : Bool) (err : Option GoError)
    (w : Response) : Response :=
  let cause := if debug then err else none
  if errorsIs err ErrBadInput then
    ErrorResponse.Write q lib ⟨StatusBadRequest, cause⟩ w
  else if errorsIs err ErrNotUnique then
    ErrorResponse.Write q lib ⟨StatusConflict, cause⟩ w
  else if errorsIs err ErrNotFound then
    ErrorResponse.Write q lib ⟨StatusNotFound, cause⟩ w
  else
    ErrorResponse.Write q lib ⟨StatusInternalServerError, cause⟩ w

/-- The struct `ParamOpts` of base_handler.go. -/
structure ParamOpts where
  Optional : Bool
  Name : String
deriving DecidableEq, Repr

/-- The struct `ParamInt64Opts` of base_handler.go. -/
structure ParamInt64Opts where
  P : ParamOpts
  Default : Int
deriving DecidableEq, Repr

/-- The method `ParamInt64Opts.parse` of base_handler.go. -/
def ParamInt64Opts.parse (opts : ParamInt64Opts) (val : String) : Int × Option GoError :=
  if val = "" then
    if opts.P.Optional then (opts.Default, none) else (0, some ErrMissingRequired)
  else
    match (strconv.ParseInt val).2 with
    | some err => (0, some (.wrapError "%w: %v" [.numError "ParseInt" val err] ErrBadFormat))
    | none => ((strconv.ParseInt val).1, none)

/-- The method `baseHandler.pathParam` of base_handler.go. -/
def pathParam (r : Request) (name : String) : String := lookup r.Params name

/-- The method `baseHandler.queryParam` of base_handler.go. -/
def queryParam (r : Request) (name : String) : String := lookup r.Query name

/-- The method `baseHandler.queryParamInt64` of base_handler.go. -/
def queryParamInt64 (r : Request) (opts : ParamInt64Opts) : Int × Option GoError :=
  opts.parse (queryParam r opts.P.Name)

/-- The interface `ShortenService` of shorten.go, on states `σ`. -/
structure ShortenService (σ : Type) where
  Create : shorten.Entity → σ → (Int × Option GoError) × σ
  Get : Int → σ → (shorten.Entity × Option GoError) × σ
  List : storage.shorten.Pager → σ → (Slice shorten.Entity × Option GoError) × σ
  Delete : Int → σ → Option GoError × σ
  Resolve : String → σ → (String × Option GoError) × σ

/-- The type `*shorten.Service` as a `ShortenService`. -/
def serviceOf {ρ σ : Type} (s : shorten.Service ρ σ) : ShortenService σ where
  Create := s.Create
  Get := s.Get
  List := s.List
  Delete := s.Delete
  Resolve := s.Resolve

/-- The calls made to a service so far, oldest first. -/
abbrev Calls := List shorten.Op

/-- The service `svc` with every call recorded next to the state. -/
def ShortenService.traced {σ : Type} (svc : ShortenService σ) : ShortenService (σ × Calls) where
  Create e w := ((svc.Create e w.1).1, ((svc.Create e w.1).2, w.2 ++ [.Create e]))
  Get id w := ((svc.Get id w.1).1, ((svc.Get id w.1).2, w.2 ++ [.Get id]))
  List p w := ((svc.List p w.1).1, ((svc.List p w.1).2, w.2 ++ [.List p]))
  Delete id w := ((svc.Delete id w.1).1, ((svc.Delete id w.1).2, w.2 ++ [.Delete id]))
  Resolve h w := ((svc.Resolve h w.1).1, ((svc.Resolve h w.1).2, w.2 ++ [.Resolve h]))

/-- The method `Mapper.createShortenReq2Entity` of mapping.go:
`shorten.Entity{URL: req.URL}`. -/
def createShortenReq2Entity (req : CreateShortenReq) : shorten.Entity :=
  { ID := 0, URL := req.URL, Hash := "" }

/-- The method `Mapper.entity2GetShortenResp` of mapping.go. -/
def entity2GetShortenResp (entity : shorten.Entity) : GetShortenResp :=
  { ID := entity.ID, URL := entity.URL, Hash := entity.Hash }

/-- The method `Mapper.entities2ListShortenResp` of mapping.go. -/
def entities2ListShortenResp (entities : Slice shorten.Entity) : List GetShortenResp :=
  entities.elems.map entity2GetShortenResp

/-- The method `ShortenHandler.urlPrefix` of shorten.go. -/
def urlPrefix : String := "/api/shorten"

/-- The constant `defaultListLimit` of shorten.go. -/
def defaultListLimit : Int := 50

/-- A handler on the response written so far and the state of the service. -/
abbrev Handler (σ : Type) := Request → Response × σ → Response × σ

/-- The method `ShortenHandler.Create` of shorten.go. -/
def ShortenHandler.Create {σ : Type} (q : Rendering) (lib : Lib) (debug : Bool)
    (shortenService : ShortenService σ) : Handler σ := fun r st =>
  match (Decode lib r.Body).2 with
  | some err => (ErrorResponse.Write q lib ⟨StatusBadRequest, some err⟩ st.1, st.2)
  | none =>
    let res := shortenService.Create (createShortenReq2Entity (Decode lib r.Body).1) st.2
    match res.1.2 with
    | some err => (WriteError q lib debug (some err) st.1, res.2)
    | none =>
      (((st.1.Set "location" (urlPrefix ++ "/" ++ strconv.FormatInt res.1.1)).WriteHeader
        StatusCreated), res.2)

/-- The method `ShortenHandler.List` of shorten.go. -/
def ShortenHandler.List {σ : Type} (q : Rendering) (lib : Lib) (debug : Bool)
    (shortenService : ShortenService σ) : Handler σ := fun r st =>
  let limit := queryParamInt64 r ⟨⟨true, "limit"⟩, defaultListLimit⟩
  match limit.2 with
  | some err =>
    (ErrorResponse.Write q lib
      ⟨StatusBadRequest, some (.wrapError "parameter \"limit\": %w" [] err)⟩ st.1, st.2)
  | none =>
    let offset := queryParamInt64 r ⟨⟨true, "offset"⟩, 0⟩
    match offset.2 with
    | some err =>
      (ErrorResponse.Write q lib
        ⟨StatusBadRequest, some (.wrapError "parameter \"offset\": %w" [] err)⟩ st.1, st.2)
    | none =>
      let res := shortenService.List ⟨limit.1, offset.1⟩ st.2
      match res.1.2 with
      | some err => (WriteError q lib debug (some err) st.1, res.2)
      | none =>
        match (Encode st.1 (lib.encodeListShortenResp (entities2ListShortenResp res.1.1))).2 with
        | some err =>
          (ErrorResponse.Write q lib ⟨StatusInternalServerError, some err⟩
            (Encode st.1 (lib.encodeListShortenResp (entities2ListShortenResp res.1.1))).1,
            res.2)
        | none =>
          ((Encode st.1 (lib.encodeListShortenResp (entities2ListShortenResp res.1.1))).1, res.2)

/-- The method `ResolverHandler.Resolve` of resolver.go, on the method
`Resolve` of a `Resolver`. -/
def ResolverHandler.Resolve {σ : Type} (q : Rendering) (lib : Lib) (debug : Bool)
    (resolver : String → σ → (String × Option GoError) × σ) : Handler σ := fun r st =>
  let res := resolver (pathParam r "hash") st.2
  match res.1.2 with
  | some err => (WriteError q lib debug (some err) st.1, res.2)
  | none => (Redirect lib st.1 r res.1.1 StatusTemporaryRedirect, res.2)

/-- The function `RequestContentType` of middleware.go: none when it panics
on a content type that does not parse, and otherwise the middleware. The loop
over the parameters of the request stops at the first one that differs from
the configured parameter of its name; `wantParams[k]` is the empty string for
a name that is not configured. -/
def RequestContentType {σ : Type} (lib : Lib) (contentType : String) :
    Option (Handler σ → Handler σ) :=
  match (lib.ParseMediaType contentType).2 with
  | some _ => none
  | none =>
    some (fun next r st =>
      match (lib.ParseMediaType (r.Get "content-type")).2 with
      | some _ => (st.1.WriteHeader StatusUnsupportedMediaType, st.2)
      | none =>
        if !lib.EqualFold (lib.ParseMediaType contentType).1.1
            (lib.ParseMediaType (r.Get "content-type")).1.1 then
          (st.1.WriteHeader StatusUnsupportedMediaType, st.2)
        else if (lib.ParseMediaType (r.Get "content-type")).1.2.any (fun kv =>
            !lib.EqualFold kv.2 (lookup (lib.ParseMediaType contentType).1.2 kv.1)) then
          (st.1.WriteHeader StatusUnsupportedMediaType, st.2)
        else next r st)

/-- The variable `AcceptsJSON` of middleware.go. -/
def AcceptsJSON {σ : Type} (lib : Lib) : Option (Handler σ → Handler σ) :=
  RequestContentType lib "application/json; charset=utf-8"

end webhttp

namespace storage

/-- The runner `run` with the statement and the parameters of every `Exec`
recorded next to the state. -/
def Runner.recording {σ : Type} (run : Runner σ) : Runner (σ × List (String × List Value)) where
  Exec query params w :=
    ((run.Exec query params w.1).1, ((run.Exec query params w.1).2, w.2 ++ [(query, params)]))
  Query query params w := ((run.Query query params w.1).1, ((run.Query query params w.1).2, w.2))
  QuerySingle query params w :=
    ((run.QuerySingle query params w.1).1, ((run.QuerySingle query params w.1).2, w.2))

end storage

/-! # Theorems -/

/-! ## The hash -/

set_option maxRecDepth 100000

/-- RFC 1321 test suite: the digest of the empty string. -/
theorem md5_Sum_empty :
    sprintfHex (md5.Sum (bytes "")) = "d41d8cd98f00b204e9800998ecf8427e".data := by
  decide

/-- RFC 1321 test suite: the digest of "abc". -/
theorem md5_Sum_abc :
    sprintfHex (md5.Sum (bytes "abc")) = "900150983cd24fb0d6963f7d28e17f72".data := by
  decide

/-- RFC 1321 test suite: a message that needs two blocks. -/
theorem md5_Sum_two_blocks :
    sprintfHex (md5.Sum (bytes
      "ABCDEFGHIJKLMNOPQRSTUVWXYZabcdefghijklmnopqrstuvwxyz0123456789"))
      = "d174ab98d277d9f5a5611c2c9f419d9f".data := by
  decide

/-- The bytes of a string are those of its UTF-8 encoding. -/
theorem bytes_eq_toUTF8 (s : String) :
    bytes s = s.toUTF8.data.toList.map UInt8.toNat := rfl

/-- Every element of a digest is a byte. -/
theorem md5_Sum_lt (msg : List Nat) : ∀ b ∈ md5.Sum msg, b < 256 := by
  intro b hb
  simp only [md5.Sum, md5.le32, List.mem_append, List.mem_cons, List.mem_singleton,
    List.not_mem_nil, or_false] at hb
  rcases hb with ((h | h) | h) | h <;> rcases h with h | h | h | h <;>
    (subst h; exact Nat.mod_lt _ (by decide))

/-- On a byte, the digit table of `fmt` gives the two base-16 digits. -/
theorem sprintfHex_byte :
    ∀ c, c < 256 →
      [ldigits.getD (c >>> 4) '0', ldigits.getD (Nat.land c 15) '0'] = hexByte c := by
  decide

/-- On bytes, `%x` is the lower-case hexadecimal rendering. -/
theorem sprintfHex_eq_hexDigest (b : List Nat) (hb : ∀ c ∈ b, c < 256) :
    String.mk (sprintfHex b) = hexDigest b := by
  unfold sprintfHex hexDigest
  congr 1
  induction b with
  | nil => rfl
  | cons c t ih =>
    simp only [List.flatMap_cons]
    rw [ih (fun x hx => hb x (List.mem_cons_of_mem _ hx)),
      sprintfHex_byte c (hb c (List.mem_cons_self _ _))]

/-- C1: for every url, `computeHash url` is the first 7 characters of the
lower-case hexadecimal rendering of the MD5 digest of the UTF-8 bytes of the
url, and for "https://www.google.com" it is "8ffdefb". -/
theorem computeHash_md5_hex (url : String) :
    computeHash url
        = (hexDigest (md5.Sum (url.toUTF8.data.toList.map UInt8.toNat))).take 7
      ∧ computeHash "https://www.google.com" = "8ffdefb" := by
  refine ⟨?_, by decide⟩
  rw [String.take_eq, ← bytes_eq_toUTF8, ← sprintfHex_eq_hexDigest _ (md5_Sum_lt _)]
  rfl

/-- A digest has 16 bytes. -/
theorem md5_Sum_length (msg : List Nat) : (md5.Sum msg).length = 16 := by
  simp [md5.Sum, md5.le32]

/-- The rendering `%x` has two characters per byte. -/
theorem sprintfHex_length (b : List Nat) : (sprintfHex b).length = 2 * b.length := by
  induction b with
  | nil => rfl
  | cons c t ih =>
    simp only [sprintfHex, List.flatMap_cons, List.length_append, List.length_cons,
      List.length_nil] at ih ⊢
    omega

/-- Both digits of a byte are among `0-9` and `a-f`. -/
theorem sprintfHex_byte_mem :
    ∀ c, c < 256 →
      ldigits.getD (c >>> 4) '0' ∈ "0123456789abcdef".data
        ∧ ldigits.getD (Nat.land c 15) '0' ∈ "0123456789abcdef".data := by
  decide

/-- The rendering `%x` of bytes consists of the characters `0-9` and `a-f`. -/
theorem sprintfHex_mem (b : List Nat) (hb : ∀ c ∈ b, c < 256) :
    ∀ ch ∈ sprintfHex b, ch ∈ "0123456789abcdef".data := by
  intro ch hch
  simp only [sprintfHex, List.mem_flatMap, List.mem_cons, List.mem_singleton,
    List.not_mem_nil, or_false] at hch
  obtain ⟨c, hc, h | h⟩ := hch
  · rw [h]; exact (sprintfHex_byte_mem c (hb c hc)).1
  · rw [h]; exact (sprintfHex_byte_mem c (hb c hc)).2

/-- The hash has `hashLen` characters. -/
theorem computeHash_length (url : String) : (computeHash url).data.length = 7 := by
  simp [computeHash, hashLen, List.length_take, sprintfHex_length, md5_Sum_length]

/-- The characters of the hash are among `0-9` and `a-f`. -/
theorem computeHash_mem (url : String) :
    ∀ ch ∈ (computeHash url).data, ch ∈ "0123456789abcdef".data := by
  intro ch hch
  exact sprintfHex_mem _ (md5_Sum_lt _) ch (List.mem_of_mem_take hch)

/-- No hexadecimal digit is white space. -/
theorem hex_digit_not_space : ∀ c ∈ "0123456789abcdef".data, IsSpace c = false := by
  decide

/-- The hash is not blank. -/
theorem computeHash_not_blank (url : String) : ¬ Blank (computeHash url) := by
  intro hb
  have hlen := computeHash_length url
  cases hd : (computeHash url).data with
  | nil => rw [hd] at hlen; cases hlen
  | cons c t =>
    have hc : c ∈ (computeHash url).data := by rw [hd]; exact List.mem_cons_self _ _
    have hsp := hb c hc
    rw [hex_digit_not_space c (computeHash_mem url c hc)] at hsp
    cases hsp

/-! ## Blank strings and error kinds -/

/-- Trimming leaves nothing exactly when every character is white space. -/
theorem TrimSpace_eq_empty_iff (s : String) : TrimSpace s = "" ↔ Blank s := by
  unfold TrimSpace Blank
  rw [show ("" : String) = String.mk [] from rfl, String.ext_iff]
  show List.rdropWhile IsSpace (List.dropWhile IsSpace s.data) = [] ↔ _
  rw [List.rdropWhile_eq_nil_iff]
  constructor
  · intro h
    by_cases hnil : List.dropWhile IsSpace s.data = []
    · exact List.dropWhile_eq_nil_iff.mp hnil
    · have hhead := List.head_dropWhile_not IsSpace s.data hnil
      rw [h _ (List.head_mem hnil)] at hhead
      exact absurd hhead (by decide)
  · intro h x hx
    exact h x ((List.dropWhile_suffix IsSpace).subset hx)

/-- A blank value is rejected, with the name of the field in the details. -/
theorem isNotBlank_of_blank (v name : String) (h : Blank v) :
    shorten.isNotBlank v name
      = some (.ValidationError ErrBadInput [(name, "blank or empty")]) := by
  unfold shorten.isNotBlank
  rw [if_pos ((TrimSpace_eq_empty_iff v).mpr h)]

/-- A value that is not blank passes. -/
theorem isNotBlank_of_not_blank (v name : String) (h : ¬ Blank v) :
    shorten.isNotBlank v name = none := by
  unfold shorten.isNotBlank
  rw [if_neg (fun he => h ((TrimSpace_eq_empty_iff v).mp he))]

/-- A validation error caused by `ErrBadInput` is `ErrBadInput`. -/
theorem errorsIs_validation (details : List (String × String)) :
    errorsIs (some (.ValidationError ErrBadInput details)) ErrBadInput = true := by
  simp [errorsIs, GoError.is, ErrBadInput, GoError.comparable]

/-- Wrapping with `%w` keeps what the wrapped error is. -/
theorem errorsIs_wrapError (format : String) (args : List FmtArg) (err target : GoError)
    (h : errorsIs (some err) target = true) :
    errorsIs (some (.wrapError format args err)) target = true := by
  simp only [errorsIs] at h ⊢
  rw [GoError.is, h]
  simp

/-! ## Validation in `Create` -/

section Service

open shorten

variable {ρ σ : Type}

/-- A blank url is rejected before anything else is looked at. -/
theorem Create_of_blank_url (s : Service ρ σ) (short : Entity) (w : σ)
    (hurl : Blank short.URL) :
    s.Create short w
      = ((0, some (.ValidationError ErrBadInput [("url", "blank or empty")])), w) := by
  unfold Service.Create
  rw [isNotBlank_of_blank _ _ hurl]

/-- A supplied hash that is not blank is rejected. -/
theorem Create_of_supplied_hash (s : Service ρ σ) (short : Entity) (w : σ)
    (hurl : ¬ Blank short.URL) (hhash : ¬ Blank short.Hash) :
    s.Create short w
      = ((0, some (.ValidationError ErrBadInput [("hash", "not empty")])), w) := by
  unfold Service.Create
  rw [isNotBlank_of_not_blank _ _ hurl]
  simp only
  rw [if_pos (fun he => hhash ((TrimSpace_eq_empty_iff _).mp he))]

/-- C5: for every blank url and every supplied hash, `Create` returns id 0
and the validation error `ValidationError{ErrBadInput, {"url": "blank or
empty"}}`, which is `ErrBadInput`; the state is untouched. The supplied hash
is arbitrary, so the check of the url comes first. -/
theorem Create_blank_url (s : Service ρ σ) (short : Entity) (w : σ)
    (hurl : Blank short.URL) :
    s.Create short w
        = ((0, some (.ValidationError ErrBadInput [("url", "blank or empty")])), w)
      ∧ errorsIs (s.Create short w).1.2 ErrBadInput = true := by
  have h := Create_of_blank_url s short w hurl
  exact ⟨h, by rw [h]; exact errorsIs_validation _⟩

/-- Witness for C5: a url of white space with a supplied hash. -/
theorem Create_blank_url_witness :
    Blank (Entity.mk 5 " \t\n" "stub").URL
      ∧ modelService.Create ⟨5, " \t\n", "stub"⟩ sqlite.World.start
          = ((0, some (.ValidationError ErrBadInput [("url", "blank or empty")])),
              sqlite.World.start)
      ∧ errorsIs (modelService.Create ⟨5, " \t\n", "stub"⟩ sqlite.World.start).1.2
          ErrBadInput = true :=
  ⟨by decide, Create_blank_url modelService ⟨5, " \t\n", "stub"⟩ sqlite.World.start (by decide)⟩

/-- C6: for every url that is not blank and every supplied hash that is not
blank, `Create` returns id 0 and the validation error
`ValidationError{ErrBadInput, {"hash": "not empty"}}`, which is `ErrBadInput`;
the state is untouched. -/
theorem Create_supplied_hash (s : Service ρ σ) (short : Entity) (w : σ)
    (hurl : ¬ Blank short.URL) (hhash : ¬ Blank short.Hash) :
    s.Create short w
        = ((0, some (.ValidationError ErrBadInput [("hash", "not empty")])), w)
      ∧ errorsIs (s.Create short w).1.2 ErrBadInput = true := by
  have h := Create_of_supplied_hash s short w hurl hhash
  exact ⟨h, by rw [h]; exact errorsIs_validation _⟩

/-- Witness for C6: the input of the test "hash is set". -/
theorem Create_supplied_hash_witness :
    ¬ Blank (Entity.mk 0 "http://example.com" "stub").URL
      ∧ ¬ Blank (Entity.mk 0 "http://example.com" "stub").Hash
      ∧ modelService.Create ⟨0, "http://example.com", "stub"⟩ sqlite.World.start
          = ((0, some (.ValidationError ErrBadInput [("hash", "not empty")])),
              sqlite.World.start)
      ∧ errorsIs (modelService.Create ⟨0, "http://example.com", "stub"⟩
          sqlite.World.start).1.2 ErrBadInput = true :=
  ⟨by decide, by decide,
    Create_supplied_hash modelService ⟨0, "http://example.com", "stub"⟩ sqlite.World.start
      (by decide) (by decide)⟩

/-! ## A transactioner that runs the callback -/

/-- Recording the calls keeps a transactioner running its callback directly. -/
theorem traced_RunsDirectly (tr : Transactioner ρ σ) (r : ρ) (h : tr.RunsDirectly r) :
    tr.traced.RunsDirectly r := by
  intro L f st
  simp only [Transactioner.traced]
  rw [h]

/-- The transactioner of a recorded service runs its callback directly when
that of the service does. -/
theorem traced_service_RunsDirectly (s : Service ρ σ) (r : ρ) (h : s.tr.RunsDirectly r) :
    s.traced.tr.RunsDirectly r :=
  traced_RunsDirectly s.tr r h

/-- The transactioner of the tests runs its callback directly, on a nil runner. -/
theorem testTransactioner_RunsDirectly :
    (testTransactioner : Transactioner (Option ρ) σ).RunsDirectly none :=
  fun _ _ _ => rfl

/-- `SQLLite.WithoutTx` runs its callback directly, on the pooled runner. -/
theorem sqlLiteTransactioner_RunsDirectly (p : storage.SQLLite σ) :
    (sqlLiteTransactioner p).RunsDirectly (storage.qRunner p.db) :=
  fun _ _ _ => rfl

/-! ## `Resolve`, `Get` and the validation of `List` -/

/-- `Resolve` on a hash that is not blank, when the lookup finds an entity. -/
theorem Resolve_of_found (s : Service ρ σ) (r : ρ) (hTr : s.tr.RunsDirectly r)
    (hash : String) (w : σ) (hnb : ¬ Blank hash)
    (hok : (s.storage.ByHash r hash w).1.2 = none) :
    s.Resolve hash w
      = ((((s.storage.ByHash r hash w).1.1).URL, none), (s.storage.ByHash r hash w).2) := by
  unfold Service.Resolve
  rw [isNotBlank_of_not_blank _ _ hnb]
  simp only
  rw [hTr]
  simp only [hok]

/-- C8: `Resolve` on a blank hash returns the empty string and the validation
error `ValidationError{ErrBadInput, {"hash": "blank or empty"}}`. On a hash
that is not blank, with a transactioner that runs the callback, it makes one
storage call, `ByHash` with the hash as given; if that fails with an error
that is `ErrNotFound`, it returns the empty string and an error that is
`ErrNotFound`; if that returns an entity without error, it returns the URL of
that entity and no error. -/
theorem Resolve_spec (s : Service ρ σ) (r : ρ) (hTr : s.tr.RunsDirectly r)
    (hash : String) (w : σ) :
    (Blank hash →
      s.Resolve hash w
        = (("", some (.ValidationError ErrBadInput [("hash", "blank or empty")])), w))
    ∧ (¬ Blank hash →
      (s.traced.Resolve hash (w, [])).2.2 = [Call.ByHash hash]
      ∧ (∀ err, (s.storage.ByHash r hash w).1.2 = some err →
          errorsIs (some err) ErrNotFound = true →
          (s.Resolve hash w).1.1 = "" ∧ errorsIs (s.Resolve hash w).1.2 ErrNotFound = true)
      ∧ ((s.storage.ByHash r hash w).1.2 = none →
          s.Resolve hash w
            = ((((s.storage.ByHash r hash w).1.1).URL, none), (s.storage.ByHash r hash w).2))) := by
  refine ⟨fun hb => ?_, fun hnb => ⟨?_, ?_, ?_⟩⟩
  · unfold Service.Resolve
    rw [isNotBlank_of_blank _ _ hb]
  · unfold Service.Resolve
    rw [isNotBlank_of_not_blank _ _ hnb]
    simp only
    rw [traced_service_RunsDirectly s r hTr]
    simp only [Service.traced, Storage.traced, List.nil_append]
    cases (s.storage.ByHash r hash w).1.2 <;> rfl
  · intro err herr hnf
    unfold Service.Resolve
    rw [isNotBlank_of_not_blank _ _ hnb]
    simp only
    rw [hTr]
    simp only [herr]
    exact ⟨trivial, errorsIs_wrapError _ _ _ _ hnf⟩
  · exact Resolve_of_found s r hTr hash w hnb

/-- Witness for C8: resolving the hash of a stored row on the model store. -/
theorem Resolve_spec_witness :
    modelService.tr.RunsDirectly (storage.qRunner sqlite.db)
      ∧ ¬ Blank "8ffdefb"
      ∧ (modelService.traced.Resolve "8ffdefb"
          (sqlite.World.withRows [⟨1, "https://www.google.com", "8ffdefb", 0⟩], [])).2.2
          = [Call.ByHash "8ffdefb"]
      ∧ (modelService.Resolve "8ffdefb"
          (sqlite.World.withRows [⟨1, "https://www.google.com", "8ffdefb", 0⟩])).1
          = ("https://www.google.com", none) :=
  ⟨sqlLiteTransactioner_RunsDirectly _, by decide,
    ((Resolve_spec modelService _ (sqlLiteTransactioner_RunsDirectly _) "8ffdefb"
      (sqlite.World.withRows [⟨1, "https://www.google.com", "8ffdefb", 0⟩])).2 (by decide)).1,
    congrArg Prod.fst
      (((Resolve_spec modelService _ (sqlLiteTransactioner_RunsDirectly _) "8ffdefb"
        (sqlite.World.withRows [⟨1, "https://www.google.com", "8ffdefb", 0⟩])).2
          (by decide)).2.2 rfl)⟩

/-- C9: `Get` validates nothing about the id. With a transactioner that runs
the callback, if `Retrieve` fails with an error that is `ErrNotFound`, `Get`
returns the zero entity and an error that is `ErrNotFound`; if `Retrieve`
returns an entity without error, `Get` returns its ID, URL and Hash and no
error. -/
theorem Get_spec (s : Service ρ σ) (r : ρ) (hTr : s.tr.RunsDirectly r) (id : Int) (w : σ) :
    (∀ err, (s.storage.Retrieve r id w).1.2 = some err →
        errorsIs (some err) ErrNotFound = true →
        (s.Get id w).1.1 = Entity.zero ∧ errorsIs (s.Get id w).1.2 ErrNotFound = true)
    ∧ ((s.storage.Retrieve r id w).1.2 = none →
        s.Get id w
          = ((⟨((s.storage.Retrieve r id w).1.1).ID, ((s.storage.Retrieve r id w).1.1).URL,
                ((s.storage.Retrieve r id w).1.1).Hash⟩, none),
              (s.storage.Retrieve r id w).2)) := by
  refine ⟨fun err herr hnf => ?_, fun hok => ?_⟩
  · unfold Service.Get
    simp only
    rw [hTr]
    simp only [herr]
    exact ⟨trivial, errorsIs_wrapError _ _ _ _ hnf⟩
  · unfold Service.Get
    simp only
    rw [hTr]
    simp only [hok, serviceEntity]

/-- Witness for C9: a negative id that no row has, and the id of a stored row. -/
theorem Get_spec_witness :
    modelService.tr.RunsDirectly (storage.qRunner sqlite.db)
      ∧ ((modelService.Get (-3) sqlite.World.start).1.1 = Entity.zero
          ∧ errorsIs (modelService.Get (-3) sqlite.World.start).1.2 ErrNotFound = true)
      ∧ (modelService.Get 1
          (sqlite.World.withRows [⟨1, "https://www.google.com", "8ffdefb", 0⟩])).1
          = (⟨1, "https://www.google.com", "8ffdefb"⟩, none) :=
  ⟨sqlLiteTransactioner_RunsDirectly _,
    (Get_spec modelService _ (sqlLiteTransactioner_RunsDirectly _) (-3) sqlite.World.start).1
      (.wrapError "retrieve single: %w" [] ErrNotFound) rfl (by decide),
    congrArg Prod.fst
      ((Get_spec modelService _ (sqlLiteTransactioner_RunsDirectly _) 1
        (sqlite.World.withRows [⟨1, "https://www.google.com", "8ffdefb", 0⟩])).2 rfl)⟩

/-- C10: `List` with a limit below 1 returns a nil slice and the validation
error `{"limit": "is lesser then 1"}`, whatever the offset; with a limit of
at least 1 and a negative offset it returns a nil slice and the validation
error `{"offset": "is negative"}`; with a limit of at least 1 and an offset
of at least 0 the error it returns is nil or a wrapped error of the unit of
work, never a validation error of `List`, and with a transactioner that runs
the callback the pager reaches the storage in one `List` call. -/
theorem List_validation (s : Service ρ σ) (pager : storage.shorten.Pager) (w : σ) :
    (pager.Limit < 1 →
      s.List pager w
        = ((none, some (.ValidationError ErrBadInput [("limit", "is lesser then 1")])), w))
    ∧ (1 ≤ pager.Limit → pager.Offset < 0 →
      s.List pager w
        = ((none, some (.ValidationError ErrBadInput [("offset", "is negative")])), w))
    ∧ (1 ≤ pager.Limit → 0 ≤ pager.Offset →
      ((s.List pager w).1.2 = none
        ∨ ∃ e, (s.List pager w).1.2 = some (.wrapError "list shortens: %w" [] e))
      ∧ (∀ cause details, (s.List pager w).1.2 ≠ some (.ValidationError cause details))
      ∧ ∀ r, s.tr.RunsDirectly r → (s.traced.List pager (w, [])).2.2 = [Call.List pager]) := by
  refine ⟨fun hl => ?_, fun hl ho => ?_, fun hl ho => ?_⟩
  · unfold Service.List
    rw [if_pos hl]
  · unfold Service.List
    rw [if_neg (not_lt.mpr hl), if_pos ho]
  · have hor : (s.List pager w).1.2 = none
        ∨ ∃ e, (s.List pager w).1.2 = some (.wrapError "list shortens: %w" [] e) := by
      unfold Service.List
      rw [if_neg (not_lt.mpr hl), if_neg (not_lt.mpr ho)]
      simp only
      split
      · exact Or.inr ⟨_, rfl⟩
      · exact Or.inl rfl
    refine ⟨hor, fun cause details hve => ?_, fun r hTr => ?_⟩
    · rcases hor with h | ⟨e, h⟩ <;> rw [h] at hve <;> cases hve
    · unfold Service.List
      rw [if_neg (not_lt.mpr hl), if_neg (not_lt.mpr ho)]
      simp only
      rw [traced_service_RunsDirectly s r hTr]
      simp only [Service.traced, Storage.traced, List.nil_append]
      cases (s.storage.List r pager w).1.2 <;> rfl

/-- Witness for C10: the pagers of the tests "bad limit" and "bad offset",
and a valid pager on the model store. -/
theorem List_validation_witness :
    modelService.List ⟨-50, 10⟩ sqlite.World.start
        = ((none, some (.ValidationError ErrBadInput [("limit", "is lesser then 1")])),
            sqlite.World.start)
      ∧ modelService.List ⟨50, -10⟩ sqlite.World.start
        = ((none, some (.ValidationError ErrBadInput [("offset", "is negative")])),
            sqlite.World.start)
      ∧ (modelService.traced.List ⟨1, 0⟩ (sqlite.World.start, [])).2.2 = [Call.List ⟨1, 0⟩] :=
  ⟨(List_validation modelService ⟨-50, 10⟩ sqlite.World.start).1 (by decide),
    (List_validation modelService ⟨50, -10⟩ sqlite.World.start).2.1 (by decide) (by decide),
    ((List_validation modelService ⟨1, 0⟩ sqlite.World.start).2.2 (by decide) (by decide)).2.2
      _ (sqlLiteTransactioner_RunsDirectly _)⟩

/-! ## `Create`: the new row, the reuse and the hash handed to the storage -/

/-- `Create` on a valid input with a transactioner that runs the callback:
the lookup by the computed hash decides between the three outcomes. -/
theorem Create_valid (s : Service ρ σ) (r : ρ) (hTr : s.tr.RunsDirectly r)
    (short : Entity) (w : σ) (hurl : ¬ Blank short.URL) (hhash : Blank short.Hash) :
    s.Create short w =
      match (s.storage.ByHash r (computeHash short.URL) w).1.2 with
      | some err =>
        if errorsIs (some err) ErrNotFound = true then
          match (s.storage.Persist r
              ⟨0, short.URL, computeHash short.URL,
                (s.timeNow (s.storage.ByHash r (computeHash short.URL) w).2).1⟩
              (s.timeNow (s.storage.ByHash r (computeHash short.URL) w).2).2).1.2 with
          | some perr =>
            ((0, some (.wrapError "persist short: %w" [] perr)),
              (s.storage.Persist r
                ⟨0, short.URL, computeHash short.URL,
                  (s.timeNow (s.storage.ByHash r (computeHash short.URL) w).2).1⟩
                (s.timeNow (s.storage.ByHash r (computeHash short.URL) w).2).2).2)
          | none =>
            (((s.storage.Persist r
                ⟨0, short.URL, computeHash short.URL,
                  (s.timeNow (s.storage.ByHash r (computeHash short.URL) w).2).1⟩
                (s.timeNow (s.storage.ByHash r (computeHash short.URL) w).2).2).1.1, none),
              (s.storage.Persist r
                ⟨0, short.URL, computeHash short.URL,
                  (s.timeNow (s.storage.ByHash r (computeHash short.URL) w).2).1⟩
                (s.timeNow (s.storage.ByHash r (computeHash short.URL) w).2).2).2)
        else
          ((0, some (.wrapError "persist short: %w" []
              (.wrapError "lookup by hash %q: %w" [.str (computeHash short.URL)] err))),
            (s.storage.ByHash r (computeHash short.URL) w).2)
      | none =>
        ((((s.storage.ByHash r (computeHash short.URL) w).1.1).ID, none),
          (s.storage.ByHash r (computeHash short.URL) w).2) := by
  unfold Service.Create
  rw [isNotBlank_of_not_blank _ _ hurl]
  simp only
  rw [if_neg (fun hne => hne ((TrimSpace_eq_empty_iff _).mpr hhash)), hTr]
  simp only
  cases hfound : (s.storage.ByHash r (computeHash short.URL) w).1.2 with
  | none => rfl
  | some err =>
    simp only
    by_cases hnf : errorsIs (some err) ErrNotFound = true
    · simp only [hnf, Bool.not_true, Bool.false_eq_true, if_false, if_true]
    · simp only [hnf, Bool.not_eq_true] at *
      simp [hnf]

/-- The calls `Create` makes on a valid input: the lookup by the computed
hash, then, if the lookup fails with an error that is `ErrNotFound`, one
`Persist` of the new entity. -/
theorem Create_valid_calls (s : Service ρ σ) (r : ρ) (hTr : s.tr.RunsDirectly r)
    (short : Entity) (w : σ) (hurl : ¬ Blank short.URL) (hhash : Blank short.Hash) :
    (s.traced.Create short (w, [])).2.2 =
      match (s.storage.ByHash r (computeHash short.URL) w).1.2 with
      | some err =>
        if errorsIs (some err) ErrNotFound = true then
          [Call.ByHash (computeHash short.URL),
            Call.Persist ⟨0, short.URL, computeHash short.URL,
              (s.timeNow (s.storage.ByHash r (computeHash short.URL) w).2).1⟩]
        else [Call.ByHash (computeHash short.URL)]
      | none => [Call.ByHash (computeHash short.URL)] := by
  rw [Create_valid s.traced r (traced_service_RunsDirectly s r hTr) short (w, []) hurl hhash]
  simp only [Service.traced, Storage.traced, List.nil_append]
  cases hfound : (s.storage.ByHash r (computeHash short.URL) w).1.2 with
  | none => rfl
  | some err =>
    simp only
    by_cases hnf : errorsIs (some err) ErrNotFound = true
    · simp only [hnf, if_true]
      split <;> rfl
    · simp only [hnf]
      rfl

/-- C3: new-row path of `Create`. For a url that is not blank and a blank
supplied hash, with a transactioner that runs the callback, if the lookup
`ByHash(computeHash(url))` fails with an error that is `ErrNotFound`, the
storage calls are that lookup and then exactly one `Persist`, of the entity
with ID 0, the url as given, the hash `computeHash(url)` and the time read
after the lookup; and when that `Persist` returns `(id, nil)`, `Create`
returns `(id, nil)` in the state `Persist` leaves. -/
theorem Create_new_row (s : Service ρ σ) (r : ρ) (hTr : s.tr.RunsDirectly r)
    (short : Entity) (w : σ) (hurl : ¬ Blank short.URL) (hhash : Blank short.Hash)
    (err : GoError)
    (hlookup : (s.storage.ByHash r (computeHash short.URL) w).1.2 = some err)
    (hnf : errorsIs (some err) ErrNotFound = true) :
    (s.traced.Create short (w, [])).2.2
        = [Call.ByHash (computeHash short.URL),
            Call.Persist ⟨0, short.URL, computeHash short.URL,
              (s.timeNow (s.storage.ByHash r (computeHash short.URL) w).2).1⟩]
      ∧ ∀ id,
          (s.storage.Persist r
            ⟨0, short.URL, computeHash short.URL,
              (s.timeNow (s.storage.ByHash r (computeHash short.URL) w).2).1⟩
            (s.timeNow (s.storage.ByHash r (computeHash short.URL) w).2).2).1 = (id, none) →
          s.Create short w
            = ((id, none),
                (s.storage.Persist r
                  ⟨0, short.URL, computeHash short.URL,
                    (s.timeNow (s.storage.ByHash r (computeHash short.URL) w).2).1⟩
                  (s.timeNow (s.storage.ByHash r (computeHash short.URL) w).2).2).2) := by
  refine ⟨?_, fun id hp => ?_⟩
  · rw [Create_valid_calls s r hTr short w hurl hhash]
    simp only [hlookup, hnf, if_true]
  · rw [Create_valid s r hTr short w hurl hhash]
    simp only [hlookup, hnf, if_true, hp]

/-- Witness for C3: the first creation on the empty model store. -/
theorem Create_new_row_witness :
    modelService.tr.RunsDirectly (storage.qRunner sqlite.db)
      ∧ ¬ Blank (Entity.mk 0 "https://www.google.com" " ").URL
      ∧ Blank (Entity.mk 0 "https://www.google.com" " ").Hash
      ∧ (modelService.traced.Create ⟨0, "https://www.google.com", " "⟩
          (sqlite.World.start, [])).2.2
          = [Call.ByHash "8ffdefb",
              Call.Persist ⟨0, "https://www.google.com", "8ffdefb", ⟨1700000000, 0⟩⟩]
      ∧ (modelService.Create ⟨0, "https://www.google.com", " "⟩ sqlite.World.start).1
          = (1, none) :=
  ⟨sqlLiteTransactioner_RunsDirectly _, by decide, by decide,
    (Create_new_row modelService _ (sqlLiteTransactioner_RunsDirectly _)
      ⟨0, "https://www.google.com", " "⟩ sqlite.World.start (by decide) (by decide)
      (.wrapError "retrieve single: %w" [] ErrNotFound) (by decide) (by decide)).1,
    congrArg Prod.fst
      ((Create_new_row modelService _ (sqlLiteTransactioner_RunsDirectly _)
        ⟨0, "https://www.google.com", " "⟩ sqlite.World.start (by decide) (by decide)
        (.wrapError "retrieve single: %w" [] ErrNotFound) (by decide) (by decide)).2 1
        (by decide))⟩

/-- C4: reuse path of `Create`. For a url that is not blank and a blank
supplied hash, with a transactioner that runs the callback, if the lookup
`ByHash(computeHash(url))` returns an entity `e` without error, whatever the
URL of `e`, then `Create` returns `(e.ID, nil)`, its only storage call is that
lookup (no `Persist`), the state is the one the lookup leaves, and when the
lookup leaves the state as it was, a `Resolve` of that hash afterwards still
returns the URL of `e`. -/
theorem Create_reuse (s : Service ρ σ) (r : ρ) (hTr : s.tr.RunsDirectly r)
    (short : Entity) (w : σ) (hurl : ¬ Blank short.URL) (hhash : Blank short.Hash)
    (e : storage.shorten.Entity)
    (hlookup : (s.storage.ByHash r (computeHash short.URL) w).1 = (e, none)) :
    s.Create short w = ((e.ID, none), (s.storage.ByHash r (computeHash short.URL) w).2)
      ∧ (s.traced.Create short (w, [])).2.2 = [Call.ByHash (computeHash short.URL)]
      ∧ ((s.storage.ByHash r (computeHash short.URL) w).2 = w →
          (s.Create short w).2 = w
            ∧ (s.Resolve (computeHash short.URL) (s.Create short w).2).1 = (e.URL, none)) := by
  have h1 : (s.storage.ByHash r (computeHash short.URL) w).1.2 = none := by rw [hlookup]
  have h2 : (s.storage.ByHash r (computeHash short.URL) w).1.1 = e := by rw [hlookup]
  have hc : s.Create short w
      = ((e.ID, none), (s.storage.ByHash r (computeHash short.URL) w).2) := by
    rw [Create_valid s r hTr short w hurl hhash]
    simp only [h1, h2]
  refine ⟨hc, ?_, fun hread => ?_⟩
  · rw [Create_valid_calls s r hTr short w hurl hhash]
    simp only [h1]
  · rw [hc]
    simp only [hread]
    refine ⟨trivial, ?_⟩
    rw [Resolve_of_found s r hTr (computeHash short.URL) w
      (computeHash_not_blank short.URL) h1, h2]

/-- Witness for C4: the stored row has the hash of the url but another URL. -/
theorem Create_reuse_witness :
    modelService.tr.RunsDirectly (storage.qRunner sqlite.db)
      ∧ ¬ Blank (Entity.mk 0 "https://www.google.com" "").URL
      ∧ Blank (Entity.mk 0 "https://www.google.com" "").Hash
      ∧ (modelService.Create ⟨0, "https://www.google.com", ""⟩
          (sqlite.World.withRows [⟨7, "https://other.example", "8ffdefb", 3⟩])).1
          = (7, none)
      ∧ (modelService.traced.Create ⟨0, "https://www.google.com", ""⟩
          (sqlite.World.withRows [⟨7, "https://other.example", "8ffdefb", 3⟩], [])).2.2
          = [Call.ByHash "8ffdefb"]
      ∧ (modelService.Resolve "8ffdefb"
          (modelService.Create ⟨0, "https://www.google.com", ""⟩
            (sqlite.World.withRows [⟨7, "https://other.example", "8ffdefb", 3⟩])).2).1
          = ("https://other.example", none) :=
  ⟨sqlLiteTransactioner_RunsDirectly _, by decide, by decide,
    congrArg Prod.fst
      (Create_reuse modelService _ (sqlLiteTransactioner_RunsDirectly _)
        ⟨0, "https://www.google.com", ""⟩
        (sqlite.World.withRows [⟨7, "https://other.example", "8ffdefb", 3⟩])
        (by decide) (by decide) ⟨7, "https://other.example", "8ffdefb", ⟨3, 0⟩⟩ (by decide)).1,
    (Create_reuse modelService _ (sqlLiteTransactioner_RunsDirectly _)
      ⟨0, "https://www.google.com", ""⟩
      (sqlite.World.withRows [⟨7, "https://other.example", "8ffdefb", 3⟩])
      (by decide) (by decide) ⟨7, "https://other.example", "8ffdefb", ⟨3, 0⟩⟩ (by decide)).2.1,
    ((Create_reuse modelService _ (sqlLiteTransactioner_RunsDirectly _)
      ⟨0, "https://www.google.com", ""⟩
      (sqlite.World.withRows [⟨7, "https://other.example", "8ffdefb", 3⟩])
      (by decide) (by decide) ⟨7, "https://other.example", "8ffdefb", ⟨3, 0⟩⟩ (by decide)).2.2
        rfl).2⟩

/-- Every storage call of `Create` carries the computed hash, and none
carries the supplied one. -/
theorem Create_calls_hash (s : Service ρ σ) (r : ρ) (hTr : s.tr.RunsDirectly r)
    (short : Entity) (w : σ) :
    ∀ c ∈ (s.traced.Create short (w, [])).2.2,
      c.hash = some (computeHash short.URL) ∧ c.hash ≠ some short.Hash := by
  by_cases hurl : Blank short.URL
  · rw [Create_of_blank_url s.traced short (w, []) hurl]
    intro c hc
    cases hc
  · by_cases hhash : Blank short.Hash
    · have hne : some (computeHash short.URL) ≠ some short.Hash := by
        intro he
        rw [← Option.some.inj he] at hhash
        exact computeHash_not_blank short.URL hhash
      rw [Create_valid_calls s r hTr short w hurl hhash]
      intro c hc
      have hmem : c = Call.ByHash (computeHash short.URL)
          ∨ c = Call.Persist ⟨0, short.URL, computeHash short.URL,
              (s.timeNow (s.storage.ByHash r (computeHash short.URL) w).2).1⟩ := by
        split at hc
        · split at hc <;> simp_all
        · simp_all
      rcases hmem with h | h <;> subst h <;> exact ⟨rfl, hne⟩
    · rw [Create_of_supplied_hash s.traced short (w, []) hurl hhash]
      intro c hc
      cases hc

/-- C7: the hash handed to the storage is computed by the server. For two
`Create` calls with the same url, on any services whose transactioner runs
the callback, any storages, states, clocks and supplied hashes, every storage
call of either run (`ByHash`, and `Persist` when reached) carries
`computeHash(url)`, so the two runs hand over the same hash, and no call
carries the hash the caller supplied. -/
theorem Create_hash_server_computed {ρ' σ' : Type}
    (s : Service ρ σ) (r : ρ) (hTr : s.tr.RunsDirectly r)
    (s' : Service ρ' σ') (r' : ρ') (hTr' : s'.tr.RunsDirectly r')
    (short short' : Entity) (w : σ) (w' : σ') (hsame : short.URL = short'.URL) :
    (∀ c ∈ (s.traced.Create short (w, [])).2.2,
      c.hash = some (computeHash short.URL) ∧ c.hash ≠ some short.Hash)
    ∧ (∀ c ∈ (s.traced.Create short (w, [])).2.2,
        ∀ c' ∈ (s'.traced.Create short' (w', [])).2.2, c.hash = c'.hash) := by
  refine ⟨Create_calls_hash s r hTr short w, fun c hc c' hc' => ?_⟩
  rw [(Create_calls_hash s r hTr short w c hc).1,
    (Create_calls_hash s' r' hTr' short' w' c' hc').1, hsame]

/-- Witness for C7: the same url with different blank supplied hashes, on
the model store without the row and with a row of that hash. -/
theorem Create_hash_server_computed_witness :
    modelService.tr.RunsDirectly (storage.qRunner sqlite.db)
      ∧ (Entity.mk 0 "https://www.google.com" "").URL
          = (Entity.mk 9 "https://www.google.com" " \t").URL
      ∧ Call.Persist ⟨0, "https://www.google.com", "8ffdefb", ⟨1700000000, 0⟩⟩
          ∈ (modelService.traced.Create ⟨0, "https://www.google.com", ""⟩
              (sqlite.World.start, [])).2.2
      ∧ Call.ByHash "8ffdefb"
          ∈ (modelService.traced.Create ⟨9, "https://www.google.com", " \t"⟩
              (sqlite.World.withRows [⟨7, "https://other.example", "8ffdefb", 3⟩], [])).2.2
      ∧ ((Call.Persist ⟨0, "https://www.google.com", "8ffdefb", ⟨1700000000, 0⟩⟩).hash
            = some (computeHash "https://www.google.com")
          ∧ (Call.Persist ⟨0, "https://www.google.com", "8ffdefb", ⟨1700000000, 0⟩⟩).hash
            ≠ some "")
      ∧ (Call.Persist ⟨0, "https://www.google.com", "8ffdefb", ⟨1700000000, 0⟩⟩).hash
          = (Call.ByHash "8ffdefb").hash :=
  ⟨sqlLiteTransactioner_RunsDirectly _, rfl, by decide, by decide,
    (Create_hash_server_computed modelService _ (sqlLiteTransactioner_RunsDirectly _)
      modelService _ (sqlLiteTransactioner_RunsDirectly _)
      ⟨0, "https://www.google.com", ""⟩ ⟨9, "https://www.google.com", " \t"⟩
      sqlite.World.start (sqlite.World.withRows [⟨7, "https://other.example", "8ffdefb", 3⟩])
      rfl).1 _ (by decide),
    (Create_hash_server_computed modelService _ (sqlLiteTransactioner_RunsDirectly _)
      modelService _ (sqlLiteTransactioner_RunsDirectly _)
      ⟨0, "https://www.google.com", ""⟩ ⟨9, "https://www.google.com", " \t"⟩
      sqlite.World.start (sqlite.World.withRows [⟨7, "https://other.example", "8ffdefb", 3⟩])
      rfl).2 _ (by decide) _ (by decide)⟩

/-! ## The model store -/

open sqlite storage storage.shorten in
/-- On the model store, `ByHash` reads the first row with the hash and
leaves the state as it is. -/
theorem model_ByHash (hash : String) (w : World) :
    modelService.storage.ByHash (qRunner db) hash w =
      match w.rows.find? (fun r => r.hash == hash) with
      | some row => ((⟨row.id, row.url, hash, timeUnix row.created_at⟩, none), w)
      | none => ((Entity.zero, some (.wrapError "retrieve single: %w" [] ErrNotFound)), w) := by
  simp only [modelService, repoStorage, Repo.ByHash, qRunner, db, conn, queryRow]
  rw [if_neg (by decide)]
  simp only [if_true]
  cases w.rows.find? (fun r => r.hash == hash) with
  | none => rfl
  | some row => rfl

open sqlite storage storage.shorten in
/-- On the model store, `Persist` reads the clock, then checks the CHECK
constraints, the UNIQUE constraint and the row id, and appends the row. -/
theorem model_Persist (e : storage.shorten.Entity) (w : World) :
    modelService.storage.Persist (qRunner db) e w =
      if sqlLength e.URL = 0 ∨ sqlLength e.Hash = 0 then
        ((0, some (.wrapError "exec: %w" [] (.wrapErrorV "%v: %w" checkFailed ErrBadInput))),
          (timeNow w).2)
      else if w.rows.any (fun r => r.hash == e.Hash) = true then
        ((0, some (.wrapError "exec: %w" [] (.wrapErrorV "%v: %w" uniqueFailed ErrNotUnique))),
          (timeNow w).2)
      else if maxRowId < nextId w.rows then
        ((0, some (.wrapError "exec: %w" [] tableFull)), (timeNow w).2)
      else
        ((nextId w.rows, none),
          { (timeNow w).2 with
            rows := w.rows ++ [⟨nextId w.rows, e.URL, e.Hash, (w.clock w.tick).sec⟩] }) := by
  simp only [modelService, repoStorage, Repo.Persist, qRunner, qRunner.Exec, db, conn, exec,
    timeNow, Time.Unix, if_true]
  by_cases h1 : sqlLength e.URL = 0 ∨ sqlLength e.Hash = 0
  · simp only [h1, if_true]
    rfl
  · simp only [h1, if_false]
    by_cases h2 : w.rows.any (fun r => r.hash == e.Hash) = true
    · simp only [h2, if_true]
      rfl
    · simp only [h2, if_false]
      by_cases h3 : maxRowId < nextId w.rows
      · simp only [h3, if_true]
        rfl
      · simp only [h3, if_false]
        rfl

open sqlite storage in
/-- On the model store, `Create` on a valid input returns the id of the
first row with the computed hash, and persists a new row when there is none. -/
theorem model_Create (short : Entity) (w : World)
    (hurl : ¬ Blank short.URL) (hhash : Blank short.Hash) :
    modelService.Create short w =
      match w.rows.find? (fun r => r.hash == computeHash short.URL) with
      | some row => ((row.id, none), w)
      | none =>
        match (modelService.storage.Persist (qRunner db)
            ⟨0, short.URL, computeHash short.URL, w.clock w.tick⟩ (timeNow w).2).1.2 with
        | some perr =>
          ((0, some (.wrapError "persist short: %w" [] perr)),
            (modelService.storage.Persist (qRunner db)
              ⟨0, short.URL, computeHash short.URL, w.clock w.tick⟩ (timeNow w).2).2)
        | none =>
          (((modelService.storage.Persist (qRunner db)
              ⟨0, short.URL, computeHash short.URL, w.clock w.tick⟩ (timeNow w).2).1.1, none),
            (modelService.storage.Persist (qRunner db)
              ⟨0, short.URL, computeHash short.URL, w.clock w.tick⟩ (timeNow w).2).2) := by
  rw [Create_valid modelService (qRunner db) (sqlLiteTransactioner_RunsDirectly _) short w
    hurl hhash, model_ByHash]
  cases w.rows.find? (fun r => r.hash == computeHash short.URL) with
  | some row => rfl
  | none =>
    simp only
    rw [if_pos (by decide)]
    rfl

/-- In a table with pairwise distinct hashes, the first row with a hash is
the only one. -/
theorem filter_hash_of_find (hash : String) (row : sqlite.Row) (rows : List sqlite.Row)
    (hnd : (rows.map (fun r => r.hash)).Nodup)
    (hf : rows.find? (fun r => r.hash == hash) = some row) :
    rows.filter (fun r => r.hash == hash) = [row] := by
  induction rows with
  | nil => cases hf
  | cons a t ih =>
    rw [List.map_cons, List.nodup_cons] at hnd
    by_cases ha : (a.hash == hash) = true
    · simp only [List.find?_cons, ha] at hf
      simp only [List.filter_cons, ha, if_true]
      rw [← Option.some.inj hf]
      congr 1
      rw [List.filter_eq_nil_iff]
      intro x hx hxh
      apply hnd.1
      rw [beq_iff_eq] at ha hxh
      rw [ha, ← hxh]
      exact List.mem_map_of_mem _ hx
    · simp only [List.find?_cons, ha] at hf
      simp only [List.filter_cons, ha]
      exact ih hnd.2 hf

open sqlite storage in
/-- C2: idempotent creation on the model store. In every state whose rows
have pairwise distinct hashes, for every url that is not blank, if `Create`
succeeds with id `i` and is called again at once with the same input, the
second call succeeds with the same id `i` and leaves the state as the first
call left it (no row is added), and the table then holds exactly one row with
the hash `computeHash(url)`, the row with id `i`. -/
theorem Create_idempotent (w : World) (huniq : (w.rows.map (fun r => r.hash)).Nodup)
    (short : Entity) (hurl : ¬ Blank short.URL) (i : Int)
    (hfirst : (modelService.Create short w).1 = (i, none)) :
    modelService.Create short (modelService.Create short w).2
        = ((i, none), (modelService.Create short w).2)
      ∧ ∃ row, row.id = i
          ∧ (modelService.Create short w).2.rows.filter
              (fun r => r.hash == computeHash short.URL) = [row] := by
  have hhash : Blank short.Hash := by
    by_contra hnb
    rw [Create_of_supplied_hash modelService short w hurl hnb] at hfirst
    cases hfirst
  cases hfind : w.rows.find? (fun r => r.hash == computeHash short.URL) with
  | some row =>
    have hc : modelService.Create short w = ((row.id, none), w) := by
      rw [model_Create short w hurl hhash, hfind]
    rw [hc] at hfirst ⊢
    have hid : row.id = i := congrArg Prod.fst hfirst
    simp only
    rw [hc, hid]
    exact ⟨rfl, row, hid, filter_hash_of_find _ _ _ huniq hfind⟩
  | none =>
    have hp := model_Persist ⟨0, short.URL, computeHash short.URL, w.clock w.tick⟩ (timeNow w).2
    have hc := model_Create short w hurl hhash
    rw [hfind] at hc
    simp only at hc
    by_cases h1 : sqlLength short.URL = 0 ∨ sqlLength (computeHash short.URL) = 0
    · rw [if_pos h1] at hp
      rw [hp] at hc
      rw [hc] at hfirst
      cases hfirst
    · rw [if_neg h1] at hp
      by_cases h2 : (timeNow w).2.rows.any (fun r => r.hash == computeHash short.URL) = true
      · rw [if_pos h2] at hp
        rw [hp] at hc
        rw [hc] at hfirst
        cases hfirst
      · rw [if_neg h2] at hp
        by_cases h3 : maxRowId < nextId (timeNow w).2.rows
        · rw [if_pos h3] at hp
          rw [hp] at hc
          rw [hc] at hfirst
          cases hfirst
        · rw [if_neg h3] at hp
          rw [hp] at hc
          simp only at hc
          rw [hc] at hfirst ⊢
          have hid : nextId (timeNow w).2.rows = i := congrArg Prod.fst hfirst
          have hfind2 : List.find? (fun r => r.hash == computeHash short.URL)
              (w.rows ++ [⟨nextId w.rows, short.URL, computeHash short.URL,
                ((timeNow w).2.clock (timeNow w).2.tick).sec⟩])
              = some ⟨nextId w.rows, short.URL, computeHash short.URL,
                ((timeNow w).2.clock (timeNow w).2.tick).sec⟩ := by
            rw [List.find?_append, hfind]
            simp [List.find?_cons]
          have hfilter : List.filter (fun r => r.hash == computeHash short.URL) w.rows = [] := by
            rw [List.filter_eq_nil_iff]
            intro x hx
            exact List.find?_eq_none.mp hfind x hx
          refine ⟨?_, ⟨nextId w.rows, short.URL, computeHash short.URL,
            ((timeNow w).2.clock (timeNow w).2.tick).sec⟩, hid, ?_⟩
          · rw [model_Create short _ hurl hhash]
            simp only [timeNow] at hfind2 hid ⊢
            rw [hfind2, hid]
          · simp only [timeNow]
            rw [List.filter_append, hfilter]
            simp [List.filter_cons]

/-- Witness for C2: the first creation on the empty model store gives id 1,
and so does the second. -/
theorem Create_idempotent_witness :
    (sqlite.World.start.rows.map (fun r => r.hash)).Nodup
      ∧ ¬ Blank (Entity.mk 0 "https://www.google.com" "").URL
      ∧ (modelService.Create ⟨0, "https://www.google.com", ""⟩ sqlite.World.start).1
          = (1, none)
      ∧ (modelService.Create ⟨0, "https://www.google.com", ""⟩
          (modelService.Create ⟨0, "https://www.google.com", ""⟩ sqlite.World.start).2).1
          = (1, none)
      ∧ ∃ row, row.id = 1
          ∧ (modelService.Create ⟨0, "https://www.google.com", ""⟩
              sqlite.World.start).2.rows.filter
                (fun r => r.hash == computeHash "https://www.google.com") = [row] :=
  ⟨List.nodup_nil, by decide, by decide,
    congrArg Prod.fst
      (Create_idempotent sqlite.World.start List.nodup_nil ⟨0, "https://www.google.com", ""⟩
        (by decide) 1 (by decide)).1,
    (Create_idempotent sqlite.World.start List.nodup_nil ⟨0, "https://www.google.com", ""⟩
      (by decide) 1 (by decide)).2⟩

/-! ## `Service.List` on what the storage lists -/

/-- Wrapping with `%w` adds no kind: the wrapped error is a sentinel exactly
when the error inside is. -/
theorem errorsIs_wrapError_sentinel (format : String) (args : List FmtArg) (err : GoError)
    (text : String) :
    errorsIs (some (.wrapError format args err)) (.errorString text)
      = errorsIs (some err) (.errorString text) := by
  simp only [errorsIs]
  rw [GoError.is]
  simp [GoError.comparable]

/-- C12: for every valid pager and every slice `L` that the storage `List`
returns without error (nil and empty included), with a transactioner that
runs the callback, `Service.List` returns a nil error and the slice of the
entities `Entity{ID, URL, Hash}` of the elements of `L`, in the same order
and of the same length; an empty `L` gives an empty slice. -/
theorem List_maps_storage (s : Service ρ σ) (r : ρ) (hTr : s.tr.RunsDirectly r)
    (pager : storage.shorten.Pager) (w : σ) (hl : 1 ≤ pager.Limit) (ho : 0 ≤ pager.Offset)
    (L : Slice storage.shorten.Entity) (hL : (s.storage.List r pager w).1 = (L, none)) :
    s.List pager w
        = ((some (L.elems.map (fun (e : storage.shorten.Entity) => (⟨e.ID, e.URL, e.Hash⟩ : Entity))), none),
            (s.storage.List r pager w).2)
      ∧ (L.elems.map (fun (e : storage.shorten.Entity) => (⟨e.ID, e.URL, e.Hash⟩ : Entity))).length = L.elems.length
      ∧ (∀ i : Nat, (L.elems.map (fun (e : storage.shorten.Entity) => (⟨e.ID, e.URL, e.Hash⟩ : Entity)))[i]?
          = (L.elems[i]?).map (fun (e : storage.shorten.Entity) => (⟨e.ID, e.URL, e.Hash⟩ : Entity)))
      ∧ (L.elems = [] → (s.List pager w).1 = (some [], none)) := by
  have h1 : (s.storage.List r pager w).1.2 = none := by rw [hL]
  have h2 : (s.storage.List r pager w).1.1 = L := by rw [hL]
  have hc : s.List pager w
      = ((some (L.elems.map (fun (e : storage.shorten.Entity) => (⟨e.ID, e.URL, e.Hash⟩ : Entity))), none),
          (s.storage.List r pager w).2) := by
    unfold Service.List
    rw [if_neg (not_lt.mpr hl), if_neg (not_lt.mpr ho)]
    simp only
    rw [hTr]
    simp only [h1, h2]
    rfl
  refine ⟨hc, List.length_map _ _, fun i => List.getElem?_map _ _ _, fun hnil => ?_⟩
  rw [hc, hnil]
  rfl

/-- Witness for C12: the storage of the test "ok" and a nil result. -/
theorem List_maps_storage_witness :
    (stubService (storage.shorten.Entity.zero, none) (0, none)
        (some [⟨1, "https://example.com", "1", Time.zero⟩,
          ⟨2, "https://stub.com", "2", Time.zero⟩], none) none).tr.RunsDirectly none
      ∧ (stubService (storage.shorten.Entity.zero, none) (0, none)
          (some [⟨1, "https://example.com", "1", Time.zero⟩,
            ⟨2, "https://stub.com", "2", Time.zero⟩], none) none).List ⟨10, 0⟩ ()
          = ((some [⟨1, "https://example.com", "1"⟩, ⟨2, "https://stub.com", "2"⟩], none),
              ())
      ∧ ((stubService (storage.shorten.Entity.zero, none) (0, none) (none, none) none).List
          ⟨50, 10⟩ ()).1 = (some [], none) :=
  ⟨testTransactioner_RunsDirectly,
    (List_maps_storage _ none testTransactioner_RunsDirectly ⟨10, 0⟩ () (by decide) (by decide)
      (some [⟨1, "https://example.com", "1", Time.zero⟩,
        ⟨2, "https://stub.com", "2", Time.zero⟩]) rfl).1,
    (List_maps_storage (stubService (storage.shorten.Entity.zero, none) (0, none) (none, none)
        none) none testTransactioner_RunsDirectly ⟨50, 10⟩ () (by decide) (by decide)
      none rfl).2.2.2 rfl⟩

/-! ## The repository on a runner -/

open storage in
/-- `ConvertError` returns nil only for nil. -/
theorem ConvertError_eq_none_iff (err : Option GoError) :
    ConvertError err = none ↔ err = none := by
  constructor
  · intro h
    cases err with
    | none => rfl
    | some e =>
      unfold ConvertError at h
      split at h
      · cases h
      · simp only at h
        split at h
        · cases h
        · split at h
          · split at h <;> cases h
          · cases h
  · intro h
    rw [h]
    rfl

/-- `Service.Delete` with a transactioner that runs the callback: the error
of the storage, wrapped. -/
theorem Delete_eq (s : Service ρ σ) (r : ρ) (hTr : s.tr.RunsDirectly r) (id : Int) (w : σ) :
    s.Delete id w =
      match (s.storage.Delete r id w).1 with
      | some err =>
        (some (.wrapError "delete shorten %d: %w" [.int id] err), (s.storage.Delete r id w).2)
      | none => (none, (s.storage.Delete r id w).2) := by
  unfold Service.Delete
  simp only
  rw [hTr]

open storage storage.shorten in
/-- C13: `Repo.Delete` returns nil exactly when the DELETE statement ran
without error and reported one affected row; when it ran without error and
reported no affected row, `Repo.Delete` returns `ErrNotFound`, and
`Service.Delete` on that repository, with a transactioner that runs the
callback on the runner, returns an error that is `ErrNotFound`. -/
theorem Delete_spec (run : Runner σ) (id : Int) (w : σ) :
    ((Repo.Delete run id w).1 = none ↔
        (run.Exec deleteQuery [.integer id] w).1.Err = none
          ∧ (run.Exec deleteQuery [.integer id] w).1.Affected = 1)
      ∧ ((run.Exec deleteQuery [.integer id] w).1.Err = none →
          (run.Exec deleteQuery [.integer id] w).1.Affected = 0 →
          (Repo.Delete run id w).1 = some ErrNotFound
            ∧ ∀ s : Service (Runner σ) σ, s.storage.Delete = Repo.Delete →
                s.tr.RunsDirectly run → errorsIs (s.Delete id w).1 ErrNotFound = true) := by
  constructor
  · unfold Repo.Delete
    simp only
    constructor
    · intro h
      split at h
      · cases h
      · rename_i hce
        refine ⟨(ConvertError_eq_none_iff _).mp hce, ?_⟩
        by_cases ha : (run.Exec deleteQuery [.integer id] w).1.Affected = 1
        · exact ha
        · rw [if_neg ha] at h
          cases h
    · rintro ⟨he, ha⟩
      rw [(ConvertError_eq_none_iff _).mpr he]
      simp only
      rw [if_pos ha]
  · intro he ha
    have hd : (Repo.Delete run id w).1 = some ErrNotFound := by
      unfold Repo.Delete
      simp only
      rw [(ConvertError_eq_none_iff _).mpr he]
      simp only
      rw [if_neg (by rw [ha]; decide)]
    refine ⟨hd, fun s hst hTr => ?_⟩
    rw [Delete_eq s run hTr, hst, hd]
    rfl

/-- Witness for C13: on the model store, deleting the id of a stored row and
deleting an id that no row has. -/
theorem Delete_spec_witness :
    (storage.shorten.Repo.Delete (storage.qRunner sqlite.db) 1
        (sqlite.World.withRows [⟨1, "https://example.com", "1", 0⟩])).1 = none
      ∧ (storage.shorten.Repo.Delete (storage.qRunner sqlite.db) 0 sqlite.World.start).1
          = some ErrNotFound
      ∧ errorsIs (modelService.Delete 0 sqlite.World.start).1 ErrNotFound = true :=
  ⟨(Delete_spec (storage.qRunner sqlite.db) 1
      (sqlite.World.withRows [⟨1, "https://example.com", "1", 0⟩])).1.mpr
      ⟨by decide, by decide⟩,
    ((Delete_spec (storage.qRunner sqlite.db) 0 sqlite.World.start).2
      (by decide) (by decide)).1,
    ((Delete_spec (storage.qRunner sqlite.db) 0 sqlite.World.start).2
      (by decide) (by decide)).2 modelService rfl (sqlLiteTransactioner_RunsDirectly _)⟩

open storage storage.shorten in
/-- C20: `Repo.Retrieve(id)` and `Repo.ByHash(hash)` on a runner. When the
single-row query yields no row, each returns the zero entity and an error
that is `ErrNotFound`. When it yields a row, each returns without error the
entity whose URL and CreatedAt come from the row (CreatedAt with Unix seconds
equal to the stored integer), whose Hash or ID comes from the row, and whose
key field (ID for `Retrieve`, Hash for `ByHash`) is the requested one. -/
theorem Retrieve_ByHash_spec (run : Runner σ) (w : σ) :
    (∀ id, (run.QuerySingle retrieveQuery [.integer id] w).1.err = none →
        (run.QuerySingle retrieveQuery [.integer id] w).1.row = none →
        (Repo.Retrieve run id w).1.1 = storage.shorten.Entity.zero
          ∧ errorsIs (Repo.Retrieve run id w).1.2 ErrNotFound = true)
    ∧ (∀ id url hash ts, (run.QuerySingle retrieveQuery [.integer id] w).1.err = none →
        (run.QuerySingle retrieveQuery [.integer id] w).1.row
          = some [.text url, .text hash, .integer ts] →
        (Repo.Retrieve run id w).1 = (⟨id, url, hash, timeUnix ts⟩, none)
          ∧ ((Repo.Retrieve run id w).1.1).CreatedAt.Unix = ts)
    ∧ (∀ hash, (run.QuerySingle byHashQuery [.text hash] w).1.err = none →
        (run.QuerySingle byHashQuery [.text hash] w).1.row = none →
        (Repo.ByHash run hash w).1.1 = storage.shorten.Entity.zero
          ∧ errorsIs (Repo.ByHash run hash w).1.2 ErrNotFound = true)
    ∧ (∀ hash id url ts, (run.QuerySingle byHashQuery [.text hash] w).1.err = none →
        (run.QuerySingle byHashQuery [.text hash] w).1.row
          = some [.integer id, .text url, .integer ts] →
        (Repo.ByHash run hash w).1 = (⟨id, url, hash, timeUnix ts⟩, none)
          ∧ ((Repo.ByHash run hash w).1.1).CreatedAt.Unix = ts) := by
  refine ⟨fun id he hr => ?_, fun id url hash ts he hr => ?_, fun hash he hr => ?_,
    fun hash id url ts he hr => ?_⟩
  · have h : (Repo.Retrieve run id w).1
        = (storage.shorten.Entity.zero, some (.wrapError "retrieve single: %w" [] ErrNotFound)) := by
      simp only [Repo.Retrieve, SingleResult.Scan, he, hr]
      rfl
    rw [h]
    exact ⟨rfl, by decide⟩
  · have h : (Repo.Retrieve run id w).1 = (⟨id, url, hash, timeUnix ts⟩, none) := by
      simp only [Repo.Retrieve, SingleResult.Scan, he, hr]
      rfl
    rw [h]
    exact ⟨rfl, rfl⟩
  · have h : (Repo.ByHash run hash w).1
        = (storage.shorten.Entity.zero, some (.wrapError "retrieve single: %w" [] ErrNotFound)) := by
      simp only [Repo.ByHash, SingleResult.Scan, he, hr]
      rfl
    rw [h]
    exact ⟨rfl, by decide⟩
  · have h : (Repo.ByHash run hash w).1 = (⟨id, url, hash, timeUnix ts⟩, none) := by
      simp only [Repo.ByHash, SingleResult.Scan, he, hr]
      rfl
    rw [h]
    exact ⟨rfl, rfl⟩

/-- Witness for C20: on the model store, the row of the tests is read back
by its id and by its hash, and an empty table has no row to read. -/
theorem Retrieve_ByHash_spec_witness :
    (storage.shorten.Repo.Retrieve (storage.qRunner sqlite.db) 1
        (sqlite.World.withRows [⟨1, "https://example.com", "1234567", 1600000000⟩])).1
        = (⟨1, "https://example.com", "1234567", timeUnix 1600000000⟩, none)
      ∧ (storage.shorten.Repo.ByHash (storage.qRunner sqlite.db) "1234567"
          (sqlite.World.withRows [⟨1, "https://example.com", "1234567", 1600000000⟩])).1
          = (⟨1, "https://example.com", "1234567", timeUnix 1600000000⟩, none)
      ∧ errorsIs (storage.shorten.Repo.Retrieve (storage.qRunner sqlite.db) 0
          sqlite.World.start).1.2 ErrNotFound = true
      ∧ errorsIs (storage.shorten.Repo.ByHash (storage.qRunner sqlite.db) "1234567"
          sqlite.World.start).1.2 ErrNotFound = true :=
  ⟨((Retrieve_ByHash_spec (storage.qRunner sqlite.db)
      (sqlite.World.withRows [⟨1, "https://example.com", "1234567", 1600000000⟩])).2.1
        1 "https://example.com" "1234567" 1600000000 rfl rfl).1,
    ((Retrieve_ByHash_spec (storage.qRunner sqlite.db)
      (sqlite.World.withRows [⟨1, "https://example.com", "1234567", 1600000000⟩])).2.2.2
        "1234567" 1 "https://example.com" 1600000000 rfl rfl).1,
    ((Retrieve_ByHash_spec (storage.qRunner sqlite.db) sqlite.World.start).1 0 rfl rfl).2,
    ((Retrieve_ByHash_spec (storage.qRunner sqlite.db) sqlite.World.start).2.2.1
      "1234567" rfl rfl).2⟩

/-! ## Storage errors reach the caller -/

/-- An error and the same error wrapped with `%w` are of the same kinds. -/
theorem wrapError_same_kinds (format : String) (args : List FmtArg) (err : GoError) :
    errorsIs (some (.wrapError format args err)) ErrBadInput = errorsIs (some err) ErrBadInput
      ∧ errorsIs (some (.wrapError format args err)) ErrNotUnique
          = errorsIs (some err) ErrNotUnique
      ∧ errorsIs (some (.wrapError format args err)) ErrNotFound
          = errorsIs (some err) ErrNotFound :=
  ⟨errorsIs_wrapError_sentinel _ _ _ _, errorsIs_wrapError_sentinel _ _ _ _,
    errorsIs_wrapError_sentinel _ _ _ _⟩

/-- C18: kind propagation. With a transactioner that runs the callback, if
the storage call of `Get`, `List` (valid pager), `Delete`, `Resolve` (hash
not blank) or the `Persist` step of `Create` (valid input, lookup failed with
an error that is `ErrNotFound`) returns an error `e`, the operation returns
the error `e` wrapped with `%w` under the context of the operation, and the
returned error is `ErrBadInput`, `ErrNotUnique` or `ErrNotFound` exactly when
`e` is. The same holds for an error of the lookup of `Create` that is not
`ErrNotFound`, wrapped twice; so the only storage error that is not returned
is the `ErrNotFound` of that lookup. -/
theorem storage_error_propagates (s : Service ρ σ) (r : ρ) (hTr : s.tr.RunsDirectly r)
    (w : σ) (e : GoError) :
    (∀ id, (s.storage.Retrieve r id w).1.2 = some e →
        (s.Get id w).1.2 = some (.wrapError "retrieve shorten by id %q: %w" [.int id] e)
          ∧ errorsIs (s.Get id w).1.2 ErrBadInput = errorsIs (some e) ErrBadInput
          ∧ errorsIs (s.Get id w).1.2 ErrNotUnique = errorsIs (some e) ErrNotUnique
          ∧ errorsIs (s.Get id w).1.2 ErrNotFound = errorsIs (some e) ErrNotFound)
    ∧ (∀ pager : storage.shorten.Pager, 1 ≤ pager.Limit → 0 ≤ pager.Offset →
        (s.storage.List r pager w).1.2 = some e →
        (s.List pager w).1.2 = some (.wrapError "list shortens: %w" [] e)
          ∧ errorsIs (s.List pager w).1.2 ErrBadInput = errorsIs (some e) ErrBadInput
          ∧ errorsIs (s.List pager w).1.2 ErrNotUnique = errorsIs (some e) ErrNotUnique
          ∧ errorsIs (s.List pager w).1.2 ErrNotFound = errorsIs (some e) ErrNotFound)
    ∧ (∀ id, (s.storage.Delete r id w).1 = some e →
        (s.Delete id w).1 = some (.wrapError "delete shorten %d: %w" [.int id] e)
          ∧ errorsIs (s.Delete id w).1 ErrBadInput = errorsIs (some e) ErrBadInput
          ∧ errorsIs (s.Delete id w).1 ErrNotUnique = errorsIs (some e) ErrNotUnique
          ∧ errorsIs (s.Delete id w).1 ErrNotFound = errorsIs (some e) ErrNotFound)
    ∧ (∀ hash, ¬ Blank hash → (s.storage.ByHash r hash w).1.2 = some e →
        (s.Resolve hash w).1.2
            = some (.wrapError "retrieve shorten by hash %q: %w" [.str hash] e)
          ∧ errorsIs (s.Resolve hash w).1.2 ErrBadInput = errorsIs (some e) ErrBadInput
          ∧ errorsIs (s.Resolve hash w).1.2 ErrNotUnique = errorsIs (some e) ErrNotUnique
          ∧ errorsIs (s.Resolve hash w).1.2 ErrNotFound = errorsIs (some e) ErrNotFound)
    ∧ (∀ (short : Entity) (lookupErr : GoError), ¬ Blank short.URL → Blank short.Hash →
        (s.storage.ByHash r (computeHash short.URL) w).1.2 = some lookupErr →
        errorsIs (some lookupErr) ErrNotFound = true →
        (s.storage.Persist r
            ⟨0, short.URL, computeHash short.URL,
              (s.timeNow (s.storage.ByHash r (computeHash short.URL) w).2).1⟩
            (s.timeNow (s.storage.ByHash r (computeHash short.URL) w).2).2).1.2 = some e →
        (s.Create short w).1.2 = some (.wrapError "persist short: %w" [] e)
          ∧ errorsIs (s.Create short w).1.2 ErrBadInput = errorsIs (some e) ErrBadInput
          ∧ errorsIs (s.Create short w).1.2 ErrNotUnique = errorsIs (some e) ErrNotUnique
          ∧ errorsIs (s.Create short w).1.2 ErrNotFound = errorsIs (some e) ErrNotFound)
    ∧ (∀ short : Entity, ¬ Blank short.URL → Blank short.Hash →
        (s.storage.ByHash r (computeHash short.URL) w).1.2 = some e →
        errorsIs (some e) ErrNotFound = false →
        (s.Create short w).1.2
            = some (.wrapError "persist short: %w" []
                (.wrapError "lookup by hash %q: %w" [.str (computeHash short.URL)] e))
          ∧ errorsIs (s.Create short w).1.2 ErrBadInput = errorsIs (some e) ErrBadInput
          ∧ errorsIs (s.Create short w).1.2 ErrNotUnique = errorsIs (some e) ErrNotUnique
          ∧ errorsIs (s.Create short w).1.2 ErrNotFound = errorsIs (some e) ErrNotFound) := by
  refine ⟨fun id he => ?_, fun pager hl ho he => ?_, fun id he => ?_, fun hash hnb he => ?_,
    fun short lookupErr hurl hhash hlookup hnf he => ?_, fun short hurl hhash he hnf => ?_⟩
  · have h : (s.Get id w).1.2
        = some (.wrapError "retrieve shorten by id %q: %w" [.int id] e) := by
      unfold Service.Get
      simp only
      rw [hTr]
      simp only [he]
    rw [h]
    exact ⟨rfl, wrapError_same_kinds _ _ _⟩
  · have h : (s.List pager w).1.2 = some (.wrapError "list shortens: %w" [] e) := by
      unfold Service.List
      rw [if_neg (not_lt.mpr hl), if_neg (not_lt.mpr ho)]
      simp only
      rw [hTr]
      simp only [he]
    rw [h]
    exact ⟨rfl, wrapError_same_kinds _ _ _⟩
  · have h : (s.Delete id w).1 = some (.wrapError "delete shorten %d: %w" [.int id] e) := by
      rw [Delete_eq s r hTr, he]
    rw [h]
    exact ⟨rfl, wrapError_same_kinds _ _ _⟩
  · have h : (s.Resolve hash w).1.2
        = some (.wrapError "retrieve shorten by hash %q: %w" [.str hash] e) := by
      unfold Service.Resolve
      rw [isNotBlank_of_not_blank _ _ hnb]
      simp only
      rw [hTr]
      simp only [he]
    rw [h]
    exact ⟨rfl, wrapError_same_kinds _ _ _⟩
  · have h : (s.Create short w).1.2 = some (.wrapError "persist short: %w" [] e) := by
      rw [Create_valid s r hTr short w hurl hhash]
      simp only [hlookup, hnf, if_true, he]
    rw [h]
    exact ⟨rfl, wrapError_same_kinds _ _ _⟩
  · have h : (s.Create short w).1.2
        = some (.wrapError "persist short: %w" []
            (.wrapError "lookup by hash %q: %w" [.str (computeHash short.URL)] e)) := by
      rw [Create_valid s r hTr short w hurl hhash]
      simp only [he, hnf, Bool.false_eq_true, if_false]
    rw [h]
    refine ⟨rfl, ?_, ?_, ?_⟩
    · rw [(wrapError_same_kinds _ _ _).1, (wrapError_same_kinds _ _ _).1]
    · rw [(wrapError_same_kinds _ _ _).2.1, (wrapError_same_kinds _ _ _).2.1]
    · rw [(wrapError_same_kinds _ _ _).2.2, (wrapError_same_kinds _ _ _).2.2]

/-- Witness for C18: the storage of the test "not existing" for `Get`, and a
uniqueness error from `Persist` for `Create`. -/
theorem storage_error_propagates_witness :
    (stubService (storage.shorten.Entity.zero, some ErrNotFound) (0, some ErrNotUnique)
        (none, none) none).tr.RunsDirectly none
      ∧ errorsIs ((stubService (storage.shorten.Entity.zero, some ErrNotFound)
          (0, some ErrNotUnique) (none, none) none).Get 1 ()).1.2 ErrNotFound
          = errorsIs (some ErrNotFound) ErrNotFound
      ∧ ((stubService (storage.shorten.Entity.zero, some ErrNotFound)
          (0, some ErrNotUnique) (none, none) none).Create ⟨0, "https://example.com", ""⟩
            ()).1.2 = some (.wrapError "persist short: %w" [] ErrNotUnique) :=
  ⟨testTransactioner_RunsDirectly,
    ((storage_error_propagates _ none testTransactioner_RunsDirectly () ErrNotFound).1 1
      rfl).2.2.2,
    ((storage_error_propagates (stubService (storage.shorten.Entity.zero, some ErrNotFound)
        (0, some ErrNotUnique) (none, none) none) none testTransactioner_RunsDirectly ()
        ErrNotUnique).2.2.2.2.1 ⟨0, "https://example.com", ""⟩ ErrNotFound
      (by decide) (by decide) rfl (by decide) rfl).1⟩

/-! ## `ConvertError` -/

open storage in
/-- An error with a driver error in its chain is not `sql.ErrNoRows`. -/
theorem asSqlite3_not_noRows (e : GoError) (x : Nat × Nat × String)
    (h : asSqlite3 e = some x) : errorsIs (some e) sqlErrNoRows = false := by
  simp only [errorsIs]
  induction e with
  | errorString t => simp [asSqlite3] at h
  | wrapError format args inner ih =>
    rw [asSqlite3] at h
    rw [GoError.is, ih h]
    simp [sqlErrNoRows]
  | wrapErrorV format shown inner _ ih =>
    rw [asSqlite3] at h
    rw [GoError.is, ih h]
    simp [sqlErrNoRows]
  | ValidationError cause details _ => simp [asSqlite3] at h
  | sqlite3Error code ext msg => simp [GoError.is, sqlErrNoRows]

/-- The message of `fmt.Errorf("%v: %w", shown, err)`: the two texts with a
colon and a space between them. -/
theorem Error_wrapErrorV (q : Rendering) (shown err : GoError) :
    (GoError.wrapErrorV "%v: %w" shown err).Error q
      = String.mk ((shown.Error q).data ++ ": ".data ++ (err.Error q).data) := by
  simp [GoError.Error, Sprintf, FmtArg.render]

/-- An error made by `fmt.Errorf("... %v ... %w", shown, err)` is a sentinel
exactly when the wrapped `err` is; the error shown by `%v` has no part in it. -/
theorem errorsIs_wrapErrorV_sentinel (format : String) (shown err : GoError) (text : String) :
    errorsIs (some (.wrapErrorV format shown err)) (.errorString text)
      = errorsIs (some err) (.errorString text) := by
  simp only [errorsIs]
  rw [GoError.is]
  simp [GoError.comparable]

open storage in
/-- C15: `ConvertError` gives every error exactly one outcome. Nil maps to
nil. An error that is `sql.ErrNoRows` maps to `ErrNotFound`. An error with a
driver error in its chain (it is then not `sql.ErrNoRows`) whose code is
constraint, too-big or mismatch maps to an error that is `ErrNotUnique` and
no other kind when the extended code is the unique-constraint code, that is
`ErrBadInput` and no other kind otherwise, and whose text contains the text of
the original error. Every other error is returned as it is. -/
theorem ConvertError_spec (q : Rendering) :
    ConvertError none = none
    ∧ (∀ e, errorsIs (some e) sqlErrNoRows = true → ConvertError (some e) = some ErrNotFound)
    ∧ (∀ e code ext msg, asSqlite3 e = some (code, ext, msg) →
        code = sqlite3ErrConstraint ∨ code = sqlite3ErrTooBig ∨ code = sqlite3ErrMismatch →
        errorsIs (some e) sqlErrNoRows = false
          ∧ ∃ e', ConvertError (some e) = some e'
            ∧ (ext = sqlite3ErrConstraintUnique →
                errorsIs (some e') ErrNotUnique = true
                  ∧ errorsIs (some e') ErrBadInput = false
                  ∧ errorsIs (some e') ErrNotFound = false)
            ∧ (ext ≠ sqlite3ErrConstraintUnique →
                errorsIs (some e') ErrBadInput = true
                  ∧ errorsIs (some e') ErrNotUnique = false
                  ∧ errorsIs (some e') ErrNotFound = false)
            ∧ Contains (e'.Error q) (e.Error q))
    ∧ (∀ e, errorsIs (some e) sqlErrNoRows = false →
        (∀ code ext msg, asSqlite3 e = some (code, ext, msg) →
          ¬ (code = sqlite3ErrConstraint ∨ code = sqlite3ErrTooBig
              ∨ code = sqlite3ErrMismatch)) →
        ConvertError (some e) = some e) := by
  refine ⟨rfl, fun e he => ?_, fun e code ext msg hsql hcode => ?_, fun e he hother => ?_⟩
  · unfold ConvertError
    rw [if_pos he]
  · have hno := asSqlite3_not_noRows e _ hsql
    refine ⟨hno, ?_⟩
    have hinfix : ∀ cause : GoError,
        Contains ((GoError.wrapErrorV "%v: %w" e cause).Error q) (e.Error q) := by
      intro cause
      rw [Error_wrapErrorV]
      exact ⟨[], ": ".data ++ (cause.Error q).data, by simp⟩
    by_cases hext : ext = sqlite3ErrConstraintUnique
    · refine ⟨.wrapErrorV "%v: %w" e ErrNotUnique, ?_,
        fun _ => ⟨(errorsIs_wrapErrorV_sentinel _ _ _ _).trans (by decide),
          (errorsIs_wrapErrorV_sentinel _ _ _ _).trans (by decide),
          (errorsIs_wrapErrorV_sentinel _ _ _ _).trans (by decide)⟩,
        fun hne => absurd hext hne, hinfix _⟩
      unfold ConvertError
      rw [if_neg (by rw [hno]; decide)]
      simp only [hsql]
      rw [if_pos hcode, if_pos hext]
    · refine ⟨.wrapErrorV "%v: %w" e ErrBadInput, ?_, fun he => absurd he hext,
        fun _ => ⟨(errorsIs_wrapErrorV_sentinel _ _ _ _).trans (by decide),
          (errorsIs_wrapErrorV_sentinel _ _ _ _).trans (by decide),
          (errorsIs_wrapErrorV_sentinel _ _ _ _).trans (by decide)⟩, hinfix _⟩
      unfold ConvertError
      rw [if_neg (by rw [hno]; decide)]
      simp only [hsql]
      rw [if_pos hcode, if_neg hext]
  · unfold ConvertError
    rw [if_neg (by rw [he]; decide)]
    simp only
    cases hsql : asSqlite3 e with
    | none => rfl
    | some x =>
      obtain ⟨code, ext, msg⟩ := x
      simp only
      rw [if_neg (hother code ext msg hsql)]

/-- Witness for C15: `sql.ErrNoRows`, the CHECK failure of the engine and
its "database or disk is full" error. -/
theorem ConvertError_spec_witness :
    storage.ConvertError (some storage.sqlErrNoRows) = some ErrNotFound
      ∧ (∃ e', storage.ConvertError (some sqlite.checkFailed) = some e'
          ∧ Contains (e'.Error Rendering.sample) (sqlite.checkFailed.Error Rendering.sample))
      ∧ storage.ConvertError (some sqlite.tableFull) = some sqlite.tableFull :=
  ⟨(ConvertError_spec Rendering.sample).2.1 storage.sqlErrNoRows (by decide),
    (((ConvertError_spec Rendering.sample).2.2.1 sqlite.checkFailed 19 275
      "CHECK constraint failed: shorten" rfl (Or.inl rfl)).2).imp
        (fun _ h => ⟨h.1, h.2.2.2⟩),
    (ConvertError_spec Rendering.sample).2.2.2 sqlite.tableFull (by decide)
      (fun code ext msg h => by cases h; decide)⟩

/-- The tests "bad input" of `Persist`: on the model store an empty url and
an empty hash are each rejected with an error that is `ErrBadInput` and whose
text contains "CHECK constraint failed". -/
theorem Persist_bad_input :
    (errorsIs (modelService.storage.Persist (storage.qRunner sqlite.db)
        ⟨0, "", "hash", Time.zero⟩ sqlite.World.start).1.2 ErrBadInput = true
      ∧ ∃ e, (modelService.storage.Persist (storage.qRunner sqlite.db)
            ⟨0, "", "hash", Time.zero⟩ sqlite.World.start).1.2 = some e
          ∧ Contains (e.Error Rendering.sample) "CHECK constraint failed")
    ∧ (errorsIs (modelService.storage.Persist (storage.qRunner sqlite.db)
        ⟨0, "url", "", Time.zero⟩ sqlite.World.start).1.2 ErrBadInput = true
      ∧ ∃ e, (modelService.storage.Persist (storage.qRunner sqlite.db)
            ⟨0, "url", "", Time.zero⟩ sqlite.World.start).1.2 = some e
          ∧ Contains (e.Error Rendering.sample) "CHECK constraint failed") :=
  ⟨⟨by decide, _, rfl, by decide⟩, ⟨by decide, _, rfl, by decide⟩⟩

/-! ## The race between the lookup and the insert of `Create` -/

open storage in
/-- `ConvertError` on a violation of a UNIQUE constraint. -/
theorem ConvertError_unique (e : GoError) (msg : String)
    (hsql : asSqlite3 e = some (sqlite3ErrConstraint, sqlite3ErrConstraintUnique, msg)) :
    ConvertError (some e) = some (.wrapErrorV "%v: %w" e ErrNotUnique) := by
  unfold ConvertError
  rw [if_neg (by rw [asSqlite3_not_noRows e _ hsql]; decide)]
  simp only [hsql, true_or, if_true]

open storage storage.shorten in
/-- C16: the race between check and insert surfaces as the uniqueness error.
On the repository over any runner, with a transactioner that runs the
callback, for a url that is not blank (and a blank supplied hash): if the
lookup `ByHash` fails with an error that is `ErrNotFound` and the `Exec` of
the insert then fails with a driver error that is a violation of a UNIQUE
constraint, `Persist` returns id 0 and an error that is `ErrNotUnique`, and
`Create` returns id 0 and an error that is `ErrNotUnique` and neither
`ErrBadInput` nor `ErrNotFound`; the storage calls are the lookup and one
`Persist`, so nothing is retried. -/
theorem Create_race_not_unique (s : Service (Runner σ) σ) (run : Runner σ)
    (hTr : s.tr.RunsDirectly run) (hst : s.storage = repoStorage s.timeNow)
    (short : shorten.Entity) (w w1 w2 w3 : σ) (t t' : Time)
    (hurl : ¬ Blank short.URL) (hhash : Blank short.Hash)
    (lookupErr : GoError)
    (hlookup : (Repo.ByHash run (computeHash short.URL) w).1.2 = some lookupErr)
    (hnf : errorsIs (some lookupErr) ErrNotFound = true)
    (hw1 : (Repo.ByHash run (computeHash short.URL) w).2 = w1)
    (ht : s.timeNow w1 = (t, w2)) (ht' : s.timeNow w2 = (t', w3))
    (e : GoError) (msg : String)
    (hexec : (run.Exec persistQuery
      [.text short.URL, .text (computeHash short.URL), .integer t'.Unix] w3).1.Err = some e)
    (hsql : asSqlite3 e = some (sqlite3ErrConstraint, sqlite3ErrConstraintUnique, msg)) :
    ((Repo.Persist s.timeNow run ⟨0, short.URL, computeHash short.URL, t⟩ w2).1.1 = 0
      ∧ errorsIs (Repo.Persist s.timeNow run ⟨0, short.URL, computeHash short.URL, t⟩ w2).1.2
          ErrNotUnique = true)
    ∧ ((s.Create short w).1.1 = 0
      ∧ errorsIs (s.Create short w).1.2 ErrNotUnique = true
      ∧ errorsIs (s.Create short w).1.2 ErrBadInput = false
      ∧ errorsIs (s.Create short w).1.2 ErrNotFound = false)
    ∧ (s.traced.Create short (w, [])).2.2
        = [Call.ByHash (computeHash short.URL),
            Call.Persist ⟨0, short.URL, computeHash short.URL, t⟩] := by
  have hB : s.storage.ByHash = Repo.ByHash := by rw [hst]; rfl
  have hP : s.storage.Persist = Repo.Persist s.timeNow := by rw [hst]; rfl
  have hpersist : (Repo.Persist s.timeNow run ⟨0, short.URL, computeHash short.URL, t⟩ w2).1
      = (0, some (.wrapError "exec: %w" [] (.wrapErrorV "%v: %w" e ErrNotUnique))) := by
    unfold Repo.Persist
    simp only [ht', hexec, ConvertError_unique e msg hsql]
  have hkinds : ∀ text : String,
      errorsIs (some (.wrapError "persist short: %w" []
          (.wrapError "exec: %w" [] (.wrapErrorV "%v: %w" e ErrNotUnique))))
        (.errorString text) = errorsIs (some ErrNotUnique) (.errorString text) := by
    intro text
    rw [errorsIs_wrapError_sentinel, errorsIs_wrapError_sentinel, errorsIs_wrapErrorV_sentinel]
  have hcreate : (s.Create short w).1
      = (0, some (.wrapError "persist short: %w" []
          (.wrapError "exec: %w" [] (.wrapErrorV "%v: %w" e ErrNotUnique)))) := by
    rw [Create_valid s run hTr short w hurl hhash, hB, hP]
    simp only [hlookup, hnf, if_true, hw1, ht, hpersist]
  refine ⟨?_, ?_, ?_⟩
  · rw [hpersist]
    exact ⟨rfl, (errorsIs_wrapError_sentinel _ _ _ _).trans
      ((errorsIs_wrapErrorV_sentinel _ _ _ _).trans (by decide))⟩
  · rw [hcreate]
    exact ⟨rfl, (hkinds _).trans (by decide), (hkinds _).trans (by decide),
      (hkinds _).trans (by decide)⟩
  · rw [Create_valid_calls s run hTr short w hurl hhash, hB]
    simp only [hlookup, hnf, if_true, hw1, ht]

/-- Witness for C16: the repository on a runner that sees no row at the
lookup and a UNIQUE violation at the insert. -/
theorem Create_race_not_unique_witness :
    racedService.tr.RunsDirectly sqlite.racedRunner
      ∧ ¬ Blank (Entity.mk 0 "https://www.google.com" "").URL
      ∧ (racedService.Create ⟨0, "https://www.google.com", ""⟩ ()).1.1 = 0
      ∧ errorsIs (racedService.Create ⟨0, "https://www.google.com", ""⟩ ()).1.2
          ErrNotUnique = true
      ∧ (racedService.traced.Create ⟨0, "https://www.google.com", ""⟩ ((), [])).2.2
          = [Call.ByHash "8ffdefb",
              Call.Persist ⟨0, "https://www.google.com", "8ffdefb", timeUnix 1700000000⟩] :=
  ⟨fun _ _ _ => rfl, by decide,
    (Create_race_not_unique racedService sqlite.racedRunner (fun _ _ _ => rfl) rfl
      ⟨0, "https://www.google.com", ""⟩ () () () () (timeUnix 1700000000)
      (timeUnix 1700000000) (by decide) (by decide)
      (.wrapError "retrieve single: %w" [] ErrNotFound) rfl (by decide) rfl rfl rfl
      sqlite.uniqueFailed "UNIQUE constraint failed: shorten.hash" rfl rfl).2.1.1,
    (Create_race_not_unique racedService sqlite.racedRunner (fun _ _ _ => rfl) rfl
      ⟨0, "https://www.google.com", ""⟩ () () () () (timeUnix 1700000000)
      (timeUnix 1700000000) (by decide) (by decide)
      (.wrapError "retrieve single: %w" [] ErrNotFound) rfl (by decide) rfl rfl rfl
      sqlite.uniqueFailed "UNIQUE constraint failed: shorten.hash" rfl rfl).2.1.2.1,
    (Create_race_not_unique racedService sqlite.racedRunner (fun _ _ _ => rfl) rfl
      ⟨0, "https://www.google.com", ""⟩ () () () () (timeUnix 1700000000)
      (timeUnix 1700000000) (by decide) (by decide)
      (.wrapError "retrieve single: %w" [] ErrNotFound) rfl (by decide) rfl rfl rfl
      sqlite.uniqueFailed "UNIQUE constraint failed: shorten.hash" rfl rfl).2.2⟩

/-! ## An error of the lookup of `Create` -/

/-- An error of a comparable dynamic type is itself. -/
theorem is_self_of_comparable (e : GoError) (h : e.comparable = true) : e.is e = true := by
  cases e <;> simp_all [GoError.is, GoError.comparable]

/-- Whenever `Create` returns an error, the id it returns is 0. -/
theorem Create_error_id (s : Service ρ σ) (short : Entity) (w : σ)
    (h : (s.Create short w).1.2 ≠ none) : (s.Create short w).1.1 = 0 := by
  unfold Service.Create at h ⊢
  cases hb : isNotBlank short.URL "url" with
  | some err => rfl
  | none =>
    simp only [hb] at h ⊢
    by_cases hh : TrimSpace short.Hash ≠ ""
    · rw [if_pos hh]
    · rw [if_neg hh] at h ⊢
      generalize s.tr.WithoutTx _ _ = res at h ⊢
      cases hr : res.1 with
      | some err => rfl
      | none =>
        rw [hr] at h
        exact absurd rfl h

/-- C17, as stated, fails: a storage whose lookup fails with a
`ValidationError` (an error that is not `ErrNotFound`, of a dynamic type that
is not comparable). `Create` returns id 0 and that error wrapped twice, but
`errors.Is` of the returned error and the lookup error does not hold. -/
theorem Create_lookup_error_counterexample :
    ¬ Blank (Entity.mk 0 "https://example.com" "").URL
      ∧ ((stubService
            (storage.shorten.Entity.zero,
              some (.ValidationError ErrBadInput [("hash", "stub")]))
            (0, none) (none, none) none).storage.ByHash none
          (computeHash "https://example.com") ()).1.2
          = some (.ValidationError ErrBadInput [("hash", "stub")])
      ∧ errorsIs (some (.ValidationError ErrBadInput [("hash", "stub")])) ErrNotFound = false
      ∧ ((stubService
            (storage.shorten.Entity.zero,
              some (.ValidationError ErrBadInput [("hash", "stub")]))
            (0, none) (none, none) none).Create ⟨0, "https://example.com", ""⟩ ()).1
          = (0, some (.wrapError "persist short: %w" []
              (.wrapError "lookup by hash %q: %w" [.str "c984d06"]
                (.ValidationError ErrBadInput [("hash", "stub")]))))
      ∧ errorsIs ((stubService
            (storage.shorten.Entity.zero,
              some (.ValidationError ErrBadInput [("hash", "stub")]))
            (0, none) (none, none) none).Create ⟨0, "https://example.com", ""⟩ ()).1.2
          (.ValidationError ErrBadInput [("hash", "stub")]) = false := by
  decide

/-- C17, amended: for a url that is not blank (and a blank supplied hash),
with a transactioner that runs the callback, if the lookup `ByHash` fails
with an error `e` that is not `ErrNotFound`, the only storage call of
`Create` is the lookup (no `Persist`) and `Create` returns id 0 and `e`
wrapped twice with `%w`; the returned error is every target that `e` is, and
it is `e` itself when the dynamic type of `e` is comparable. For every input,
whenever `Create` returns an error the id it returns is 0, also when
`Persist` returned an id other than 0 together with its error. -/
theorem Create_lookup_error (s : Service ρ σ) (r : ρ) (hTr : s.tr.RunsDirectly r)
    (short : Entity) (w : σ) (hurl : ¬ Blank short.URL) (hhash : Blank short.Hash)
    (e : GoError) (hlookup : (s.storage.ByHash r (computeHash short.URL) w).1.2 = some e)
    (hnf : errorsIs (some e) ErrNotFound = false) :
    (s.traced.Create short (w, [])).2.2 = [Call.ByHash (computeHash short.URL)]
      ∧ (s.Create short w).1
          = (0, some (.wrapError "persist short: %w" []
              (.wrapError "lookup by hash %q: %w" [.str (computeHash short.URL)] e)))
      ∧ (∀ target, errorsIs (some e) target = true →
          errorsIs (s.Create short w).1.2 target = true)
      ∧ (e.comparable = true → errorsIs (s.Create short w).1.2 e = true)
      ∧ (∀ (anyShort : Entity) (anyState : σ), (s.Create anyShort anyState).1.2 ≠ none →
          (s.Create anyShort anyState).1.1 = 0) := by
  have hc : (s.Create short w).1
      = (0, some (.wrapError "persist short: %w" []
          (.wrapError "lookup by hash %q: %w" [.str (computeHash short.URL)] e))) := by
    rw [Create_valid s r hTr short w hurl hhash]
    simp only [hlookup, hnf, Bool.false_eq_true, if_false]
  have hwrap : ∀ target, errorsIs (some e) target = true →
      errorsIs (s.Create short w).1.2 target = true := by
    intro target ht
    rw [hc]
    exact errorsIs_wrapError _ _ _ _ (errorsIs_wrapError _ _ _ _ ht)
  refine ⟨?_, hc, hwrap, fun hcmp => hwrap e (is_self_of_comparable e hcmp),
    fun anyShort anyState => Create_error_id s anyShort anyState⟩
  rw [Create_valid_calls s r hTr short w hurl hhash]
  simp only [hlookup, hnf, Bool.false_eq_true, if_false]

/-- Witness for C17: a storage whose lookup fails with `ErrBadInput`, and
whose `Persist` returns the id 5 together with an error. -/
theorem Create_lookup_error_witness :
    (stubService (storage.shorten.Entity.zero, some ErrBadInput) (5, some ErrNotUnique)
        (none, none) none).tr.RunsDirectly none
      ∧ ¬ Blank (Entity.mk 0 "https://example.com" "").URL
      ∧ errorsIs (some ErrBadInput) ErrNotFound = false
      ∧ ((stubService (storage.shorten.Entity.zero, some ErrBadInput) (5, some ErrNotUnique)
          (none, none) none).traced.Create ⟨0, "https://example.com", ""⟩ ((), [])).2.2
          = [Call.ByHash (computeHash "https://example.com")]
      ∧ errorsIs ((stubService (storage.shorten.Entity.zero, some ErrBadInput)
          (5, some ErrNotUnique) (none, none) none).Create
            ⟨0, "https://example.com", ""⟩ ()).1.2 ErrBadInput = true :=
  ⟨testTransactioner_RunsDirectly, by decide, by decide,
    (Create_lookup_error _ none testTransactioner_RunsDirectly
      ⟨0, "https://example.com", ""⟩ () (by decide) (by decide) ErrBadInput rfl
      (by decide)).1,
    (Create_lookup_error (stubService (storage.shorten.Entity.zero, some ErrBadInput)
        (5, some ErrNotUnique) (none, none) none) none testTransactioner_RunsDirectly
      ⟨0, "https://example.com", ""⟩ () (by decide) (by decide) ErrBadInput rfl
      (by decide)).2.2.2.1 rfl⟩

/-- The id is 0 when `Persist` returns the id 5 together with an error. -/
theorem Create_persist_error_id :
    (stubService (storage.shorten.Entity.zero, some ErrNotFound) (5, some ErrNotUnique)
        (none, none) none).Create ⟨0, "https://example.com", ""⟩ ()
      = ((0, some (.wrapError "persist short: %w" [] ErrNotUnique)), ()) := by
  decide

/-! ## The timestamp that `Persist` stores -/

open storage storage.shorten in
/-- `Repo.Persist` does not read the `CreatedAt` (nor the `ID`) of the entity
it is given: two entities with the same URL and Hash are persisted alike. -/
theorem Persist_ignores_CreatedAt (timeNow : σ → Time × σ) (run : Runner σ)
    (entry other : storage.shorten.Entity) (w : σ)
    (hurl : other.URL = entry.URL) (hhash : other.Hash = entry.Hash) :
    Repo.Persist timeNow run other w = Repo.Persist timeNow run entry w := by
  unfold Repo.Persist
  rw [hurl, hhash]

/-- C19, the counterexample. `Repo.Persist` of an entity created at second
1000, on a clock that reads 1700000000, stores 1700000000. And
`Create` on a clock that passes from second 1700000000 to the next between two
readings hands `Persist` an entity created at second 1700000000, while the row
stored has `created_at` 1700000001. -/
theorem Persist_stores_clock_reading :
    ((modelService.storage.Persist (storage.qRunner sqlite.db)
        ⟨0, "https://example.com", "12345", timeUnix 1000⟩ sqlite.World.start).2.rows
        = [⟨1, "https://example.com", "12345", 1700000000⟩]
      ∧ (timeUnix 1000).Unix = 1000)
    ∧ ((modelService.traced.Create ⟨0, "https://www.google.com", ""⟩
          (sqlite.World.atSecondBoundary, [])).2.2
        = [Call.ByHash "8ffdefb",
            Call.Persist ⟨0, "https://www.google.com", "8ffdefb", ⟨1700000000, 999999000⟩⟩]
      ∧ (Time.mk 1700000000 999999000).Unix = 1700000000
      ∧ (modelService.Create ⟨0, "https://www.google.com", ""⟩
          sqlite.World.atSecondBoundary).2.rows
        = [⟨1, "https://www.google.com", "8ffdefb", 1700000001⟩]) := by
  decide

open storage storage.shorten in
/-- C19, amended: `Repo.Persist` runs one statement, whose three parameters
are `entry.URL`, `entry.Hash` and the epoch seconds of the clock that Persist
reads itself with `time.Now()`, on every runner and for every entity. The
`CreatedAt` of the entity is not read: with any other timestamp in it the
result and the state are the same. On the model store a successful Persist
appends the row with the next id, the given url and hash, and the second of
that clock reading as `created_at`. -/
theorem Persist_stores_now (timeNow : σ → Time × σ) (run : Runner σ)
    (entry : storage.shorten.Entity) (w : σ) :
    (Repo.Persist (fun x => ((timeNow x.1).1, ((timeNow x.1).2, x.2))) run.recording entry
        (w, [])).2.2
        = [(persistQuery, [.text entry.URL, .text entry.Hash, .integer (timeNow w).1.Unix])]
      ∧ (∀ t : Time,
          Repo.Persist timeNow run ⟨entry.ID, entry.URL, entry.Hash, t⟩ w
            = Repo.Persist timeNow run entry w)
      ∧ (∀ ws : sqlite.World,
          (modelService.storage.Persist (qRunner sqlite.db) entry ws).1.2 = none →
          (modelService.storage.Persist (qRunner sqlite.db) entry ws).2.rows
            = ws.rows ++ [⟨sqlite.nextId ws.rows, entry.URL, entry.Hash,
                (sqlite.timeNow ws).1.Unix⟩]) := by
  refine ⟨?_, fun t => Persist_ignores_CreatedAt timeNow run entry _ w rfl rfl, ?_⟩
  · simp only [Repo.Persist, Runner.recording]
    split <;> rfl
  · intro ws hok
    rw [model_Persist] at hok ⊢
    split_ifs at hok ⊢
    rfl

/-- Witness for C19: on the model store with a clock at second 1700000000,
an entity created at second 1000 is stored with `created_at` 1700000000. -/
theorem Persist_stores_now_witness :
    (modelService.storage.Persist (storage.qRunner sqlite.db)
        ⟨0, "https://example.com", "12345", timeUnix 1000⟩ sqlite.World.start).1.2 = none
      ∧ (modelService.storage.Persist (storage.qRunner sqlite.db)
          ⟨0, "https://example.com", "12345", timeUnix 1000⟩ sqlite.World.start).2.rows
        = sqlite.World.start.rows ++ [⟨sqlite.nextId sqlite.World.start.rows,
            "https://example.com", "12345", (sqlite.timeNow sqlite.World.start).1.Unix⟩]
      ∧ (sqlite.timeNow sqlite.World.start).1.Unix = 1700000000 :=
  ⟨by decide,
    (Persist_stores_now sqlite.timeNow (storage.qRunner sqlite.db)
      ⟨0, "https://example.com", "12345", timeUnix 1000⟩ sqlite.World.start).2.2
      sqlite.World.start (by decide),
    by decide⟩

/-! ## Listing and deleting on the model store -/

open sqlite storage storage.shorten in
/-- The loop of `Repo.List` on rows of the table: every row is scanned into
its entity and appended; without rows the slice stays as it was. -/
theorem scanRows_rows (rows : List Row) (acc : Slice storage.shorten.Entity) :
    Repo.scanRows
        (rows.map (fun r => [.integer r.id, .text r.url, .text r.hash, .integer r.created_at]))
        acc
      = (if rows = [] then acc else some (acc.elems ++ rows.map Row.entity), none) := by
  induction rows generalizing acc with
  | nil => rfl
  | cons r t ih =>
    rw [List.map_cons, Repo.scanRows]
    have hscan : scanColumns [.int64, .string, .string, .int64]
        [.integer r.id, .text r.url, .text r.hash, .integer r.created_at]
        = ([.integer r.id, .text r.url, .text r.hash, .integer r.created_at], none) := rfl
    simp only [hscan]
    rw [show ConvertError none = none from rfl]
    simp only
    rw [ih]
    by_cases ht : t = []
    · subst ht
      simp [Slice.elems, Row.entity, Value.int, Value.str]
    · simp [ht, Slice.elems, Row.entity, Value.int, Value.str]

open sqlite storage storage.shorten in
/-- On the model store, `List` reads the rows in the order of their ids,
skips and keeps as the pager says, and leaves the state as it is; without a
row to return the slice is nil. -/
theorem model_List (pager : Pager) (w : World) :
    modelService.storage.List (qRunner db) pager w =
      ((if limitOffset pager.Limit pager.Offset
            (w.rows.insertionSort (fun a b => a.id ≤ b.id)) = [] then none
        else some ((limitOffset pager.Limit pager.Offset
            (w.rows.insertionSort (fun a b => a.id ≤ b.id))).map Row.entity), none), w) := by
  simp only [modelService, repoStorage, Repo.List, qRunner, db, conn, query, if_true]
  rw [show ConvertError none = none from rfl]
  simp only
  rw [scanRows_rows]
  simp [Slice.elems]

open sqlite storage storage.shorten in
/-- On the model store, `Delete` removes the rows with the id and succeeds
when there was exactly one. -/
theorem model_Delete (id : Int) (w : World) :
    modelService.storage.Delete (qRunner db) id w =
      (if ((w.rows.filter (fun r => r.id == id)).length : Int) = 1 then none
        else some ErrNotFound,
        { w with rows := w.rows.filter (fun r => !(r.id == id)) }) := by
  simp only [modelService, repoStorage, Repo.Delete, qRunner, qRunner.Exec, db, conn, exec]
  rw [if_neg (by decide)]
  simp only [if_true, execResult.Err, execResult.Affected]
  rw [show ConvertError none = none from rfl]
  simp only
  split <;> rfl

open sqlite storage storage.shorten in
/-- On the model store, `Retrieve` reads the first row with the id and leaves
the state as it is. -/
theorem model_Retrieve (id : Int) (w : World) :
    modelService.storage.Retrieve (qRunner db) id w =
      match w.rows.find? (fun r => r.id == id) with
      | some row => ((⟨id, row.url, row.hash, timeUnix row.created_at⟩, none), w)
      | none =>
        ((storage.shorten.Entity.zero,
          some (.wrapError "retrieve single: %w" [] ErrNotFound)), w) := by
  simp only [modelService, repoStorage, Repo.Retrieve, qRunner, db, conn, queryRow, if_true]
  cases w.rows.find? (fun r => r.id == id) with
  | none => rfl
  | some row => rfl

/-- `Service.List` on a valid pager, with a transactioner that runs the
callback, when the storage lists without error. -/
theorem List_of_listed (s : Service ρ σ) (r : ρ) (hTr : s.tr.RunsDirectly r)
    (pager : storage.shorten.Pager) (w : σ) (hl : 1 ≤ pager.Limit) (ho : 0 ≤ pager.Offset)
    (hok : (s.storage.List r pager w).1.2 = none) :
    s.List pager w
      = ((some (((s.storage.List r pager w).1.1).elems.map serviceEntity), none),
          (s.storage.List r pager w).2) := by
  unfold Service.List
  rw [if_neg (not_lt.mpr hl), if_neg (not_lt.mpr ho)]
  simp only
  rw [hTr]
  simp only [hok]

open sqlite storage in
/-- On the model store, `Service.List` on a valid pager returns the entities
of the rows that the pager keeps of the rows in the order of their ids. -/
theorem model_Service_List (pager : storage.shorten.Pager) (w : World)
    (hl : 1 ≤ pager.Limit) (ho : 0 ≤ pager.Offset) :
    modelService.List pager w
      = ((some ((((w.rows.insertionSort (fun a b => a.id ≤ b.id)).drop
          pager.Offset.toNat).take pager.Limit.toNat).map
            (fun r => (⟨r.id, r.url, r.hash⟩ : Entity))), none), w) := by
  have hlim : limitOffset pager.Limit pager.Offset
      (w.rows.insertionSort (fun a b => a.id ≤ b.id))
      = ((w.rows.insertionSort (fun a b => a.id ≤ b.id)).drop pager.Offset.toNat).take
          pager.Limit.toNat := by
    unfold limitOffset
    rw [if_neg (by omega)]
  rw [List_of_listed modelService (qRunner db) (sqlLiteTransactioner_RunsDirectly _) pager w
    hl ho (by rw [model_List]), model_List, hlim]
  simp only
  split
  · rename_i hnil
    rw [hnil]
    rfl
  · simp only [Slice.elems, List.map_map]
    rfl

open sqlite storage in
/-- C11: pagination on the model store. For every table and every pager with
a limit of at least 1 and an offset of at least 0, `List` returns, without
error and without changing the state, the entities of the rows sorted by
ascending id (a sorted rearrangement of the table), the first `offset` of them
skipped and at most `limit` kept; the result has at most `limit` elements,
its ids never decrease, and they increase strictly when the ids of the table
are pairwise distinct. With two rows with increasing ids in the table, the
pager `{limit: 1, offset: 1}` gives exactly the second row. -/
theorem List_pagination (w : World) (pager : storage.shorten.Pager)
    (hl : 1 ≤ pager.Limit) (ho : 0 ≤ pager.Offset) :
    (∃ sorted : List Row, sorted.Perm w.rows
        ∧ sorted.Pairwise (fun a b => a.id ≤ b.id)
        ∧ modelService.List pager w
          = ((some (((sorted.drop pager.Offset.toNat).take pager.Limit.toNat).map
              (fun r => (⟨r.id, r.url, r.hash⟩ : Entity))), none), w))
      ∧ (((modelService.List pager w).1.1).elems.length : Int) ≤ pager.Limit
      ∧ (((modelService.List pager w).1.1).elems.map (fun e => e.ID)).Pairwise (· ≤ ·)
      ∧ ((w.rows.map (fun r => r.id)).Nodup →
          (((modelService.List pager w).1.1).elems.map (fun e => e.ID)).Pairwise (· < ·))
      ∧ (∀ r1 r2 : Row, w.rows = [r1, r2] → r1.id < r2.id →
          modelService.List ⟨1, 1⟩ w = ((some [⟨r2.id, r2.url, r2.hash⟩], none), w)) := by
  have hsorted : (w.rows.insertionSort (fun a b => a.id ≤ b.id)).Pairwise
      (fun a b => a.id ≤ b.id) :=
    @List.sorted_insertionSort Row (fun a b => a.id ≤ b.id) _
      ⟨fun a b => le_total a.id b.id⟩ ⟨fun _ _ _ h1 h2 => le_trans h1 h2⟩ w.rows
  have hperm := List.perm_insertionSort (fun a b : Row => a.id ≤ b.id) w.rows
  have hsub : List.Sublist
      (((w.rows.insertionSort (fun a b => a.id ≤ b.id)).drop pager.Offset.toNat).take
        pager.Limit.toNat)
      (w.rows.insertionSort (fun a b => a.id ≤ b.id)) :=
    (List.take_sublist _ _).trans (List.drop_sublist _ _)
  have hlist := model_Service_List pager w hl ho
  have hids : ((modelService.List pager w).1.1).elems.map (fun e => e.ID)
      = ((((w.rows.insertionSort (fun a b => a.id ≤ b.id)).drop pager.Offset.toNat).take
          pager.Limit.toNat)).map (fun r => r.id) := by
    rw [hlist]
    simp [Slice.elems, Function.comp_def]
  refine ⟨⟨_, hperm, hsorted, hlist⟩, ?_, ?_, ?_, ?_⟩
  · rw [hlist]
    simp only [Slice.elems, List.length_map, List.length_take]
    omega
  · rw [hids, List.pairwise_map]
    exact hsorted.sublist hsub
  · intro hnd
    rw [hids, List.pairwise_map]
    have hnd2 : ((w.rows.insertionSort (fun a b => a.id ≤ b.id)).map (fun r => r.id)).Nodup :=
      (hperm.map _).nodup_iff.mpr hnd
    have hstrict : (w.rows.insertionSort (fun a b => a.id ≤ b.id)).Pairwise
        (fun a b => a.id < b.id) := by
      have h1 := List.pairwise_map.mpr hsorted
      have h2 := List.Sorted.lt_of_le h1 hnd2
      exact List.pairwise_map.mp h2
    exact hstrict.sublist hsub
  · intro r1 r2 hrows hlt
    rw [model_Service_List ⟨1, 1⟩ w (by decide) (by decide), hrows]
    have hle : r1.id ≤ r2.id := le_of_lt hlt
    simp [List.insertionSort, List.orderedInsert, hle]

/-- Witness for C11: the table of the test "limited", and the table after
two creations. -/
theorem List_pagination_witness :
    1 ≤ (storage.shorten.Pager.mk 1 1).Limit ∧ 0 ≤ (storage.shorten.Pager.mk 1 1).Offset
      ∧ modelService.List ⟨1, 1⟩
          (sqlite.World.withRows [⟨1, "https://example.com", "1", 1600000000⟩,
            ⟨2, "https://stub.com", "2", 1600000000⟩])
        = ((some [⟨2, "https://stub.com", "2"⟩], none),
            sqlite.World.withRows [⟨1, "https://example.com", "1", 1600000000⟩,
              ⟨2, "https://stub.com", "2", 1600000000⟩])
      ∧ (modelService.List ⟨1, 1⟩
          (modelService.Create ⟨0, "https://example.com", ""⟩
            (modelService.Create ⟨0, "https://www.google.com", ""⟩
              sqlite.World.start).2).2).1
        = (some [⟨2, "https://example.com", "c984d06"⟩], none) :=
  ⟨by decide, by decide,
    (List_pagination
      (sqlite.World.withRows [⟨1, "https://example.com", "1", 1600000000⟩,
        ⟨2, "https://stub.com", "2", 1600000000⟩]) ⟨1, 1⟩ (by decide) (by decide)).2.2.2.2
      ⟨1, "https://example.com", "1", 1600000000⟩ ⟨2, "https://stub.com", "2", 1600000000⟩
      rfl (by decide),
    congrArg Prod.fst
      ((List_pagination
        (modelService.Create ⟨0, "https://example.com", ""⟩
          (modelService.Create ⟨0, "https://www.google.com", ""⟩ sqlite.World.start).2).2
        ⟨1, 1⟩ (by decide) (by decide)).2.2.2.2
        ⟨1, "https://www.google.com", "8ffdefb", 1700000001⟩
        ⟨2, "https://example.com", "c984d06", 1700000003⟩ (by decide) (by decide))⟩

/-! ## Deleting a row and fetching it again -/

/-- `Service.Get` with a transactioner that runs the callback: the entity of
the storage, or its error wrapped. -/
theorem Get_eq (s : Service ρ σ) (r : ρ) (hTr : s.tr.RunsDirectly r) (id : Int) (w : σ) :
    s.Get id w =
      match (s.storage.Retrieve r id w).1.2 with
      | some err =>
        ((Entity.zero, some (.wrapError "retrieve shorten by id %q: %w" [.int id] err)),
          (s.storage.Retrieve r id w).2)
      | none =>
        ((serviceEntity (s.storage.Retrieve r id w).1.1, none),
          (s.storage.Retrieve r id w).2) := by
  unfold Service.Get
  simp only
  rw [hTr]

/-- `Service.Resolve` on a hash that is not blank, with a transactioner that
runs the callback: the URL of the storage, or its error wrapped. -/
theorem Resolve_eq (s : Service ρ σ) (r : ρ) (hTr : s.tr.RunsDirectly r)
    (hash : String) (w : σ) (hnb : ¬ Blank hash) :
    s.Resolve hash w =
      match (s.storage.ByHash r hash w).1.2 with
      | some err =>
        (("", some (.wrapError "retrieve shorten by hash %q: %w" [.str hash] err)),
          (s.storage.ByHash r hash w).2)
      | none =>
        ((((s.storage.ByHash r hash w).1.1).URL, none), (s.storage.ByHash r hash w).2) := by
  unfold Service.Resolve
  rw [isNotBlank_of_not_blank _ _ hnb]
  simp only
  rw [hTr]
  cases (s.storage.ByHash r hash w).1.2 <;> rfl

/-- In a table with pairwise distinct ids, a row is the only one with its id. -/
theorem filter_id_of_mem (row : sqlite.Row) (rows : List sqlite.Row)
    (hnd : (rows.map (fun r => r.id)).Nodup) (hmem : row ∈ rows) :
    rows.filter (fun r => r.id == row.id) = [row] := by
  induction rows with
  | nil => cases hmem
  | cons a t ih =>
    rw [List.map_cons, List.nodup_cons] at hnd
    rcases List.mem_cons.mp hmem with h | h
    · subst h
      simp only [List.filter_cons, beq_self_eq_true, if_true]
      congr 1
      rw [List.filter_eq_nil_iff]
      intro x hx hxid
      apply hnd.1
      rw [beq_iff_eq] at hxid
      rw [← hxid]
      exact List.mem_map_of_mem _ hx
    · have hne : (a.id == row.id) = false := by
        rw [beq_eq_false_iff_ne]
        intro he
        apply hnd.1
        rw [he]
        exact List.mem_map_of_mem _ h
      simp only [List.filter_cons, hne, Bool.false_eq_true, if_false]
      exact ih hnd.2 h

/-- C14, as stated, fails: a table with one row, whose hash is a space (the
table admits it: its length is 1). Deleting the row succeeds, and resolving
its hash afterwards fails with the validation error of a blank hash, which is
`ErrBadInput` and not `ErrNotFound`. -/
theorem Delete_then_Resolve_counterexample :
    ((sqlite.World.withRows [⟨1, "https://example.com", " ", 0⟩]).rows.map
        (fun r => r.id)).Nodup
      ∧ ((sqlite.World.withRows [⟨1, "https://example.com", " ", 0⟩]).rows.map
        (fun r => r.hash)).Nodup
      ∧ sqlite.sqlLength " " = 1
      ∧ (modelService.Delete 1
          (sqlite.World.withRows [⟨1, "https://example.com", " ", 0⟩])).1 = none
      ∧ (modelService.Resolve " "
          (modelService.Delete 1
            (sqlite.World.withRows [⟨1, "https://example.com", " ", 0⟩])).2).1
          = ("", some (.ValidationError ErrBadInput [("hash", "blank or empty")]))
      ∧ errorsIs (modelService.Resolve " "
          (modelService.Delete 1
            (sqlite.World.withRows [⟨1, "https://example.com", " ", 0⟩])).2).1.2
          ErrNotFound = false := by
  decide

open sqlite storage in
/-- C14, amended: on the model store, in a table with pairwise distinct ids
and pairwise distinct hashes that holds a row with id `i` and hash `h`,
`Delete(i)` succeeds and changes the state only by removing that row from the
table; a second `Delete(i)` then fails with an error that is `ErrNotFound`,
`Get(i)` fails with an error that is `ErrNotFound`, and `Resolve(h)` fails
with an error that is `ErrNotFound` when `h` is not blank, and with the
validation error of a blank hash (`ErrBadInput`, not `ErrNotFound`) when `h`
is blank. -/
theorem Delete_then_refetch (w : World) (row : Row) (hmem : row ∈ w.rows)
    (hids : (w.rows.map (fun r => r.id)).Nodup)
    (hhashes : (w.rows.map (fun r => r.hash)).Nodup) :
    modelService.Delete row.id w = (none, { w with rows := w.rows.erase row })
      ∧ errorsIs (modelService.Delete row.id (modelService.Delete row.id w).2).1
          ErrNotFound = true
      ∧ errorsIs (modelService.Get row.id (modelService.Delete row.id w).2).1.2
          ErrNotFound = true
      ∧ (¬ Blank row.hash →
          errorsIs (modelService.Resolve row.hash (modelService.Delete row.id w).2).1.2
            ErrNotFound = true)
      ∧ (Blank row.hash →
          errorsIs (modelService.Resolve row.hash (modelService.Delete row.id w).2).1.2
              ErrBadInput = true
            ∧ errorsIs (modelService.Resolve row.hash (modelService.Delete row.id w).2).1.2
              ErrNotFound = false) := by
  have hdirect : modelService.tr.RunsDirectly (qRunner db) :=
    sqlLiteTransactioner_RunsDirectly _
  have hrest : w.rows.filter (fun r => !(r.id == row.id)) = w.rows.erase row := by
    rw [List.Nodup.erase_eq_filter (List.Nodup.of_map _ hids)]
    apply List.filter_congr
    intro x hx
    by_cases hxr : x = row
    · subst hxr
      simp
    · have hne : x.id ≠ row.id := fun he => hxr (List.inj_on_of_nodup_map hids hx hmem he)
      have h1 : (x.id == row.id) = false := beq_eq_false_iff_ne.mpr hne
      have h2 : (x != row) = true := bne_iff_ne.mpr hxr
      rw [h1, h2]
      rfl
  have hdel : modelService.Delete row.id w = (none, { w with rows := w.rows.erase row }) := by
    rw [Delete_eq modelService _ hdirect, model_Delete, filter_id_of_mem row w.rows hids hmem,
      hrest]
    rfl
  have hgone_id : ∀ x ∈ w.rows.erase row, (x.id == row.id) = false := by
    intro x hx
    rw [← hrest, List.mem_filter] at hx
    simpa using hx.2
  have hgone_hash : ∀ x ∈ w.rows.erase row, (x.hash == row.hash) = false := by
    intro x hx
    have hxid := hgone_id x hx
    rw [beq_eq_false_iff_ne] at hxid ⊢
    intro he
    apply hxid
    rw [List.inj_on_of_nodup_map hhashes (List.mem_of_mem_erase hx) hmem he]
  refine ⟨hdel, ?_, ?_, fun hnb => ?_, fun hb => ?_⟩
  · rw [hdel, Delete_eq modelService _ hdirect, model_Delete]
    have hnil : List.filter (fun r => r.id == row.id) (w.rows.erase row) = [] := by
      rw [List.filter_eq_nil_iff]
      intro x hx
      rw [hgone_id x hx]
      decide
    simp only [hnil, List.length_nil, Nat.cast_zero]
    rw [if_neg (by decide)]
    exact errorsIs_wrapError _ _ _ _ (by decide)
  · rw [hdel, Get_eq modelService _ hdirect, model_Retrieve]
    have hnone : List.find? (fun r => r.id == row.id) (w.rows.erase row) = none := by
      rw [List.find?_eq_none]
      intro x hx
      rw [hgone_id x hx]
      decide
    simp only [hnone]
    exact errorsIs_wrapError _ _ _ _ (errorsIs_wrapError _ _ _ _ (by decide))
  · rw [hdel, Resolve_eq modelService _ hdirect _ _ hnb, model_ByHash]
    have hnone : List.find? (fun r => r.hash == row.hash) (w.rows.erase row) = none := by
      rw [List.find?_eq_none]
      intro x hx
      rw [hgone_hash x hx]
      decide
    simp only [hnone]
    exact errorsIs_wrapError _ _ _ _ (errorsIs_wrapError _ _ _ _ (by decide))
  · have hres : ∀ st : World, (modelService.Resolve row.hash st).1.2
        = some (.ValidationError ErrBadInput [("hash", "blank or empty")]) := by
      intro st
      unfold Service.Resolve
      rw [isNotBlank_of_blank _ _ hb]
    rw [hres]
    exact ⟨by decide, by decide⟩

/-- Witness for C14: the row of a created url is deleted and fetched again. -/
theorem Delete_then_refetch_witness :
    (⟨1, "https://www.google.com", "8ffdefb", 0⟩ : sqlite.Row)
        ∈ (sqlite.World.withRows [⟨1, "https://www.google.com", "8ffdefb", 0⟩,
            ⟨2, "https://example.com", "c984d06", 0⟩]).rows
      ∧ (modelService.Delete 1
          (sqlite.World.withRows [⟨1, "https://www.google.com", "8ffdefb", 0⟩,
            ⟨2, "https://example.com", "c984d06", 0⟩])).1 = none
      ∧ ¬ Blank "8ffdefb"
      ∧ errorsIs (modelService.Resolve "8ffdefb"
          (modelService.Delete 1
            (sqlite.World.withRows [⟨1, "https://www.google.com", "8ffdefb", 0⟩,
              ⟨2, "https://example.com", "c984d06", 0⟩])).2).1.2 ErrNotFound = true :=
  ⟨by decide,
    congrArg Prod.fst
      (Delete_then_refetch
        (sqlite.World.withRows [⟨1, "https://www.google.com", "8ffdefb", 0⟩,
          ⟨2, "https://example.com", "c984d06", 0⟩])
        ⟨1, "https://www.google.com", "8ffdefb", 0⟩ (by decide) (by decide) (by decide)).1,
    by decide,
    (Delete_then_refetch
      (sqlite.World.withRows [⟨1, "https://www.google.com", "8ffdefb", 0⟩,
        ⟨2, "https://example.com", "c984d06", 0⟩])
      ⟨1, "https://www.google.com", "8ffdefb", 0⟩ (by decide) (by decide) (by decide)).2.2.2.1
      (by decide)⟩

/-! ## The length and the alphabet of the hash -/

/-- A hexadecimal digit takes one byte in UTF-8. -/
theorem hex_digit_one_byte :
    ∀ c ∈ "0123456789abcdef".data, (String.utf8EncodeChar c).length = 1 := by
  decide

/-- A string of hexadecimal digits has as many bytes as characters. -/
theorem bytes_length_of_hex (cs : List Char)
    (h : ∀ c ∈ cs, c ∈ "0123456789abcdef".data) :
    (cs.flatMap String.utf8EncodeChar).length = cs.length := by
  induction cs with
  | nil => rfl
  | cons c t ih =>
    simp only [List.flatMap_cons, List.length_append, List.length_cons]
    rw [ih (fun x hx => h x (List.mem_cons_of_mem _ hx)),
      hex_digit_one_byte c (h c (List.mem_cons_self _ _))]
    omega

/-- C24: for every string url, the empty one included, `computeHash url` has
exactly 7 characters (and 7 bytes), each among `0-9` and `a-f`; the hexadecimal
rendering of the MD5 digest that is cut at `hashLen` always has 32 characters,
so the cut `[:hashLen]` is within range. -/
theorem computeHash_seven_hex (url : String) :
    (computeHash url).length = 7
      ∧ (bytes (computeHash url)).length = 7
      ∧ (∀ ch ∈ (computeHash url).data, ch ∈ "0123456789abcdef".data)
      ∧ (sprintfHex (md5.Sum (bytes url))).length = 32
      ∧ hashLen ≤ (sprintfHex (md5.Sum (bytes url))).length
      ∧ (computeHash "").length = 7 := by
  have h32 : (sprintfHex (md5.Sum (bytes url))).length = 32 := by
    rw [sprintfHex_length, md5_Sum_length]
  refine ⟨computeHash_length url, ?_, computeHash_mem url, h32, ?_, computeHash_length ""⟩
  · rw [bytes, List.length_map, bytes_length_of_hex _ (computeHash_mem url),
      computeHash_length]
  · rw [h32]; decide

/-! ## `WithTx`: begin, run, then commit or roll back -/

/-- The transactional runner of a recorded transaction is the transactional
runner of the transaction. -/
theorem txRunner_untraced (tx : storage.Tx σ) :
    (storage.txRunner tx.traced).untraced = storage.txRunner tx := by
  simp only [storage.Runner.untraced, storage.txRunner, storage.Tx.traced,
    storage.Conn.traced, storage.Runner.mk.injEq]
  refine ⟨?_, trivial, trivial⟩
  funext query params w
  simp only [storage.txRunner.Exec]
  cases (tx.ExecContext query params w).1 <;> rfl

/-- C21: `WithTx` on a database handle whose begins, commits and rollbacks are
recorded, with a callback whose runs are recorded. If beginning fails, the
callback is never run and the error of the begin is returned. If the callback
returns an error `e`, the transaction is rolled back, never committed, and
exactly `e` is returned whatever the rollback returns. If the callback returns
nil, the transaction is committed exactly once, never rolled back, and the
result of the commit is returned. The recording changes neither the result
nor the state. -/
theorem WithTx_spec {L : Type} (db : storage.DB σ)
    (action : storage.Runner σ → L × σ → Option GoError × (L × σ)) (l : L) (w : σ) :
    let res := storage.SQLLite.WithTx ⟨db.traced⟩ (storage.recorded action) (l, (w, []))
    let base := storage.SQLLite.WithTx ⟨db⟩ action (l, w)
    (res.1 = base.1 ∧ res.2.1 = base.2.1 ∧ res.2.2.1 = base.2.2)
      ∧ match (db.BeginTx w).1 with
        | .error err =>
          res.1 = some err ∧ res.2.1 = l ∧ res.2.2.2 = [.Begin]
        | .ok tx =>
          match (action (storage.txRunner tx) (l, (db.BeginTx w).2)).1 with
          | some e =>
            res.1 = some e ∧ res.2.2.2 = [.Begin, .Action, .Rollback]
          | none =>
            res.1 = (tx.Commit (action (storage.txRunner tx) (l, (db.BeginTx w).2)).2.2).1
              ∧ res.2.2.2 = [.Begin, .Action, .Commit] := by
  simp only [storage.SQLLite.WithTx, storage.DB.traced]
  cases hb : (db.BeginTx w).1 with
  | error err => simp
  | ok tx =>
    simp only [storage.recorded, txRunner_untraced]
    cases ha : (action (storage.txRunner tx) (l, (db.BeginTx w).2)).1 with
    | some e => simp [storage.Tx.traced]
    | none => simp [storage.Tx.traced]

/-! ## The id that `Exec` reports on the two runners -/

/-- On a driver result that reports `n` affected rows and last insert id `k`
without error, `qRunner.Exec` yields `Err() = nil`, `Affected() = n` and
`ID() = k`, while `txRunner.Exec` yields `Err() = nil`, `Affected() = n` and
`ID() = 0`: it never reads `LastInsertId`. -/
theorem Exec_on_driver_result (db : storage.DB σ) (tx : storage.Tx σ) (query : String)
    (params : List storage.Value) (w : σ) (n k : Int)
    (hq : (db.ExecContext query params w).1 = .ok ⟨(n, none), (k, none)⟩)
    (ht : (tx.ExecContext query params w).1 = .ok ⟨(n, none), (k, none)⟩) :
    ((storage.qRunner db).Exec query params w).1 = ⟨n, k, none⟩
      ∧ ((storage.txRunner tx).Exec query params w).1 = ⟨n, 0, none⟩ := by
  simp [storage.qRunner, storage.txRunner, storage.qRunner.Exec, storage.txRunner.Exec, hq, ht]

/-- C22, the code at the failing input. On the empty table the insert of
`Repo.Persist` makes the engine report one affected row and last insert id 1.
Through `qRunner` the result has `Err() = nil`, `Affected() = 1`, `ID() = 1`
and `Persist` inside `WithoutTx` returns id 1. Through `txRunner` the result
has `Err() = nil`, `Affected() = 1`, `ID() = 0` and `Persist` inside `WithTx`
returns id 0, while the row it stored and committed has id 1. -/
theorem Persist_id_inside_WithTx :
    ((sqlite.exec storage.shorten.persistQuery
        [.text "https://example.com", .text "12345", .integer 1700000000]
        sqlite.World.start).1.toOption.map (fun r => (r.RowsAffected, r.LastInsertId))
        = some ((1, none), (1, none)))
    ∧ ((storage.qRunner sqlite.db).Exec storage.shorten.persistQuery
          [.text "https://example.com", .text "12345", .integer 1700000000]
          sqlite.World.start).1
        = ⟨1, 1, none⟩
    ∧ (storage.execResult.mk 1 1 none).Err = none
    ∧ (storage.execResult.mk 1 1 none).Affected = 1
    ∧ (storage.execResult.mk 1 1 none).ID = 1
    ∧ ((storage.txRunner sqlite.tx).Exec storage.shorten.persistQuery
          [.text "https://example.com", .text "12345", .integer 1700000000]
          sqlite.World.start).1
        = ⟨1, 0, none⟩
    ∧ (storage.execResult.mk 1 0 none).Err = none
    ∧ (storage.execResult.mk 1 0 none).Affected = 1
    ∧ (storage.execResult.mk 1 0 none).ID = 0
    ∧ (storage.SQLLite.WithoutTx ⟨sqlite.db⟩
          (storage.shorten.persistUnit sqlite.timeNow
            ⟨0, "https://example.com", "12345", Time.zero⟩)
          (0, sqlite.World.start)).1 = none
    ∧ (storage.SQLLite.WithoutTx ⟨sqlite.db⟩
          (storage.shorten.persistUnit sqlite.timeNow
            ⟨0, "https://example.com", "12345", Time.zero⟩)
          (0, sqlite.World.start)).2.1 = 1
    ∧ (storage.SQLLite.WithoutTx ⟨sqlite.db⟩
          (storage.shorten.persistUnit sqlite.timeNow
            ⟨0, "https://example.com", "12345", Time.zero⟩)
          (0, sqlite.World.start)).2.2.rows
        = [⟨1, "https://example.com", "12345", 1700000000⟩]
    ∧ (storage.SQLLite.WithTx ⟨sqlite.db⟩
          (storage.shorten.persistUnit sqlite.timeNow
            ⟨0, "https://example.com", "12345", Time.zero⟩)
          (0, sqlite.World.start)).1 = none
    ∧ (storage.SQLLite.WithTx ⟨sqlite.db⟩
          (storage.shorten.persistUnit sqlite.timeNow
            ⟨0, "https://example.com", "12345", Time.zero⟩)
          (0, sqlite.World.start)).2.1 = 0
    ∧ (storage.SQLLite.WithTx ⟨sqlite.db⟩
          (storage.shorten.persistUnit sqlite.timeNow
            ⟨0, "https://example.com", "12345", Time.zero⟩)
          (0, sqlite.World.start)).2.2.rows
        = [⟨1, "https://example.com", "12345", 1700000000⟩] := by
  decide

/-! ## Units of work -/

/-- A recorded `WithoutTx` of a transactioner that runs its callback directly
records the invocation and runs the callback. -/
theorem observed_WithoutTx (s : Service ρ σ) (r : ρ) (hTr : s.tr.RunsDirectly r) {L : Type}
    (f : ρ → L × (σ × Events) → Option GoError × (L × (σ × Events)))
    (l : L) (w : σ) (log : Events) :
    s.observed.tr.WithoutTx f (l, (w, log)) = f r (l, (w, log ++ [.WithoutTx])) := by
  simp only [Service.observed, Transactioner.observed]
  rw [hTr]

/-- C28: on a service whose transactioner runs its callback, with the
invocations of the transactioner and the calls to the storage recorded from an
empty record. `Get`, `Delete`, `List` with a limit of at least 1 and an offset
of at least 0, `Resolve` of a hash that is not blank and `Create` of a url that
is not blank without a hash each invoke `WithoutTx` exactly once, first of
all, and never `WithTx`; what follows are the storage calls of the one unit of
work, made once whatever they return. `Create` of a blank url or with a hash,
`List` with a limit below 1 or a negative offset and `Resolve` of a blank hash
return a `BadInput` error with an empty record and the state unchanged, on
every service `s'`, whatever its collaborators. And on every service, whatever
its transactioner does, no operation depends on `WithTx`: with the `WithTx` of
any other transactioner in its place every operation returns the same. -/
theorem units_of_work (s : Service ρ σ) (r : ρ) (hTr : s.tr.RunsDirectly r) (w : σ) :
    (∀ id, (s.observed.Get id (w, [])).2.2 = [.WithoutTx, .Storage (.Retrieve id)])
      ∧ (∀ id, (s.observed.Delete id (w, [])).2.2 = [.WithoutTx, .Storage (.Delete id)])
      ∧ (∀ pager : storage.shorten.Pager, 1 ≤ pager.Limit → 0 ≤ pager.Offset →
          (s.observed.List pager (w, [])).2.2 = [.WithoutTx, .Storage (.List pager)])
      ∧ (∀ hash, ¬ Blank hash →
          (s.observed.Resolve hash (w, [])).2.2 = [.WithoutTx, .Storage (.ByHash hash)])
      ∧ (∀ short : shorten.Entity, ¬ Blank short.URL → Blank short.Hash →
          (s.observed.Create short (w, [])).2.2
              = [.WithoutTx, .Storage (.ByHash (computeHash short.URL))]
            ∨ ∃ now, (s.observed.Create short (w, [])).2.2
              = [.WithoutTx, .Storage (.ByHash (computeHash short.URL)),
                  .Storage (.Persist ⟨0, short.URL, computeHash short.URL, now⟩)])
      ∧ (∀ (s' : Service ρ σ) (short : shorten.Entity), Blank short.URL ∨ ¬ Blank short.Hash →
          errorsIs (s'.observed.Create short (w, [])).1.2 ErrBadInput = true
            ∧ (s'.observed.Create short (w, [])).2 = (w, [])
            ∧ (s'.Create short w).2 = w)
      ∧ (∀ (s' : Service ρ σ) (pager : storage.shorten.Pager),
          pager.Limit < 1 ∨ pager.Offset < 0 →
          errorsIs (s'.observed.List pager (w, [])).1.2 ErrBadInput = true
            ∧ (s'.observed.List pager (w, [])).2 = (w, [])
            ∧ (s'.List pager w).2 = w)
      ∧ (∀ (s' : Service ρ σ) (hash : String), Blank hash →
          errorsIs (s'.observed.Resolve hash (w, [])).1.2 ErrBadInput = true
            ∧ (s'.observed.Resolve hash (w, [])).2 = (w, [])
            ∧ (s'.Resolve hash w).2 = w)
      ∧ (∀ (s' : Service ρ σ) (tr' : Transactioner ρ σ),
          (∀ short, (Service.mk ⟨tr'.WithTx, s'.tr.WithoutTx⟩ s'.storage s'.timeNow).Create
              short w = s'.Create short w)
            ∧ (∀ id, (Service.mk ⟨tr'.WithTx, s'.tr.WithoutTx⟩ s'.storage s'.timeNow).Get
              id w = s'.Get id w)
            ∧ (∀ pager, (Service.mk ⟨tr'.WithTx, s'.tr.WithoutTx⟩ s'.storage s'.timeNow).List
              pager w = s'.List pager w)
            ∧ (∀ id, (Service.mk ⟨tr'.WithTx, s'.tr.WithoutTx⟩ s'.storage s'.timeNow).Delete
              id w = s'.Delete id w)
            ∧ (∀ hash, (Service.mk ⟨tr'.WithTx, s'.tr.WithoutTx⟩ s'.storage s'.timeNow).Resolve
              hash w = s'.Resolve hash w)) := by
  refine ⟨?_, ?_, ?_, ?_, ?_, ?_, ?_, ?_, ?_⟩
  · intro id
    simp only [Service.Get]
    rw [observed_WithoutTx s r hTr]
    simp only [Service.observed, Storage.observed]
    split <;> simp
  · intro id
    simp only [Service.Delete]
    rw [observed_WithoutTx s r hTr]
    simp only [Service.observed, Storage.observed]
    split <;> simp
  · intro pager hl ho
    simp only [Service.List]
    rw [if_neg (by omega), if_neg (by omega), observed_WithoutTx s r hTr]
    simp only [Service.observed, Storage.observed]
    split <;> split <;> simp_all
  · intro hash hb
    simp only [Service.Resolve, isNotBlank_of_not_blank hash "hash" hb]
    rw [observed_WithoutTx s r hTr]
    simp only [Service.observed, Storage.observed]
    split <;> split <;> simp_all
  · intro short hu hh
    simp only [Service.Create, isNotBlank_of_not_blank short.URL "url" hu]
    rw [if_neg (fun hne => hne ((TrimSpace_eq_empty_iff _).mpr hh)),
      observed_WithoutTx s r hTr]
    simp only [Service.observed, Storage.observed]
    cases hf : (s.storage.ByHash r (computeHash short.URL) w).1.2 with
    | none => left; simp
    | some err =>
      cases hnf : errorsIs (some err) ErrNotFound with
      | false => left; simp [hnf]
      | true =>
        right
        refine ⟨(s.timeNow (s.storage.ByHash r (computeHash short.URL) w).2).1, ?_⟩
        simp only [hnf, Bool.not_true, Bool.false_eq_true, if_false]
        split <;> simp
  · intro s' short hv
    by_cases hu : Blank short.URL
    · rw [Create_of_blank_url _ _ _ hu, Create_of_blank_url _ _ _ hu]
      exact ⟨errorsIs_validation _, rfl, rfl⟩
    · have hh : ¬ Blank short.Hash := hv.resolve_left hu
      rw [Create_of_supplied_hash _ _ _ hu hh, Create_of_supplied_hash _ _ _ hu hh]
      exact ⟨errorsIs_validation _, rfl, rfl⟩
  · intro s' pager hv
    simp only [Service.List]
    by_cases hl : pager.Limit < 1
    · rw [if_pos hl, if_pos hl]
      exact ⟨errorsIs_validation _, rfl, rfl⟩
    · have ho : pager.Offset < 0 := hv.resolve_left hl
      rw [if_neg hl, if_pos ho, if_neg hl, if_pos ho]
      exact ⟨errorsIs_validation _, rfl, rfl⟩
  · intro s' hash hb
    unfold Service.Resolve
    rw [isNotBlank_of_blank hash "hash" hb]
    exact ⟨errorsIs_validation _, rfl, rfl⟩
  · intro s' tr'
    exact ⟨fun _ => rfl, fun _ => rfl, fun _ => rfl, fun _ => rfl, fun _ => rfl⟩

/-- Witness for C28: on the model store, `Get`, a valid `List` and a
`Resolve` each make one unit of work outside a transaction, and `Create` of a
blank url leaves the record empty and the store as it was. -/
theorem units_of_work_witness :
    modelService.tr.RunsDirectly (storage.qRunner sqlite.db)
      ∧ (modelService.observed.Get 1 (sqlite.World.start, [])).2.2
          = [.WithoutTx, .Storage (.Retrieve 1)]
      ∧ (modelService.observed.List ⟨50, 0⟩ (sqlite.World.start, [])).2.2
          = [.WithoutTx, .Storage (.List ⟨50, 0⟩)]
      ∧ (modelService.observed.Resolve "8ffdefb" (sqlite.World.start, [])).2.2
          = [.WithoutTx, .Storage (.ByHash "8ffdefb")]
      ∧ (modelService.observed.Create ⟨0, " ", ""⟩ (sqlite.World.start, [])).2
          = (sqlite.World.start, []) :=
  ⟨sqlLiteTransactioner_RunsDirectly _,
    (units_of_work modelService _ (sqlLiteTransactioner_RunsDirectly _)
      sqlite.World.start).1 1,
    (units_of_work modelService _ (sqlLiteTransactioner_RunsDirectly _)
      sqlite.World.start).2.2.1 ⟨50, 0⟩ (by decide) (by decide),
    (units_of_work modelService _ (sqlLiteTransactioner_RunsDirectly _)
      sqlite.World.start).2.2.2.1 "8ffdefb" (by decide),
    ((units_of_work modelService _ (sqlLiteTransactioner_RunsDirectly _)
      sqlite.World.start).2.2.2.2.2.1 modelService ⟨0, " ", ""⟩ (Or.inl (by decide))).2.1⟩

/-! ## The invariant of the model store -/

/-- The largest id of a table is at least the starting value and every id. -/
theorem foldl_max_id (rows : List sqlite.Row) (m : Int) :
    m ≤ rows.foldl (fun m x => max m x.id) m
      ∧ ∀ r ∈ rows, r.id ≤ rows.foldl (fun m x => max m x.id) m := by
  induction rows generalizing m with
  | nil => exact ⟨le_refl _, fun r hr => by cases hr⟩
  | cons a t ih =>
    simp only [List.foldl_cons]
    refine ⟨le_trans (le_max_left _ _) (ih (max m a.id)).1, ?_⟩
    intro r hr
    rcases List.mem_cons.mp hr with h | h
    · rw [h]
      exact le_trans (le_max_right _ _) (ih (max m a.id)).1
    · exact (ih (max m a.id)).2 r h

/-- The next row id is above every id in use. -/
theorem lt_nextId (rows : List sqlite.Row) : ∀ r ∈ rows, r.id < sqlite.nextId rows := by
  intro r hr
  cases rows with
  | nil => cases hr
  | cons a t =>
    simp only [sqlite.nextId]
    rcases List.mem_cons.mp hr with h | h
    · rw [h]
      have := (foldl_max_id t a.id).1
      omega
    · have := (foldl_max_id t a.id).2 r h
      omega

/-- Removing rows keeps the invariant. -/
theorem StoreInvariant_filter (rows : List sqlite.Row) (p : sqlite.Row → Bool)
    (h : StoreInvariant rows) : StoreInvariant (rows.filter p) :=
  ⟨h.1.sublist ((List.filter_sublist rows).map _),
    h.2.1.sublist ((List.filter_sublist rows).map _),
    fun r hr => h.2.2 r (List.mem_of_mem_filter hr)⟩

/-- Appending a row with the next id, a url that is not blank and its hash,
which no row has yet, keeps the invariant. -/
theorem StoreInvariant_append (rows : List sqlite.Row) (url : String) (t : Int)
    (h : StoreInvariant rows) (hurl : ¬ Blank url)
    (hnew : rows.any (fun r => r.hash == computeHash url) = false) :
    StoreInvariant (rows ++ [⟨sqlite.nextId rows, url, computeHash url, t⟩]) := by
  refine ⟨?_, ?_, ?_⟩
  · rw [List.map_append, List.nodup_append]
    refine ⟨h.1, List.nodup_singleton _, ?_⟩
    intro a ha hb
    simp only [List.map_cons, List.map_nil, List.mem_singleton] at hb
    obtain ⟨r, hr, hra⟩ := List.mem_map.mp ha
    have := lt_nextId rows r hr
    rw [hra, hb] at this
    omega
  · rw [List.map_append, List.nodup_append]
    refine ⟨h.2.1, List.nodup_singleton _, ?_⟩
    intro a ha hb
    simp only [List.map_cons, List.map_nil, List.mem_singleton] at hb
    obtain ⟨r, hr, hra⟩ := List.mem_map.mp ha
    have hany : rows.any (fun r => r.hash == computeHash url) = true :=
      List.any_eq_true.mpr ⟨r, hr, by rw [beq_iff_eq, hra, hb]⟩
    rw [hnew] at hany
    cases hany
  · intro r hr
    rcases List.mem_append.mp hr with h' | h'
    · exact h.2.2 r h'
    · rw [List.mem_singleton] at h'
      rw [h']
      exact ⟨hurl, rfl⟩

/-- A validation error caused by `ErrBadInput` is not `ErrNotUnique`. -/
theorem validation_not_unique (details : List (String × String)) :
    errorsIs (some (.ValidationError ErrBadInput details)) ErrNotUnique = false := by
  simp [errorsIs, GoError.is, ErrBadInput, ErrNotUnique, GoError.comparable]

open sqlite storage in
/-- On the model store, an operation keeps the invariant of the table and
does not fail with `NotUnique`. -/
theorem runOp_invariant (op : Op) (w : World) (h : StoreInvariant w.rows) :
    StoreInvariant (runOp modelService op w).2.rows
      ∧ errorsIs (runOp modelService op w).1 ErrNotUnique = false := by
  cases op with
  | Create short =>
    simp only [runOp]
    by_cases hu : Blank short.URL
    · rw [Create_of_blank_url _ _ _ hu]
      exact ⟨h, validation_not_unique _⟩
    · by_cases hh : Blank short.Hash
      · rw [model_Create short w hu hh]
        cases hf : w.rows.find? (fun r => r.hash == computeHash short.URL) with
        | some row => exact ⟨h, rfl⟩
        | none =>
          have hany : w.rows.any (fun r => r.hash == computeHash short.URL) = false := by
            rw [Bool.eq_false_iff]
            intro ht
            obtain ⟨r, hr, hrh⟩ := List.any_eq_true.mp ht
            exact (List.find?_eq_none.mp hf r hr) hrh
          have hrows : (timeNow w).2.rows = w.rows := rfl
          simp only
          rw [model_Persist, hrows]
          simp only
          by_cases h1 : sqlLength short.URL = 0 ∨ sqlLength (computeHash short.URL) = 0
          · simp only [if_pos h1]
            refine ⟨h, ?_⟩
            unfold ErrNotUnique
            rw [errorsIs_wrapError_sentinel, errorsIs_wrapError_sentinel,
              errorsIs_wrapErrorV_sentinel]
            decide
          · simp only [if_neg h1, hany, Bool.false_eq_true, if_false]
            by_cases h3 : maxRowId < nextId w.rows
            · simp only [if_pos h3]
              refine ⟨h, ?_⟩
              unfold ErrNotUnique
              rw [errorsIs_wrapError_sentinel, errorsIs_wrapError_sentinel]
              decide
            · simp only [if_neg h3]
              exact ⟨StoreInvariant_append w.rows short.URL _ h hu hany, rfl⟩
      · rw [Create_of_supplied_hash _ _ _ hu hh]
        exact ⟨h, validation_not_unique _⟩
  | Get id =>
    simp only [runOp]
    rw [Get_eq modelService (qRunner db) (sqlLiteTransactioner_RunsDirectly _), model_Retrieve]
    cases w.rows.find? (fun r => r.id == id) with
    | some row => exact ⟨h, rfl⟩
    | none =>
      refine ⟨h, ?_⟩
      simp only
      unfold ErrNotUnique
      rw [errorsIs_wrapError_sentinel, errorsIs_wrapError_sentinel]
      decide
  | List pager =>
    simp only [runOp]
    by_cases hl : pager.Limit < 1
    · simp only [Service.List, if_pos hl]
      exact ⟨h, validation_not_unique _⟩
    · by_cases ho : pager.Offset < 0
      · simp only [Service.List, if_neg hl, if_pos ho]
        exact ⟨h, validation_not_unique _⟩
      · rw [model_Service_List pager w (by omega) (by omega)]
        exact ⟨h, rfl⟩
  | Delete id =>
    simp only [runOp]
    rw [Delete_eq modelService (qRunner db) (sqlLiteTransactioner_RunsDirectly _), model_Delete]
    split
    · rename_i err herr
      refine ⟨StoreInvariant_filter _ _ h, ?_⟩
      simp only
      unfold ErrNotUnique
      rw [errorsIs_wrapError_sentinel]
      split at herr
      · cases herr
      · rw [← Option.some.inj herr]
        decide
    · exact ⟨StoreInvariant_filter _ _ h, rfl⟩
  | Resolve hash =>
    simp only [runOp]
    by_cases hb : Blank hash
    · simp only [Service.Resolve, isNotBlank_of_blank hash "hash" hb]
      exact ⟨h, validation_not_unique _⟩
    · rw [Resolve_eq modelService (qRunner db) (sqlLiteTransactioner_RunsDirectly _) hash w hb,
        model_ByHash]
      cases w.rows.find? (fun r => r.hash == hash) with
      | some row => exact ⟨h, rfl⟩
      | none =>
        refine ⟨h, ?_⟩
        simp only
        unfold ErrNotUnique
        rw [errorsIs_wrapError_sentinel, errorsIs_wrapError_sentinel]
        decide

/-- On the model store, operations run one after another keep the invariant
of the table, and none of them fails with `NotUnique`. -/
theorem runOps_invariant (ops : List Op) (w : sqlite.World) (h : StoreInvariant w.rows) :
    StoreInvariant (runOps modelService ops w).2.rows
      ∧ ∀ e ∈ (runOps modelService ops w).1, errorsIs e ErrNotUnique = false := by
  induction ops generalizing w with
  | nil => exact ⟨h, fun e he => by cases he⟩
  | cons op ops ih =>
    simp only [runOps]
    have hstep := runOp_invariant op w h
    refine ⟨(ih _ hstep.1).1, ?_⟩
    intro e he
    rcases List.mem_cons.mp he with h1 | h1
    · rw [h1]
      exact hstep.2
    · exact (ih _ hstep.1).2 e h1

/-- C25: the service of the program on the model of the table with its
constraints, started on an empty table. After any number `n` of the operations
of any finite sequence of `Create`, `Get`, `List`, `Delete` and `Resolve` calls
run one after another, the ids of the rows are pairwise distinct, the hashes
are pairwise distinct, and every row has a url that is not blank and the hash
`computeHash` gives for that url; and no operation of the sequence, so no
`Create`, fails with `NotUnique`. -/
theorem store_invariant (ops : List Op) (w : sqlite.World) (hw : w.rows = []) :
    (∀ n : Nat,
        ((runOps modelService (ops.take n) w).2.rows.map (fun r => r.id)).Nodup
          ∧ ((runOps modelService (ops.take n) w).2.rows.map (fun r => r.hash)).Nodup
          ∧ ∀ r ∈ (runOps modelService (ops.take n) w).2.rows,
              ¬ Blank r.url ∧ r.hash = computeHash r.url)
      ∧ (runOps modelService ops w).1.length = ops.length
      ∧ ∀ e ∈ (runOps modelService ops w).1, errorsIs e ErrNotUnique = false := by
  have h0 : StoreInvariant w.rows := by
    rw [hw]
    exact ⟨List.nodup_nil, List.nodup_nil, fun r hr => by cases hr⟩
  refine ⟨fun n => (runOps_invariant (ops.take n) w h0).1, ?_, (runOps_invariant ops w h0).2⟩
  clear h0 hw
  induction ops generalizing w with
  | nil => rfl
  | cons op ops ih =>
    simp only [runOps, List.length_cons]
    rw [ih]

/-- Witness for C25: on the empty model store, create two urls, the first
one twice, delete the first row, read, list and resolve, and create the first
url again. -/
theorem store_invariant_witness :
    sqlite.World.start.rows = []
      ∧ (runOps modelService
          [.Create ⟨0, "https://www.google.com", ""⟩, .Create ⟨0, "https://www.google.com", ""⟩,
            .Create ⟨0, "https://example.com", ""⟩, .Delete 1, .Get 2, .List ⟨50, 0⟩,
            .Resolve "8ffdefb", .Create ⟨0, "https://www.google.com", ""⟩]
          sqlite.World.start).2.rows
        = [⟨2, "https://example.com", "c984d06", 1700000003⟩,
            ⟨3, "https://www.google.com", "8ffdefb", 1700000005⟩]
      ∧ ((runOps modelService
          ([.Create ⟨0, "https://www.google.com", ""⟩, .Create ⟨0, "https://www.google.com", ""⟩,
            .Create ⟨0, "https://example.com", ""⟩, .Delete 1, .Get 2, .List ⟨50, 0⟩,
            .Resolve "8ffdefb", .Create ⟨0, "https://www.google.com", ""⟩].take 8)
          sqlite.World.start).2.rows.map (fun r => r.hash)).Nodup :=
  ⟨rfl, by decide,
    ((store_invariant
      [.Create ⟨0, "https://www.google.com", ""⟩, .Create ⟨0, "https://www.google.com", ""⟩,
        .Create ⟨0, "https://example.com", ""⟩, .Delete 1, .Get 2, .List ⟨50, 0⟩,
        .Resolve "8ffdefb", .Create ⟨0, "https://www.google.com", ""⟩]
      sqlite.World.start rfl).1 8).2.1⟩

/-! ## `WriteError`: the status code and the body -/

open http webhttp in
/-- `ErrorResponse.Write` on a response to which nothing is sent yet: the
status code, the headers as they were, and the encoded text of the cause, if
there is one, appended to the body. -/
theorem ErrorResponse_Write_fresh (q : Rendering) (lib : Lib) (code : Nat)
    (cause : Option GoError) (w : Response) (hw : w.Code = 0) (hcode : code ≠ 0) :
    ErrorResponse.Write q lib ⟨code, cause⟩ w
      = ⟨code, w.Header,
          w.Body ++ (match cause with
            | none => ""
            | some cause => lib.encodeString (cause.Error q))⟩ := by
  cases cause with
  | none =>
    simp [ErrorResponse.Write, Response.WriteHeader, hw]
  | some cause =>
    simp [ErrorResponse.Write, Response.WriteHeader, hw, Encode, Response.Write, hcode]

open http webhttp in
/-- C23: `WriteError` on a response to which nothing is sent yet sends exactly
one status code: 400 if the error is `ErrBadInput`, otherwise 409 if it is
`ErrNotUnique`, otherwise 404 if it is `ErrNotFound`, otherwise 500. The body
gets the text of the error, as `Encode` writes it, when the logger is in debug
mode, and nothing when it is not. The validation errors of `Create`, `List` and
`Resolve` map to 400, on every service. -/
theorem WriteError_spec (q : Rendering) (lib : Lib) (debug : Bool) (err : GoError)
    (w : Response) (hw : w.Code = 0) :
    (WriteError q lib debug (some err) w).Code
        = (if errorsIs (some err) ErrBadInput = true then 400
          else if errorsIs (some err) ErrNotUnique = true then 409
          else if errorsIs (some err) ErrNotFound = true then 404
          else 500)
      ∧ (WriteError q lib debug (some err) w).Body
        = w.Body ++ (if debug = true then lib.encodeString (err.Error q) else "")
      ∧ (WriteError q lib debug (some err) w).Header = w.Header
      ∧ (∀ (s : Service ρ σ) (short : shorten.Entity) (st : σ),
          Blank short.URL ∨ ¬ Blank short.Hash →
          (WriteError q lib debug (s.Create short st).1.2 w).Code = 400)
      ∧ (∀ (s : Service ρ σ) (pager : storage.shorten.Pager) (st : σ),
          pager.Limit < 1 ∨ pager.Offset < 0 →
          (WriteError q lib debug (s.List pager st).1.2 w).Code = 400)
      ∧ (∀ (s : Service ρ σ) (hash : String) (st : σ), Blank hash →
          (WriteError q lib debug (s.Resolve hash st).1.2 w).Code = 400) := by
  have hval : ∀ details : List (String × String),
      (WriteError q lib debug (some (.ValidationError ErrBadInput details)) w).Code = 400 := by
    intro details
    simp only [WriteError, errorsIs_validation, if_true]
    rw [ErrorResponse_Write_fresh q lib _ _ w hw (by decide)]
    rfl
  refine ⟨?_, ?_, ?_, ?_, ?_, ?_⟩
  · simp only [WriteError]
    split_ifs <;> rw [ErrorResponse_Write_fresh q lib _ _ w hw (by decide)] <;> rfl
  · simp only [WriteError]
    split_ifs <;> rw [ErrorResponse_Write_fresh q lib _ _ w hw (by decide)]
  · simp only [WriteError]
    split_ifs <;> rw [ErrorResponse_Write_fresh q lib _ _ w hw (by decide)]
  · intro s short st hv
    by_cases hu : Blank short.URL
    · rw [Create_of_blank_url _ _ _ hu]
      exact hval _
    · rw [Create_of_supplied_hash _ _ _ hu (hv.resolve_left hu)]
      exact hval _
  · intro s pager st hv
    by_cases hl : pager.Limit < 1
    · simp only [Service.List, if_pos hl]
      exact hval _
    · simp only [Service.List, if_neg hl, if_pos (hv.resolve_left hl)]
      exact hval _
  · intro s hash st hb
    simp only [Service.Resolve, isNotBlank_of_blank hash "hash" hb]
    exact hval _

open http webhttp in
/-- Witness for C23: an error of the storage that is `ErrNotFound`, written in
debug mode and not in debug mode, and the validation error of a blank url. -/
theorem WriteError_spec_witness :
    Response.new.Code = 0
      ∧ (WriteError Rendering.sample Lib.sample true
          (some (.wrapError "retrieve single: %w" [] ErrNotFound)) Response.new).Code = 404
      ∧ (WriteError Rendering.sample Lib.sample true
          (some (.wrapError "retrieve single: %w" [] ErrNotFound)) Response.new).Body
        = "\"retrieve single: not found\"\n"
      ∧ (WriteError Rendering.sample Lib.sample false
          (some (.wrapError "retrieve single: %w" [] ErrNotFound)) Response.new).Body = ""
      ∧ (WriteError Rendering.sample Lib.sample false
          (modelService.Create ⟨0, " ", ""⟩ sqlite.World.start).1.2 Response.new).Code = 400 :=
  ⟨rfl,
    (@WriteError_spec Unit Unit Rendering.sample Lib.sample true
      (.wrapError "retrieve single: %w" [] ErrNotFound) Response.new rfl).1,
    (@WriteError_spec Unit Unit Rendering.sample Lib.sample true
      (.wrapError "retrieve single: %w" [] ErrNotFound) Response.new rfl).2.1,
    (@WriteError_spec Unit Unit Rendering.sample Lib.sample false
      (.wrapError "retrieve single: %w" [] ErrNotFound) Response.new rfl).2.1,
    (WriteError_spec Rendering.sample Lib.sample false ErrNotFound Response.new rfl).2.2.2.1
      modelService ⟨0, " ", ""⟩ sqlite.World.start (Or.inl (by decide))⟩

/-! ## The handler of `POST /api/shorten` -/

open http in
/-- A header that is set on a response to which nothing is sent yet is the
header that is read, also after the status code is sent. -/
theorem Get_Set_WriteHeader (w : Response) (name value : String) (code : Nat)
    (hw : w.Code = 0) :
    ((w.Set name value).WriteHeader code).Get name = value
      ∧ ((w.Set name value).WriteHeader code).Code = code := by
  simp only [Response.Set, Response.WriteHeader, Response.Get, hw, if_true, lookup]
  refine ⟨?_, trivial⟩
  rw [List.find?_append]
  have hnone : (w.Header.filter (fun kv => kv.1 ≠ headerKey name)).find?
      (fun kv => kv.1 = headerKey name) = none := by
    rw [List.find?_eq_none]
    intro kv hkv
    have := (List.mem_filter.mp hkv).2
    simpa using this
  rw [hnone]
  simp

open http webhttp in
/-- C26: the handler of `POST /api/shorten`, on a response to which nothing is
sent yet and a request body that decodes to `req`. The service is called
once, with the entity whose `URL` is the url of the request and whose `ID` and
`Hash` are the zero values; and for every id the service returns without
error, the response has status 201 and the header `location` is
`/api/shorten/` followed by the decimal digits of the id. -/
theorem Create_handler_spec (q : Rendering) (lib : Lib) (debug : Bool)
    (svc : ShortenService σ) (r : Request) (w : Response) (st : σ) (req : CreateShortenReq)
    (hw : w.Code = 0) (hdec : lib.decodeCreateShortenReq r.Body = (req, none)) :
    (ShortenHandler.Create q lib debug svc.traced r (w, (st, []))).2.2
        = [.Create ⟨0, req.URL, ""⟩]
      ∧ (ShortenHandler.Create q lib debug svc.traced r (w, (st, []))).1
        = (ShortenHandler.Create q lib debug svc r (w, st)).1
      ∧ ∀ id : Int, (svc.Create ⟨0, req.URL, ""⟩ st).1 = (id, none) →
          (ShortenHandler.Create q lib debug svc r (w, st)).1.Code = 201
            ∧ (ShortenHandler.Create q lib debug svc r (w, st)).1.Get "location"
              = "/api/shorten/" ++ strconv.FormatInt id
            ∧ (ShortenHandler.Create q lib debug svc r (w, st)).2
              = (svc.Create ⟨0, req.URL, ""⟩ st).2 := by
  have hd : Decode lib r.Body = (req, none) := by
    simp [Decode, hdec]
  refine ⟨?_, ?_, ?_⟩
  · simp only [ShortenHandler.Create, hd, createShortenReq2Entity, ShortenService.traced]
    split <;> simp
  · simp only [ShortenHandler.Create, hd, createShortenReq2Entity, ShortenService.traced]
    split <;> rfl
  · intro id hid
    simp only [ShortenHandler.Create, hd, createShortenReq2Entity, hid]
    exact ⟨(Get_Set_WriteHeader w _ _ _ hw).2, (Get_Set_WriteHeader w _ _ _ hw).1, trivial⟩

open http webhttp in
/-- Witness for C26: the request of the test of the handler, on the service
of the program with an empty table. -/
theorem Create_handler_spec_witness :
    Response.new.Code = 0
      ∧ (ShortenHandler.Create Rendering.sample Lib.sample false (serviceOf modelService).traced
          ⟨"POST", "/api/shorten", [], [], [("content-type", "application/json")],
            "\x7b\"url\":\"https://example.com\"\x7d"⟩
          (Response.new, (sqlite.World.start, []))).2.2
        = [.Create ⟨0, "https://example.com", ""⟩]
      ∧ (ShortenHandler.Create Rendering.sample Lib.sample false (serviceOf modelService)
          ⟨"POST", "/api/shorten", [], [], [("content-type", "application/json")],
            "\x7b\"url\":\"https://example.com\"\x7d"⟩
          (Response.new, sqlite.World.start)).1.Code = 201
      ∧ (ShortenHandler.Create Rendering.sample Lib.sample false (serviceOf modelService)
          ⟨"POST", "/api/shorten", [], [], [("content-type", "application/json")],
            "\x7b\"url\":\"https://example.com\"\x7d"⟩
          (Response.new, sqlite.World.start)).1.Get "location"
        = "/api/shorten/1" :=
  ⟨rfl,
    (Create_handler_spec Rendering.sample Lib.sample false (serviceOf modelService)
      ⟨"POST", "/api/shorten", [], [], [("content-type", "application/json")],
        "\x7b\"url\":\"https://example.com\"\x7d"⟩
      Response.new sqlite.World.start ⟨"https://example.com"⟩ rfl (by decide)).1,
    ((Create_handler_spec Rendering.sample Lib.sample false (serviceOf modelService)
      ⟨"POST", "/api/shorten", [], [], [("content-type", "application/json")],
        "\x7b\"url\":\"https://example.com\"\x7d"⟩
      Response.new sqlite.World.start ⟨"https://example.com"⟩ rfl (by decide)).2.2 1
        (by decide)).1,
    ((Create_handler_spec Rendering.sample Lib.sample false (serviceOf modelService)
      ⟨"POST", "/api/shorten", [], [], [("content-type", "application/json")],
        "\x7b\"url\":\"https://example.com\"\x7d"⟩
      Response.new sqlite.World.start ⟨"https://example.com"⟩ rfl (by decide)).2.2 1
        (by decide)).2.1⟩

/-! ## The handler of `GET /{hash}` -/

open http in
/-- Escaping leaves a string of ASCII characters as it is. -/
theorem hexEscapeNonASCII_ascii (s : String) (h : ∀ c ∈ s.data, c.toNat < 128) :
    hexEscapeNonASCII s = s := by
  have key : ∀ cs : List Char, (∀ c ∈ cs, c.toNat < 128) →
      cs.flatMap (fun c =>
        if c.toNat < 128 then [c]
        else (String.utf8EncodeChar c).flatMap (fun b => '%' :: escapeDigits b.toNat)) = cs := by
    intro cs
    induction cs with
    | nil => intro _; rfl
    | cons a t ih =>
      intro hcs
      rw [List.flatMap_cons, if_pos (hcs a (List.mem_cons_self _ _)),
        ih (fun c hc => hcs c (List.mem_cons_of_mem _ hc))]
      rfl
  unfold hexEscapeNonASCII
  rw [key s.data h]

open http in
/-- Setting a header keeps the status code. -/
theorem Set_Code (w : Response) (name value : String) : (w.Set name value).Code = w.Code := by
  unfold Response.Set
  split <;> rfl

open http in
/-- A header that is set before anything is sent is the header that is read. -/
theorem Get_Set_same (w : Response) (name name' value : String) (hw : w.Code = 0)
    (hk : headerKey name' = headerKey name) :
    (w.Set name value).Get name' = value := by
  simp only [Response.Set, Response.Get, hw, if_true, lookup, hk]
  rw [List.find?_append]
  have hnone : (w.Header.filter (fun kv => kv.1 ≠ headerKey name)).find?
      (fun kv => kv.1 = headerKey name) = none := by
    rw [List.find?_eq_none]
    intro kv hkv
    have := (List.mem_filter.mp hkv).2
    simpa using this
  rw [hnone]
  simp

/-- Dropping the entries of one name keeps the first entry of another name. -/
theorem find_filter_ne (l : List (String × String)) (k k' : String) (h : k' ≠ k) :
    (l.filter (fun kv => kv.1 ≠ k)).find? (fun kv => kv.1 = k')
      = l.find? (fun kv => kv.1 = k') := by
  induction l with
  | nil => rfl
  | cons a t ih =>
    by_cases ha : a.1 = k
    · have hf : decide (a.1 ≠ k) = false := by simp [ha]
      have hg : decide (a.1 = k') = false := by
        rw [decide_eq_false_iff_not, ha]
        exact fun he => h he.symm
      rw [List.filter_cons, hf, List.find?_cons, hg]
      exact ih
    · have hf : decide (a.1 ≠ k) = true := by simp [ha]
      rw [List.filter_cons, hf]
      simp only [if_true, List.find?_cons]
      cases decide (a.1 = k') with
      | true => rfl
      | false => exact ih

open http in
/-- Setting a header keeps the headers of other names. -/
theorem Get_Set_other (w : Response) (name name' value : String)
    (hk : headerKey name' ≠ headerKey name) :
    (w.Set name value).Get name' = w.Get name' := by
  unfold Response.Set
  split
  · simp only [Response.Get, lookup]
    rw [List.find?_append, find_filter_ne _ _ _ hk]
    have hlast : List.find? (fun kv => decide (kv.1 = headerKey name'))
        [(headerKey name, value)] = none := by
      simp [Ne.symm hk]
    rw [hlast, Option.or_none]
  · rfl

open http in
/-- Sending the status code keeps the headers. -/
theorem Get_WriteHeader (w : Response) (name : String) (code : Nat) :
    (w.WriteHeader code).Get name = w.Get name := by
  unfold Response.WriteHeader
  split <;> rfl

open http in
/-- The first status code sent is the status code of the response. -/
theorem WriteHeader_Code (w : Response) (code : Nat) (hw : w.Code = 0) :
    (w.WriteHeader code).Code = code := by
  simp [Response.WriteHeader, hw]

open http in
/-- Writing to the body keeps the headers, and the status code once sent. -/
theorem Write_keeps (w : Response) (name data : String) (hw : w.Code ≠ 0) :
    (w.Write data).Get name = w.Get name ∧ (w.Write data).Code = w.Code := by
  simp [Response.Write, Response.Get, hw]

open http webhttp in
/-- `Redirect` on a response to which nothing is sent yet: the status code,
and in the header `Location` the escaped URL, which is the URL given when it
has a scheme. -/
theorem Redirect_fresh (lib : Lib) (w : Response) (r : Request) (url : String) (code : Nat)
    (hw : w.Code = 0) (hcode : code ≠ 0) :
    (Redirect lib w r url code).Code = code
      ∧ (Redirect lib w r url code).Get "location"
        = hexEscapeNonASCII
            (if getScheme url = .absent then lib.redirectRelative r.Path url else url) := by
  have hloc : ∀ v : String, (w.Set "Location" v).Get "location" = v :=
    fun v => Get_Set_same w "Location" "location" v hw (by decide)
  have hloc' : ∀ v v' : String,
      ((w.Set "Location" v).Set "Content-Type" v').Get "location" = v := by
    intro v v'
    rw [Get_Set_other _ _ _ _ (by decide)]
    exact hloc v
  have hc : ∀ v : String, (w.Set "Location" v).Code = 0 := fun v => by rw [Set_Code, hw]
  have hc' : ∀ v v' : String, ((w.Set "Location" v).Set "Content-Type" v').Code = 0 :=
    fun v v' => by rw [Set_Code, Set_Code, hw]
  simp only [Redirect]
  split_ifs
  all_goals
    first
    | refine ⟨?_, ?_⟩
      · rw [(Write_keeps _ "location" _ (by rw [WriteHeader_Code _ _ (hc' _ _)]; exact hcode)).2,
          WriteHeader_Code _ _ (hc' _ _)]
      · rw [(Write_keeps _ "location" _ (by rw [WriteHeader_Code _ _ (hc' _ _)]; exact hcode)).1,
          Get_WriteHeader, hloc']
    | refine ⟨?_, ?_⟩
      · rw [(Write_keeps _ "location" _ (by rw [WriteHeader_Code _ _ (hc _)]; exact hcode)).2,
          WriteHeader_Code _ _ (hc _)]
      · rw [(Write_keeps _ "location" _ (by rw [WriteHeader_Code _ _ (hc _)]; exact hcode)).1,
          Get_WriteHeader, hloc]
    | exact ⟨WriteHeader_Code _ _ (hc' _ _), by rw [Get_WriteHeader, hloc']⟩
    | exact ⟨WriteHeader_Code _ _ (hc _), by rw [Get_WriteHeader, hloc]⟩

open http webhttp in
/-- C27, the counterexample. The service of the program stores the url
`https://example.com/é` and `Resolve` returns it for its hash without error,
but the header `location` of the response is `https://example.com/%c3%a9`:
`http.Redirect` escapes the bytes outside ASCII. And for the stored url
`example.com`, which has no scheme, the header is `/example.com`, when
`http.Redirect` resolves it against the path of the request. -/
theorem Resolve_handler_counterexample :
    (modelService.Resolve (computeHash "https://example.com/é")
        (modelService.Create ⟨0, "https://example.com/é", ""⟩ sqlite.World.start).2).1
        = ("https://example.com/é", none)
      ∧ (ResolverHandler.Resolve Rendering.sample Lib.sample false modelService.Resolve
          ⟨"GET", "/" ++ computeHash "https://example.com/é", [],
            [("hash", computeHash "https://example.com/é")], [], ""⟩
          (Response.new,
            (modelService.Create ⟨0, "https://example.com/é", ""⟩ sqlite.World.start).2)).1.Code
        = 307
      ∧ (ResolverHandler.Resolve Rendering.sample Lib.sample false modelService.Resolve
          ⟨"GET", "/" ++ computeHash "https://example.com/é", [],
            [("hash", computeHash "https://example.com/é")], [], ""⟩
          (Response.new,
            (modelService.Create ⟨0, "https://example.com/é", ""⟩
              sqlite.World.start).2)).1.Get "location"
        = "https://example.com/%c3%a9"
      ∧ ("https://example.com/%c3%a9" : String) ≠ "https://example.com/é"
      ∧ (modelService.Resolve (computeHash "example.com")
          (modelService.Create ⟨0, "example.com", ""⟩ sqlite.World.start).2).1
        = ("example.com", none)
      ∧ (ResolverHandler.Resolve Rendering.sample Lib.sample false modelService.Resolve
          ⟨"GET", "/" ++ computeHash "example.com", [],
            [("hash", computeHash "example.com")], [], ""⟩
          (Response.new,
            (modelService.Create ⟨0, "example.com", ""⟩
              sqlite.World.start).2)).1.Get "location"
        = "/example.com" := by
  decide

open http webhttp in
/-- C27, amended: the handler of `GET /{hash}`, on a response to which nothing
is sent yet. For every hash and every url that `Resolve` returns for it without
error, the response has status 307. When the url begins with a scheme, the
header `location` is the url with every byte outside ASCII replaced by `%` and
its two hexadecimal digits; so for a url of ASCII characters with a scheme the
header equals the url, character for character. -/
theorem Resolve_handler_spec (q : Rendering) (lib : Lib) (debug : Bool)
    (resolver : String → σ → (String × Option GoError) × σ) (r : Request) (w : Response)
    (st : σ) (url : String) (hw : w.Code = 0)
    (hres : (resolver (pathParam r "hash") st).1 = (url, none)) :
    (ResolverHandler.Resolve q lib debug resolver r (w, st)).1.Code = 307
      ∧ (getScheme url = .found →
          (ResolverHandler.Resolve q lib debug resolver r (w, st)).1.Get "location"
            = hexEscapeNonASCII url)
      ∧ (getScheme url = .found → (∀ c ∈ url.data, c.toNat < 128) →
          (ResolverHandler.Resolve q lib debug resolver r (w, st)).1.Get "location" = url)
      ∧ (ResolverHandler.Resolve q lib debug resolver r (w, st)).2
          = (resolver (pathParam r "hash") st).2 := by
  have hred := Redirect_fresh lib w r url StatusTemporaryRedirect hw (by decide)
  simp only [ResolverHandler.Resolve, hres]
  refine ⟨hred.1, ?_, ?_, trivial⟩
  · intro hs
    rw [hred.2, if_neg (by rw [hs]; decide)]
  · intro hs hascii
    rw [hred.2, if_neg (by rw [hs]; decide), hexEscapeNonASCII_ascii url hascii]

open http webhttp in
/-- Witness for C27: the request of the test of the handler, for the url
`https://example.com` stored by the service of the program. -/
theorem Resolve_handler_spec_witness :
    Response.new.Code = 0
      ∧ (modelService.Resolve "c984d06"
          (sqlite.World.withRows [⟨1, "https://example.com", "c984d06", 1700000000⟩])).1
        = ("https://example.com", none)
      ∧ getScheme "https://example.com" = .found
      ∧ (ResolverHandler.Resolve Rendering.sample Lib.sample false modelService.Resolve
          ⟨"GET", "/c984d06", [], [("hash", "c984d06")], [], ""⟩
          (Response.new,
            sqlite.World.withRows [⟨1, "https://example.com", "c984d06", 1700000000⟩])).1.Code
        = 307
      ∧ (ResolverHandler.Resolve Rendering.sample Lib.sample false modelService.Resolve
          ⟨"GET", "/c984d06", [], [("hash", "c984d06")], [], ""⟩
          (Response.new,
            sqlite.World.withRows
              [⟨1, "https://example.com", "c984d06", 1700000000⟩])).1.Get "location"
        = "https://example.com" :=
  ⟨rfl, by decide, by decide,
    (Resolve_handler_spec Rendering.sample Lib.sample false modelService.Resolve
      ⟨"GET", "/c984d06", [], [("hash", "c984d06")], [], ""⟩ Response.new
      (sqlite.World.withRows [⟨1, "https://example.com", "c984d06", 1700000000⟩])
      "https://example.com" rfl (by decide)).1,
    (Resolve_handler_spec Rendering.sample Lib.sample false modelService.Resolve
      ⟨"GET", "/c984d06", [], [("hash", "c984d06")], [], ""⟩ Response.new
      (sqlite.World.withRows [⟨1, "https://example.com", "c984d06", 1700000000⟩])
      "https://example.com" rfl (by decide)).2.2.1 (by decide) (by decide)⟩

/-! ## `ParamInt64Opts.parse` and the handler of `GET /api/shorten` -/

/-- The value that the loop of `ParseUint` builds is the value of the digits. -/
theorem foldl_digits (digits : List Char) :
    digits.foldl (fun n c => 10 * n + (c.toNat - 48)) 0
      = Nat.ofDigits 10 ((digits.map (fun c => c.toNat - 48)).reverse) := by
  induction digits using List.reverseRecOn with
  | nil => rfl
  | append_singleton t c ih =>
    rw [List.foldl_append, List.map_append, List.reverse_append]
    simp only [List.foldl_cons, List.foldl_nil, List.map_cons, List.map_nil,
      List.reverse_cons, List.reverse_nil, List.nil_append, List.singleton_append,
      Nat.ofDigits_cons]
    rw [ih]
    ring

/-- The digits of a string of decimal digits have a value. -/
theorem decimalValue_digits (digits : List Char) (hne : digits ≠ [])
    (hd : ∀ c ∈ digits, c.isDigit = true) :
    strconv.decimalValue digits
      = some (Nat.ofDigits 10 ((digits.map (fun c => c.toNat - 48)).reverse)) := by
  unfold strconv.decimalValue
  rw [if_pos ⟨hne, List.all_eq_true.mpr hd⟩, foldl_digits]

/-- A sign is not a digit. -/
theorem sign_not_digit : ('+' : Char).isDigit = false ∧ ('-' : Char).isDigit = false := by
  decide

/-- `ParseInt` returns the number of a base-10 numeral that fits `int64`. -/
theorem ParseInt_of_Numeral (val : String) (n : Int) (h : strconv.Numeral val n)
    (hlo : -2 ^ 63 ≤ n) (hhi : n < 2 ^ 63) :
    strconv.ParseInt val = (n, none) := by
  obtain ⟨digits, hne, hd, h⟩ := h
  have hval := decimalValue_digits digits hne hd
  obtain ⟨c0, t0, hct⟩ := List.exists_cons_of_ne_nil hne
  have hc0 : c0.isDigit = true := hd c0 (by rw [hct]; exact List.mem_cons_self _ _)
  have hp : c0 ≠ '+' := fun he => by rw [he, sign_not_digit.1] at hc0; cases hc0
  have hm : c0 ≠ '-' := fun he => by rw [he, sign_not_digit.2] at hc0; cases hc0
  rcases h with ⟨hv | hv, hn⟩ | ⟨hv, hn⟩
  · have hun : ¬ (2 ^ 63 ≤ Nat.ofDigits 10 ((digits.map (fun c => c.toNat - 48)).reverse)) := by
      rw [hn] at hhi
      omega
    unfold strconv.ParseInt
    rw [hv, hct]
    simp only
    rw [if_neg (by simp [hp, hm]), ← hct, hval]
    simp only
    rw [if_neg (fun h => hun h.2), if_neg (fun h => hm h.1), if_neg hm, hn]
  · have hun : ¬ (2 ^ 63 ≤ Nat.ofDigits 10 ((digits.map (fun c => c.toNat - 48)).reverse)) := by
      rw [hn] at hhi
      omega
    have hpm : ('+' : Char) ≠ '-' := by decide
    unfold strconv.ParseInt
    rw [hv]
    simp only [true_or, if_true, hval]
    rw [if_neg (fun h => hun h.2), if_neg (fun h => hpm h.1), if_neg hpm, hn]
  · have hun : ¬ (2 ^ 63 < Nat.ofDigits 10 ((digits.map (fun c => c.toNat - 48)).reverse)) := by
      rw [hn] at hlo
      omega
    unfold strconv.ParseInt
    rw [hv]
    simp only [or_true, if_true, hval]
    rw [if_neg (fun h => h.1 rfl), if_neg (fun h => hun h.2), hn]

/-- A string with a value is a string of decimal digits, and the value is
theirs. -/
theorem decimalValue_some (digits : List Char) (un : Nat)
    (h : strconv.decimalValue digits = some un) :
    digits ≠ [] ∧ (∀ c ∈ digits, c.isDigit = true)
      ∧ un = Nat.ofDigits 10 ((digits.map (fun c => c.toNat - 48)).reverse) := by
  unfold strconv.decimalValue at h
  split at h
  · rename_i hc
    refine ⟨hc.1, List.all_eq_true.mp hc.2, ?_⟩
    rw [← foldl_digits]
    exact (Option.some.inj h).symm
  · cases h

/-- What `ParseInt` returns without an error is the number of the base-10
numeral it was given, and fits `int64`. -/
theorem Numeral_of_ParseInt (val : String) (h : (strconv.ParseInt val).2 = none) :
    strconv.Numeral val (strconv.ParseInt val).1
      ∧ -2 ^ 63 ≤ (strconv.ParseInt val).1 ∧ (strconv.ParseInt val).1 < 2 ^ 63 := by
  unfold strconv.ParseInt at h ⊢
  cases hv : val.data with
  | nil => rw [hv] at h; cases h
  | cons c rest =>
    rw [hv] at h
    simp only at h ⊢
    cases hdv : strconv.decimalValue (if c = '+' ∨ c = '-' then rest else c :: rest) with
    | none => rw [hdv] at h; cases h
    | some un =>
      rw [hdv] at h
      simp only at h ⊢
      obtain ⟨hne, hd, hun⟩ := decimalValue_some _ _ hdv
      by_cases hm : c = '-'
      · by_cases hr : 2 ^ 63 < un
        · rw [if_neg (fun x => x.1 hm), if_pos ⟨hm, hr⟩] at h
          cases h
        · rw [if_neg (fun x => x.1 hm), if_neg (fun x => hr x.2), if_pos hm]
          rw [if_pos (Or.inr hm)] at hne hd hun
          refine ⟨⟨rest, hne, hd, Or.inr ⟨by rw [hv, hm], by rw [hun]⟩⟩, by omega, by omega⟩
      · by_cases hr : 2 ^ 63 ≤ un
        · rw [if_pos ⟨hm, hr⟩] at h
          cases h
        · rw [if_neg (fun x => hr x.2), if_neg (fun x => hm x.1), if_neg hm]
          refine ⟨?_, by omega, by omega⟩
          by_cases hp : c = '+'
          · rw [if_pos (Or.inl hp)] at hne hd hun
            exact ⟨rest, hne, hd, Or.inl ⟨Or.inr (by rw [hv, hp]), by rw [hun]⟩⟩
          · rw [if_neg (fun x => x.elim hp hm)] at hne hd hun
            exact ⟨c :: rest, hne, hd, Or.inl ⟨Or.inl hv, by rw [hun]⟩⟩

/-- A digit character of a number below ten is a decimal digit of that value. -/
theorem digitChar_digit :
    ∀ k, k < 10 → (Nat.digitChar k).isDigit = true ∧ (Nat.digitChar k).toNat - 48 = k := by
  decide

/-- The digits that `Nat.toDigitsCore` puts in front of its accumulator, with
enough fuel, are decimal digits whose value is the number. -/
theorem toDigitsCore_digits (fuel : Nat) :
    ∀ (n : Nat) (ds : List Char), n < fuel →
      ∃ pre : List Char, Nat.toDigitsCore 10 fuel n ds = pre ++ ds ∧ pre ≠ []
        ∧ (∀ c ∈ pre, c.isDigit = true)
        ∧ Nat.ofDigits 10 ((pre.map (fun c => c.toNat - 48)).reverse) = n := by
  induction fuel with
  | zero => intro n ds h; omega
  | succ fuel ih =>
    intro n ds h
    have hdig := digitChar_digit (n % 10) (Nat.mod_lt _ (by decide))
    simp only [Nat.toDigitsCore]
    by_cases h0 : n / 10 = 0
    · rw [if_pos h0]
      refine ⟨[Nat.digitChar (n % 10)], rfl, by simp, ?_, ?_⟩
      · intro c hc
        rw [List.mem_singleton] at hc
        rw [hc]
        exact hdig.1
      · simp only [List.map_cons, List.map_nil, List.reverse_cons, List.reverse_nil,
          List.nil_append, Nat.ofDigits_singleton, hdig.2]
        omega
    · rw [if_neg h0]
      obtain ⟨pre, hpre, _, hd, hv⟩ := ih (n / 10) (Nat.digitChar (n % 10) :: ds) (by omega)
      refine ⟨pre ++ [Nat.digitChar (n % 10)], by rw [hpre]; simp, by simp, ?_, ?_⟩
      · intro c hc
        rcases List.mem_append.mp hc with hc | hc
        · exact hd c hc
        · rw [List.mem_singleton] at hc
          rw [hc]
          exact hdig.1
      · rw [List.map_append, List.reverse_append]
        simp only [List.map_cons, List.map_nil, List.reverse_cons, List.reverse_nil,
          List.nil_append, List.singleton_append, Nat.ofDigits_cons, hdig.2, hv]
        omega

/-- The decimal rendering of a number is a base-10 numeral of it. -/
theorem Numeral_FormatInt (n : Int) : strconv.Numeral (strconv.FormatInt n) n := by
  cases n with
  | ofNat m =>
    obtain ⟨pre, hpre, hne, hd, hv⟩ := toDigitsCore_digits (m + 1) m [] (by omega)
    rw [List.append_nil] at hpre
    refine ⟨pre, hne, hd, Or.inl ⟨Or.inl ?_, ?_⟩⟩
    · show Nat.toDigits 10 m = pre
      exact hpre
    · rw [hv]
      rfl
  | negSucc m =>
    obtain ⟨pre, hpre, hne, hd, hv⟩ := toDigitsCore_digits (m + 1 + 1) (m + 1) [] (by omega)
    rw [List.append_nil] at hpre
    refine ⟨pre, hne, hd, Or.inr ⟨?_, ?_⟩⟩
    · show '-' :: Nat.toDigits 10 (m + 1) = '-' :: pre
      rw [← hpre]
      rfl
    · rw [hv]
      rfl

/-- A base-10 numeral is not the empty string. -/
theorem Numeral_ne_empty (val : String) (n : Int) (h : strconv.Numeral val n) : val ≠ "" := by
  intro he
  obtain ⟨digits, hne, _, h⟩ := h
  rw [he] at h
  rcases h with ⟨hv | hv, _⟩ | ⟨hv, _⟩
  · exact hne hv.symm
  · cases hv
  · cases hv

/-- No decimal rendering begins with the sign `+`. -/
theorem FormatInt_ne_plus (n : Int) (rest : List Char) :
    (strconv.FormatInt n).data ≠ '+' :: rest := by
  cases n with
  | ofNat m =>
    obtain ⟨pre, hpre, hne, hd, _⟩ := toDigitsCore_digits (m + 1) m [] (by omega)
    rw [List.append_nil] at hpre
    intro he
    have he' : pre = '+' :: rest := by
      rw [← hpre]
      exact he
    have := hd '+' (by rw [he']; exact List.mem_cons_self _ _)
    rw [sign_not_digit.1] at this
    cases this
  | negSucc m =>
    intro he
    have : ('-' : Char) = '+' := (List.cons.inj he).1
    exact absurd this (by decide)

open http webhttp in
/-- The calls that the handler of `GET /api/shorten` makes when both
parameters parse. -/
theorem List_handler_calls (q : Rendering) (lib : Lib) (debug : Bool)
    (svc : ShortenService σ) (r : Request) (w : Response) (st : σ) (limit offset : Int)
    (hl : (ParamInt64Opts.mk ⟨true, "limit"⟩ defaultListLimit).parse (queryParam r "limit")
      = (limit, none))
    (ho : (ParamInt64Opts.mk ⟨true, "offset"⟩ 0).parse (queryParam r "offset")
      = (offset, none)) :
    (ShortenHandler.List q lib debug svc.traced r (w, (st, []))).2.2
      = [.List ⟨limit, offset⟩] := by
  simp only [ShortenHandler.List, queryParamInt64, hl, ho, ShortenService.traced, Encode]
  split <;> rfl

open http webhttp in
/-- C29, the counterexample. The strings `+5` and `007` are parsed to 5 and
7 without error, though the decimal rendering of 5 is `5`, that of 7 is `7`,
and no decimal rendering begins with `+`; the handler of `GET /api/shorten`
then calls the service with limit 7 for `limit=007`. -/
theorem parse_counterexample :
    (ParamInt64Opts.mk ⟨true, "limit"⟩ 50).parse "+5" = (5, none)
      ∧ strconv.FormatInt 5 = "5"
      ∧ (∀ n : Int, strconv.FormatInt n ≠ "+5")
      ∧ (ParamInt64Opts.mk ⟨true, "limit"⟩ 50).parse "007" = (7, none)
      ∧ strconv.FormatInt 7 = "7"
      ∧ (ShortenHandler.List Rendering.sample Lib.sample false (serviceOf modelService).traced
          ⟨"GET", "/api/shorten", [("limit", "007")], [], [], ""⟩
          (Response.new, (sqlite.World.start, []))).2.2 = [.List ⟨7, 0⟩] := by
  refine ⟨by decide, by decide, ?_, by decide, by decide, by decide⟩
  intro n he
  exact FormatInt_ne_plus n ['5'] (by rw [he])

open http webhttp in
/-- C29, amended: `ParamInt64Opts.parse` returns `(Default, nil)` for the
empty string when the parameter is optional and `(0, ErrMissingRequired)` when
it is required. For a string that is not empty it returns `(n, nil)` when the
string is a base-10 numeral of an `int64` `n` (an optional sign `+` or `-`,
then decimal digits, leading zeros allowed), as the decimal rendering of `n`
is, and otherwise `(0, e)` with `errors.Is(e, ErrBadFormat)`. So the handler of
`GET /api/shorten` calls the service with limit 50 and offset 0 when the query
has neither parameter, and with the numbers of the numerals when it has both. -/
theorem parse_spec (opts : ParamInt64Opts) (q : Rendering) (lib : Lib) (debug : Bool)
    (svc : ShortenService σ) (r : Request) (w : Response) (st : σ) :
    (opts.P.Optional = true → opts.parse "" = (opts.Default, none))
      ∧ (opts.P.Optional = false → opts.parse "" = (0, some ErrMissingRequired))
      ∧ (∀ (val : String) (n : Int), strconv.Numeral val n → -2 ^ 63 ≤ n → n < 2 ^ 63 →
          opts.parse val = (n, none))
      ∧ (∀ n : Int, -2 ^ 63 ≤ n → n < 2 ^ 63 → opts.parse (strconv.FormatInt n) = (n, none))
      ∧ (∀ val : String, val ≠ "" →
          (¬ ∃ n : Int, strconv.Numeral val n ∧ -2 ^ 63 ≤ n ∧ n < 2 ^ 63) →
          (opts.parse val).1 = 0 ∧ errorsIs (opts.parse val).2 ErrBadFormat = true)
      ∧ (queryParam r "limit" = "" → queryParam r "offset" = "" →
          (ShortenHandler.List q lib debug svc.traced r (w, (st, []))).2.2
            = [.List ⟨50, 0⟩])
      ∧ (∀ limit offset : Int,
          strconv.Numeral (queryParam r "limit") limit → -2 ^ 63 ≤ limit → limit < 2 ^ 63 →
          strconv.Numeral (queryParam r "offset") offset → -2 ^ 63 ≤ offset →
          offset < 2 ^ 63 →
          (ShortenHandler.List q lib debug svc.traced r (w, (st, []))).2.2
            = [.List ⟨limit, offset⟩]) := by
  have hnum : ∀ (o : ParamInt64Opts) (val : String) (n : Int), strconv.Numeral val n →
      -2 ^ 63 ≤ n → n < 2 ^ 63 → o.parse val = (n, none) := by
    intro o val n hn hlo hhi
    unfold ParamInt64Opts.parse
    rw [if_neg (Numeral_ne_empty val n hn), ParseInt_of_Numeral val n hn hlo hhi]
  refine ⟨?_, ?_, hnum opts, ?_, ?_, ?_, ?_⟩
  · intro h
    simp [ParamInt64Opts.parse, h]
  · intro h
    simp [ParamInt64Opts.parse, h]
  · intro n hlo hhi
    exact hnum opts _ n (Numeral_FormatInt n) hlo hhi
  · intro val hne hnot
    unfold ParamInt64Opts.parse
    rw [if_neg hne]
    cases hp : (strconv.ParseInt val).2 with
    | none =>
      exact absurd ⟨_, (Numeral_of_ParseInt val hp).1, (Numeral_of_ParseInt val hp).2⟩ hnot
    | some err =>
      exact ⟨rfl, errorsIs_wrapError _ _ _ _ (by decide)⟩
  · intro hl ho
    exact List_handler_calls q lib debug svc r w st 50 0
      (by rw [hl]; rfl) (by rw [ho]; rfl)
  · intro limit offset hl hllo hlhi ho holo hohi
    exact List_handler_calls q lib debug svc r w st limit offset
      (hnum _ _ _ hl hllo hlhi) (hnum _ _ _ ho holo hohi)

open http webhttp in
/-- Witness for C29: the request of the test of the handler, with
`limit=10&offset=1`, and a request without parameters. -/
theorem parse_spec_witness :
    (ParamInt64Opts.mk ⟨true, "limit"⟩ 50).parse "" = (50, none)
      ∧ (ParamInt64Opts.mk ⟨false, "id"⟩ 0).parse "" = (0, some ErrMissingRequired)
      ∧ (ParamInt64Opts.mk ⟨true, "limit"⟩ 50).parse "10" = (10, none)
      ∧ (ShortenHandler.List Rendering.sample Lib.sample false (serviceOf modelService).traced
          ⟨"GET", "/api/shorten", [], [], [], ""⟩
          (Response.new, (sqlite.World.start, []))).2.2 = [.List ⟨50, 0⟩]
      ∧ (ShortenHandler.List Rendering.sample Lib.sample false (serviceOf modelService).traced
          ⟨"GET", "/api/shorten", [("limit", "10"), ("offset", "1")], [], [], ""⟩
          (Response.new, (sqlite.World.start, []))).2.2 = [.List ⟨10, 1⟩] :=
  ⟨(parse_spec ⟨⟨true, "limit"⟩, 50⟩ Rendering.sample Lib.sample false
      (serviceOf modelService) ⟨"GET", "/api/shorten", [], [], [], ""⟩ Response.new
      sqlite.World.start).1 rfl,
    (parse_spec ⟨⟨false, "id"⟩, 0⟩ Rendering.sample Lib.sample false
      (serviceOf modelService) ⟨"GET", "/api/shorten", [], [], [], ""⟩ Response.new
      sqlite.World.start).2.1 rfl,
    (parse_spec ⟨⟨true, "limit"⟩, 50⟩ Rendering.sample Lib.sample false
      (serviceOf modelService) ⟨"GET", "/api/shorten", [], [], [], ""⟩ Response.new
      sqlite.World.start).2.2.1 "10" 10 (Numeral_of_ParseInt "10" (by decide)).1
      (by decide) (by decide),
    (parse_spec ⟨⟨true, "limit"⟩, 50⟩ Rendering.sample Lib.sample false
      (serviceOf modelService) ⟨"GET", "/api/shorten", [], [], [], ""⟩ Response.new
      sqlite.World.start).2.2.2.2.2.1 rfl rfl,
    (parse_spec ⟨⟨true, "limit"⟩, 50⟩ Rendering.sample Lib.sample false
      (serviceOf modelService)
      ⟨"GET", "/api/shorten", [("limit", "10"), ("offset", "1")], [], [], ""⟩ Response.new
      sqlite.World.start).2.2.2.2.2.2 10 1 (Numeral_of_ParseInt "10" (by decide)).1
      (by decide) (by decide) (Numeral_of_ParseInt "1" (by decide)).1 (by decide) (by decide)⟩

/-! ## The middleware `AcceptsJSON` -/

open http webhttp in
/-- The sample `EqualFold` takes only the empty string for the empty string. -/
theorem sample_EqualFold_empty (s : String) : Lib.sample.EqualFold s "" = true ↔ s = "" := by
  simp only [Lib.sample, decide_eq_true_eq]
  constructor
  · intro h
    have : s.data = [] := by simpa using h
    exact String.ext this
  · intro h
    rw [h]

open http webhttp in
/-- C30, the counterexample. The request parameter `version` has no
configured parameter of its name, yet the request with content type
`application/json; version=""` reaches the wrapped handler, here one that
answers 201: the middleware compares the empty value with the empty string
that the map of configured parameters gives for a name it does not have. With
the value `1` the same parameter is refused with 415. -/
theorem AcceptsJSON_counterexample :
    (Lib.sample.ParseMediaType "application/json; charset=utf-8").1.2.find?
        (fun kv => kv.1 = "version") = none
      ∧ (Lib.sample.ParseMediaType "application/json; version=\"\"")
        = (("application/json", [("version", "")]), none)
      ∧ (AcceptsJSON Lib.sample).map (fun mw =>
          (mw (fun _ st => (st.1.WriteHeader 201, st.2))
            ⟨"POST", "/api/shorten", [], [],
              [("Content-Type", "application/json; version=\"\"")], ""⟩
            (Response.new, ())).1.Code) = some 201
      ∧ (AcceptsJSON Lib.sample).map (fun mw =>
          (mw (fun _ st => (st.1.WriteHeader 201, st.2))
            ⟨"POST", "/api/shorten", [], [],
              [("Content-Type", "application/json; version=1")], ""⟩
            (Response.new, ())).1.Code) = some 415 := by
  decide

open http webhttp in
/-- C30, amended: the middleware `AcceptsJSON`, for a library whose
`ParseMediaType` reads the configured content type and `application/json` as
Go does, and whose `EqualFold` takes a string for itself and only the empty
string for the empty string. The wrapped handler is called exactly when the
content type of the request parses, its media type equals `application/json`
ignoring case, and every parameter of the request either is `charset` with
a value equal to `utf-8` ignoring case, or has another name and an empty
value; otherwise the handler is not called and the status of a response to
which nothing was sent is 415. A request with content type `application/json`
and no charset is accepted. -/
theorem AcceptsJSON_spec (lib : Lib)
    (hcfg : lib.ParseMediaType "application/json; charset=utf-8"
      = (("application/json", [("charset", "utf-8")]), none))
    (hplain : lib.ParseMediaType "application/json" = (("application/json", []), none))
    (hrefl : lib.EqualFold "application/json" "application/json" = true)
    (hempty : ∀ s : String, lib.EqualFold s "" = true ↔ s = "")
    (next : Handler σ) (r : Request) (w : Response) (st : σ) (hw : w.Code = 0) :
    ∃ mw : Handler σ → Handler σ, AcceptsJSON lib = some mw
      ∧ (((lib.ParseMediaType (r.Get "content-type")).2 = none
            ∧ lib.EqualFold "application/json"
                (lib.ParseMediaType (r.Get "content-type")).1.1 = true
            ∧ ∀ kv ∈ (lib.ParseMediaType (r.Get "content-type")).1.2,
                (kv.1 = "charset" ∧ lib.EqualFold kv.2 "utf-8" = true)
                  ∨ (kv.1 ≠ "charset" ∧ kv.2 = "")) →
          mw next r (w, st) = next r (w, st))
      ∧ (¬ ((lib.ParseMediaType (r.Get "content-type")).2 = none
            ∧ lib.EqualFold "application/json"
                (lib.ParseMediaType (r.Get "content-type")).1.1 = true
            ∧ ∀ kv ∈ (lib.ParseMediaType (r.Get "content-type")).1.2,
                (kv.1 = "charset" ∧ lib.EqualFold kv.2 "utf-8" = true)
                  ∨ (kv.1 ≠ "charset" ∧ kv.2 = "")) →
          mw next r (w, st) = (w.WriteHeader 415, st)
            ∧ (mw next r (w, st)).1.Code = 415)
      ∧ (r.Get "content-type" = "application/json" →
          mw next r (w, st) = next r (w, st)) := by
  have hparam : ∀ kv : String × String,
      lib.EqualFold kv.2 (lookup [("charset", "utf-8")] kv.1) = true
        ↔ ((kv.1 = "charset" ∧ lib.EqualFold kv.2 "utf-8" = true)
            ∨ (kv.1 ≠ "charset" ∧ kv.2 = "")) := by
    intro kv
    by_cases hk : kv.1 = "charset"
    · have hl : lookup [("charset", "utf-8")] kv.1 = "utf-8" := by
        rw [hk]
        rfl
      rw [hl]
      constructor
      · intro h
        exact Or.inl ⟨hk, h⟩
      · intro h
        rcases h with h | h
        · exact h.2
        · exact absurd hk h.1
    · have hl : lookup [("charset", "utf-8")] kv.1 = "" := by
        have hne : ("charset" : String) ≠ kv.1 := fun h => hk h.symm
        simp [lookup, List.find?_cons, hne]
      rw [hl, hempty]
      constructor
      · intro h
        exact Or.inr ⟨hk, h⟩
      · intro h
        rcases h with h | h
        · exact absurd h.1 hk
        · exact h.2
  have hmw : @AcceptsJSON σ lib
      = some (fun next r st =>
          match (lib.ParseMediaType (r.Get "content-type")).2 with
          | some _ => (st.1.WriteHeader StatusUnsupportedMediaType, st.2)
          | none =>
            if !lib.EqualFold "application/json"
                (lib.ParseMediaType (r.Get "content-type")).1.1 then
              (st.1.WriteHeader StatusUnsupportedMediaType, st.2)
            else if (lib.ParseMediaType (r.Get "content-type")).1.2.any (fun kv =>
                !lib.EqualFold kv.2 (lookup [("charset", "utf-8")] kv.1)) then
              (st.1.WriteHeader StatusUnsupportedMediaType, st.2)
            else next r st) := by
    simp only [AcceptsJSON, RequestContentType, hcfg]
  have hacc : ((lib.ParseMediaType (r.Get "content-type")).2 = none
        ∧ lib.EqualFold "application/json"
            (lib.ParseMediaType (r.Get "content-type")).1.1 = true
        ∧ ∀ kv ∈ (lib.ParseMediaType (r.Get "content-type")).1.2,
            (kv.1 = "charset" ∧ lib.EqualFold kv.2 "utf-8" = true)
              ∨ (kv.1 ≠ "charset" ∧ kv.2 = "")) →
      (match (lib.ParseMediaType (r.Get "content-type")).2 with
        | some _ => (w.WriteHeader StatusUnsupportedMediaType, st)
        | none =>
          if !lib.EqualFold "application/json"
              (lib.ParseMediaType (r.Get "content-type")).1.1 then
            (w.WriteHeader StatusUnsupportedMediaType, st)
          else if (lib.ParseMediaType (r.Get "content-type")).1.2.any (fun kv =>
              !lib.EqualFold kv.2 (lookup [("charset", "utf-8")] kv.1)) then
            (w.WriteHeader StatusUnsupportedMediaType, st)
          else next r (w, st)) = next r (w, st) := by
    intro h
    rw [h.1]
    simp only [h.2.1, Bool.not_true, Bool.false_eq_true, if_false]
    rw [if_neg]
    intro hany
    obtain ⟨kv, hkv, hb⟩ := List.any_eq_true.mp hany
    rw [(hparam kv).mpr (h.2.2 kv hkv)] at hb
    cases hb
  refine ⟨_, hmw, hacc, ?_, ?_⟩
  · intro hnot
    have hres : (match (lib.ParseMediaType (r.Get "content-type")).2 with
        | some _ => (w.WriteHeader StatusUnsupportedMediaType, st)
        | none =>
          if !lib.EqualFold "application/json"
              (lib.ParseMediaType (r.Get "content-type")).1.1 then
            (w.WriteHeader StatusUnsupportedMediaType, st)
          else if (lib.ParseMediaType (r.Get "content-type")).1.2.any (fun kv =>
              !lib.EqualFold kv.2 (lookup [("charset", "utf-8")] kv.1)) then
            (w.WriteHeader StatusUnsupportedMediaType, st)
          else next r (w, st)) = (w.WriteHeader 415, st) := by
      cases hp : (lib.ParseMediaType (r.Get "content-type")).2 with
      | some e => rfl
      | none =>
        simp only
        by_cases hm : lib.EqualFold "application/json"
            (lib.ParseMediaType (r.Get "content-type")).1.1 = true
        · simp only [hm, Bool.not_true, Bool.false_eq_true, if_false]
          rw [if_pos]
          · rfl
          · by_contra hany
            apply hnot
            refine ⟨hp, hm, ?_⟩
            intro kv hkv
            apply (hparam kv).mp
            by_contra hb
            apply hany
            exact List.any_eq_true.mpr ⟨kv, hkv, by simp [hb]⟩
        · rw [if_pos (by simp [hm])]
          rfl
    exact ⟨hres, by rw [hres]; exact WriteHeader_Code w 415 hw⟩
  · intro hct
    apply hacc
    rw [hct, hplain]
    exact ⟨rfl, hrefl, fun kv hkv => by cases hkv⟩

open http webhttp in
/-- Witness for C30: on the sample library, the request of the integration
test, with content type `application/json` and no charset, reaches the wrapped
handler, here one that answers 201. -/
theorem AcceptsJSON_spec_witness :
    Response.new.Code = 0
      ∧ ∃ mw : Handler Unit → Handler Unit, AcceptsJSON Lib.sample = some mw
        ∧ mw (fun _ st => (st.1.WriteHeader 201, st.2))
            ⟨"POST", "/api/shorten", [], [], [("Content-Type", "application/json")], ""⟩
            (Response.new, ())
          = (Response.new.WriteHeader 201, ()) :=
  ⟨rfl,
    (AcceptsJSON_spec Lib.sample rfl rfl (by decide) sample_EqualFold_empty
      (fun _ st => (st.1.WriteHeader 201, st.2))
      ⟨"POST", "/api/shorten", [], [], [("Content-Type", "application/json")], ""⟩
      Response.new () rfl).imp (fun _ h => ⟨h.1, h.2.2.2 (by decide)⟩)⟩

end Service

end Jobtome
